import Mathlib

/-!
DXNativeToFBX: coordinate transcoding, geometry export, skin weights,
keyframe merge, frame hierarchy, scene export and the command line driver.

A shallow embedding of `MatrixConverter.cpp`, of the geometry, skin and
animation parts of `FBXExporter.cpp`, of `XFileParser::ExtractSkinWeights`,
`XFileParser::LoadAnimations` and `XFileParser::ConvertFrame`, and of
`main.cpp`.

Conventions of the embedding.

* `float` and `double` values are elements of a linearly ordered field `K`
  (exact arithmetic); every definition is computable and can be run at `K = ℚ`.
  In the normalisation loop of `ExtractSkinWeights` every `float` operation
  is the exact operation followed by a rounding `fl : K → K`, a parameter of
  which the statements say what they need.
* `DWORD`, `int` and `size_t` values are natural numbers (containers are far
  below the 32-bit range). A result code (`HRESULT`) is the `DWORD` it
  converts to: `D3D_OK` is 0.
* The C runtime square root is a parameter `sqrt : K → K`. Where a statement
  needs it to be a square root at some argument, it says so with `IsSqrtAt`.
* Library calls whose code is not part of the repository (Direct3D extension
  library, FBX SDK) are fields of the structures `D3DX`, `FbxAMatrixOps` and
  `FbxSceneOps`; the calls of `main` into the parser, the FBX SDK and the
  file system are fields of `MainEnv`.
* A run of `main` ends with an exit code or, when a destructor deletes a
  frame that is already deleted, in a state without meaning
  (`ProcessOutcome`).
* A `std::map` is a function into `Option`; an FBX scene is the list of its
  nodes (a node pointer is an index, the root is node 0) and of its animation
  stacks; an animation curve is the list of its `(time, value)` keys in the
  order they were set.
* The `FrameData` records allocated by `ConvertFrame` are a list in
  allocation order; a `FrameData*` is a position in it, `none` the null
  pointer. `ConvertMeshContainer` and the material vector it updates are
  parameters of `ConvertFrame`.
-/

namespace DXFbx

/-! ## Data model (`Common.h` and the library value types) -/

/-- Two floats `x`, `y` (Direct3D). -/
structure D3DXVECTOR2 (K : Type) where
  x : K
  y : K
deriving DecidableEq, Repr

/-- Three floats `x`, `y`, `z` (Direct3D). -/
structure D3DXVECTOR3 (K : Type) where
  x : K
  y : K
  z : K
deriving DecidableEq, Repr

/-- Quaternion `(x, y, z, w)` (Direct3D). -/
structure D3DXQUATERNION (K : Type) where
  x : K
  y : K
  z : K
  w : K
deriving DecidableEq, Repr

/-- Row-major 4x4 matrix with members `_11 .. _44`; `m[r][c]` is `_(r+1)(c+1)`. -/
structure D3DXMATRIX (K : Type) where
  _11 : K
  _12 : K
  _13 : K
  _14 : K
  _21 : K
  _22 : K
  _23 : K
  _24 : K
  _31 : K
  _32 : K
  _33 : K
  _34 : K
  _41 : K
  _42 : K
  _43 : K
  _44 : K
deriving DecidableEq, Repr

/-- Two doubles (FBX SDK). -/
structure FbxVector2 (K : Type) where
  x : K
  y : K
deriving DecidableEq, Repr

/-- Four doubles `(x, y, z, w)` (FBX SDK); index `[i]` is the `i`-th of them. -/
structure FbxVector4 (K : Type) where
  x : K
  y : K
  z : K
  w : K
deriving DecidableEq, Repr

/-- Quaternion `(x, y, z, w)` (FBX SDK). -/
structure FbxQuaternion (K : Type) where
  x : K
  y : K
  z : K
  w : K
deriving DecidableEq, Repr

/-- Target handedness. -/
inductive CoordinateSystem where
  | LEFT_HANDED
  | RIGHT_HANDED
deriving DecidableEq, Repr

/-- Target up axis. -/
inductive UpAxis where
  | X_AXIS
  | Y_AXIS
  | Z_AXIS
deriving DecidableEq, Repr

/-- Conversion options with the defaults of `Common.h`. -/
structure ConversionOptions (K : Type) [One K] [OfNat K 30] where
  inputFile : String := ""
  outputFile : String := ""
  targetCoordSystem : CoordinateSystem := CoordinateSystem.RIGHT_HANDED
  upAxis : UpAxis := UpAxis.Y_AXIS
  scale : K := 1
  exportTextures : Bool := true
  mergeMaterials : Bool := false
  triangulate : Bool := true
  verbose : Bool := false
  fbxVersion : Int := -1
  targetFPS : K := 30
  resampleAnimation : Bool := true

variable {K : Type} [LinearOrderedField K]

/-- The statement that `sqrt` returns the non-negative square root at `a`. -/
def IsSqrtAt (sqrt : K → K) (a : K) : Prop :=
  0 ≤ sqrt a ∧ sqrt a * sqrt a = a

/-! ## External library interfaces -/

/-- Calls into the Direct3D extension library used by `MatrixConverter`:
`sqrt` is the root taken inside the inline `D3DXVec3Length`;
`QuaternionRotationMatrix` and `QuaternionNormalize` are
`D3DXQuaternionRotationMatrix` and `D3DXQuaternionNormalize`. -/
structure D3DX (K : Type) where
  sqrt : K → K
  QuaternionRotationMatrix : D3DXMATRIX K → D3DXQUATERNION K
  QuaternionNormalize : D3DXQUATERNION K → D3DXQUATERNION K

/-- Operations of the FBX SDK class `FbxAMatrix` used by `MatrixConverter`
and by the node export, over a carrier `M` of matrices: `identity` is the
default-constructed matrix, `mul a b` is `a * b`. -/
structure FbxAMatrixOps (K : Type) (M : Type) where
  identity : M
  SetRow : M → Nat → FbxVector4 K → M
  SetT : M → FbxVector4 K → M
  SetQ : M → FbxQuaternion K → M
  SetS : M → FbxVector4 K → M
  SetR : M → FbxVector4 K → M
  GetT : M → FbxVector4 K
  GetQ : M → FbxQuaternion K
  GetS : M → FbxVector4 K
  mul : M → M → M

/-- Setting the translation of a matrix is read back by `GetT` in the three
spatial components and leaves what `GetQ` and `GetS` read untouched. -/
structure FbxAMatrixOps.SetTLaws {M : Type} (sdk : FbxAMatrixOps K M) : Prop where
  getT_x : ∀ m t, (sdk.GetT (sdk.SetT m t)).x = t.x
  getT_y : ∀ m t, (sdk.GetT (sdk.SetT m t)).y = t.y
  getT_z : ∀ m t, (sdk.GetT (sdk.SetT m t)).z = t.z
  getQ : ∀ m t, sdk.GetQ (sdk.SetT m t) = sdk.GetQ m
  getS : ∀ m t, sdk.GetS (sdk.SetT m t) = sdk.GetS m

/-- Squared length of a quaternion. -/
def FbxQuaternion.sqLength (q : FbxQuaternion K) : K :=
  q.x * q.x + q.y * q.y + q.z * q.z + q.w * q.w

/-- Method `FbxQuaternion::Normalize` (FBX SDK): divide every component by the
length; a quaternion of length zero is left as it is. -/
def FbxQuaternion.Normalize (sqrt : K → K) (q : FbxQuaternion K) : FbxQuaternion K :=
  let len := sqrt q.sqLength
  if len = 0 then q else ⟨q.x / len, q.y / len, q.z / len, q.w / len⟩

/-- Inline `D3DXVec3Length` of `d3dx9math.inl`: `sqrtf(x*x + y*y + z*z)`. -/
def D3DXVec3Length (sqrt : K → K) (v : D3DXVECTOR3 K) : K :=
  sqrt (v.x * v.x + v.y * v.y + v.z * v.z)

/-! ## `MatrixConverter.cpp` -/

namespace MatrixConverter

/-- Function `MatrixConverter::ConvertPosition_LH_to_RH`. -/
def ConvertPosition_LH_to_RH (dxPos : D3DXVECTOR3 K) : FbxVector4 K :=
  ⟨dxPos.x, dxPos.y, -dxPos.z, 1⟩

/-- Function `MatrixConverter::ConvertNormal_LH_to_RH`. -/
def ConvertNormal_LH_to_RH (dxNormal : D3DXVECTOR3 K) : FbxVector4 K :=
  ⟨dxNormal.x, dxNormal.y, -dxNormal.z, 0⟩

/-- Function `MatrixConverter::ConvertScale`. -/
def ConvertScale (dxScale : D3DXVECTOR3 K) : FbxVector4 K :=
  ⟨dxScale.x, dxScale.y, dxScale.z, 1⟩

/-- Function `MatrixConverter::ConvertQuaternion_LH_to_RH`: negate `x` and `y`, then
`Normalize()`. -/
def ConvertQuaternion_LH_to_RH (sqrt : K → K) (dxQuat : D3DXQUATERNION K) :
    FbxQuaternion K :=
  let fbxQuat : FbxQuaternion K := ⟨-dxQuat.x, -dxQuat.y, dxQuat.z, dxQuat.w⟩
  fbxQuat.Normalize sqrt

/-- Function `MatrixConverter::ExtractTranslation`. -/
def ExtractTranslation (matrix : D3DXMATRIX K) : D3DXVECTOR3 K :=
  ⟨matrix._41, matrix._42, matrix._43⟩

/-- Function `MatrixConverter::ExtractScale`. -/
def ExtractScale (sqrt : K → K) (matrix : D3DXMATRIX K) : D3DXVECTOR3 K :=
  let scaleX : D3DXVECTOR3 K := ⟨matrix._11, matrix._12, matrix._13⟩
  let scaleY : D3DXVECTOR3 K := ⟨matrix._21, matrix._22, matrix._23⟩
  let scaleZ : D3DXVECTOR3 K := ⟨matrix._31, matrix._32, matrix._33⟩
  let sx := D3DXVec3Length sqrt scaleX
  let sy := D3DXVec3Length sqrt scaleY
  let sz := D3DXVec3Length sqrt scaleZ
  ⟨sx, sy, sz⟩

/-- Function `MatrixConverter::NormalizeQuaternion`. -/
def NormalizeQuaternion (d3dx : D3DX K) (q : D3DXQUATERNION K) : D3DXQUATERNION K :=
  d3dx.QuaternionNormalize q

/-- Lines 271-303 of `DecomposeMatrix`: the copy of `matrix` with the
translation entries cleared and every basis vector divided by its scale
factor when that factor is not zero. -/
def DecomposeMatrix.rotationMatrix (matrix : D3DXMATRIX K) (scale : D3DXVECTOR3 K) :
    D3DXMATRIX K :=
  let rotationMatrix := matrix
  let rotationMatrix := { rotationMatrix with _41 := 0, _42 := 0, _43 := 0 }
  let rotationMatrix :=
    if scale.x ≠ 0 then
      { rotationMatrix with
        _11 := rotationMatrix._11 / scale.x
        _12 := rotationMatrix._12 / scale.x
        _13 := rotationMatrix._13 / scale.x }
    else rotationMatrix
  let rotationMatrix :=
    if scale.y ≠ 0 then
      { rotationMatrix with
        _21 := rotationMatrix._21 / scale.y
        _22 := rotationMatrix._22 / scale.y
        _23 := rotationMatrix._23 / scale.y }
    else rotationMatrix
  let rotationMatrix :=
    if scale.z ≠ 0 then
      { rotationMatrix with
        _31 := rotationMatrix._31 / scale.z
        _32 := rotationMatrix._32 / scale.z
        _33 := rotationMatrix._33 / scale.z }
    else rotationMatrix
  rotationMatrix

/-- Function `MatrixConverter::DecomposeMatrix`; the three output parameters are
returned as `(translation, rotation, scale)`. -/
def DecomposeMatrix (d3dx : D3DX K) (matrix : D3DXMATRIX K) :
    D3DXVECTOR3 K × D3DXQUATERNION K × D3DXVECTOR3 K :=
  let translation := ExtractTranslation matrix
  let scale := ExtractScale d3dx.sqrt matrix
  let rotationMatrix := DecomposeMatrix.rotationMatrix matrix scale
  let rotation := d3dx.QuaternionRotationMatrix rotationMatrix
  let rotation := NormalizeQuaternion d3dx rotation
  (translation, rotation, scale)

/-- Function `MatrixConverter::ExtractRotation`. -/
def ExtractRotation (d3dx : D3DX K) (matrix : D3DXMATRIX K) : D3DXQUATERNION K :=
  (DecomposeMatrix d3dx matrix).2.1

variable {M : Type}

/-- Function `MatrixConverter::ConvertMatrix_LH_to_RH`. The call to
`InitializeConversionMatrix` only fills a static matrix that no conversion
reads, so it has no counterpart here. -/
def ConvertMatrix_LH_to_RH (d3dx : D3DX K) (sdk : FbxAMatrixOps K M)
    (dxMatrix : D3DXMATRIX K) : M :=
  let (translation, rotation, scale) := DecomposeMatrix d3dx dxMatrix
  let fbxTranslation := ConvertPosition_LH_to_RH translation
  let fbxRotation := ConvertQuaternion_LH_to_RH d3dx.sqrt rotation
  let fbxScale := ConvertScale scale
  let result := sdk.identity
  let result := sdk.SetT result fbxTranslation
  let result := sdk.SetQ result fbxRotation
  let result := sdk.SetS result fbxScale
  result

/-- Function `MatrixConverter::D3DMatrixToFbxAMatrix`: the entry-wise copy. -/
def D3DMatrixToFbxAMatrix (sdk : FbxAMatrixOps K M) (dxMatrix : D3DXMATRIX K) : M :=
  let fbxMatrix := sdk.identity
  let fbxMatrix := sdk.SetRow fbxMatrix 0
    ⟨dxMatrix._11, dxMatrix._12, dxMatrix._13, dxMatrix._14⟩
  let fbxMatrix := sdk.SetRow fbxMatrix 1
    ⟨dxMatrix._21, dxMatrix._22, dxMatrix._23, dxMatrix._24⟩
  let fbxMatrix := sdk.SetRow fbxMatrix 2
    ⟨dxMatrix._31, dxMatrix._32, dxMatrix._33, dxMatrix._34⟩
  let fbxMatrix := sdk.SetRow fbxMatrix 3
    ⟨dxMatrix._41, dxMatrix._42, dxMatrix._43, dxMatrix._44⟩
  fbxMatrix

/-- Function `MatrixConverter::ApplyGlobalScale`. -/
def ApplyGlobalScale (position : FbxVector4 K) (scale : K) : FbxVector4 K :=
  ⟨position.x * scale, position.y * scale, position.z * scale, position.w⟩

/-- The matrix `rotationMatrix` of `ConvertMatrixWithOptions`: a default
matrix whose Euler rotation is set to `FbxVector4(-90.0, 0.0, 0.0)`. -/
def upAxisRotation (sdk : FbxAMatrixOps K M) : M :=
  sdk.SetR sdk.identity ⟨-90, 0, 0, 1⟩

/-- Lines 388-398 of `ConvertMatrixWithOptions`: the conversion chosen by
the target handedness, before the global scale is applied. -/
def ConvertMatrixWithOptions.unscaled (d3dx : D3DX K) (sdk : FbxAMatrixOps K M)
    (matrix : D3DXMATRIX K) (options : ConversionOptions K) : M :=
  if options.targetCoordSystem = CoordinateSystem.RIGHT_HANDED then
    ConvertMatrix_LH_to_RH d3dx sdk matrix
  else
    D3DMatrixToFbxAMatrix sdk matrix

/-- Lines 388-406 of `ConvertMatrixWithOptions`: the unscaled conversion
followed by the global scale step. -/
def ConvertMatrixWithOptions.converted (d3dx : D3DX K) (sdk : FbxAMatrixOps K M)
    (matrix : D3DXMATRIX K) (options : ConversionOptions K) : M :=
  let result := ConvertMatrixWithOptions.unscaled d3dx sdk matrix options
  let result :=
    if options.scale ≠ 1 then
      let translation := sdk.GetT result
      let translation := ApplyGlobalScale translation options.scale
      sdk.SetT result translation
    else result
  result

/-- Function `MatrixConverter::ConvertMatrixWithOptions`: lines 388-406 are
`ConvertMatrixWithOptions.converted`, lines 408-418 the up-axis step. -/
def ConvertMatrixWithOptions (d3dx : D3DX K) (sdk : FbxAMatrixOps K M)
    (matrix : D3DXMATRIX K) (options : ConversionOptions K) : M :=
  let result := ConvertMatrixWithOptions.converted d3dx sdk matrix options
  let result :=
    if options.upAxis = UpAxis.Z_AXIS then
      let rotationMatrix := upAxisRotation sdk
      sdk.mul rotationMatrix result
    else result
  result

end MatrixConverter

/-! ## Mesh data (`Common.h`) -/

/-- Constant `MAX_BONE_INFLUENCES` of `Common.h`. -/
abbrev MAX_BONE_INFLUENCES : Nat := 4

/-- Constant `EPSILON` of `Common.h` (`0.0001f`). -/
def EPSILON : K := 1 / 10000

/-- Vertex record of `Common.h`; the two fixed-size arrays are functions on
the slot numbers `0 .. MAX_BONE_INFLUENCES - 1`. -/
structure Vertex (K : Type) where
  position : D3DXVECTOR3 K
  normal : D3DXVECTOR3 K
  texCoord : D3DXVECTOR2 K
  boneIndices : Fin MAX_BONE_INFLUENCES → Nat
  boneWeights : Fin MAX_BONE_INFLUENCES → K

/-- Default constructor `Vertex()`. -/
def Vertex.new : Vertex K :=
  { position := ⟨0, 0, 0⟩
    normal := ⟨0, 1, 0⟩
    texCoord := ⟨0, 0⟩
    boneIndices := fun _ => 0
    boneWeights := fun _ => 0 }

/-- Result of `D3DXMatrixIdentity`. -/
def D3DXMATRIX.identity : D3DXMATRIX K :=
  ⟨1, 0, 0, 0, 0, 1, 0, 0, 0, 0, 1, 0, 0, 0, 0, 1⟩

/-- Bone record of `Common.h`. -/
structure BoneData (K : Type) where
  name : String
  offsetMatrix : D3DXMATRIX K
  transformMatrix : D3DXMATRIX K
  parentIndex : Int

/-- Default constructor `BoneData()`. -/
def BoneData.new : BoneData K :=
  { name := ""
    offsetMatrix := D3DXMATRIX.identity
    transformMatrix := D3DXMATRIX.identity
    parentIndex := -1 }

/-- Mesh record of `Common.h`. -/
structure MeshData (K : Type) where
  name : String
  vertices : List (Vertex K)
  indices : List Nat
  materialIndices : List Nat
  hasSkinning : Bool
  bones : List (BoneData K)

/-! ## Geometry export (`FBXExporter.cpp`) -/

/-- One UV layer element of an `FbxMesh`: its name and its direct array. -/
structure FbxGeometryElementUV (K : Type) where
  name : String
  directArray : List (FbxVector2 K)

/-- One normal layer element of an `FbxMesh`: its direct array. -/
structure FbxGeometryElementNormal (K : Type) where
  directArray : List (FbxVector4 K)

/-- The part of an FBX SDK `FbxMesh` that the geometry export writes:
control points, finished polygons, the polygon under construction, and the
UV and normal layer elements in creation order. -/
structure FbxMesh (K : Type) where
  controlPoints : List (FbxVector4 K)
  polygons : List (List Nat)
  current : List Nat
  elementUVs : List (FbxGeometryElementUV K)
  elementNormals : List (FbxGeometryElementNormal K)

/-- Result of `FbxMesh::Create`: an empty mesh. -/
def FbxMesh.Create : FbxMesh K :=
  { controlPoints := [], polygons := [], current := [], elementUVs := [], elementNormals := [] }

/-- Method `FbxMesh::InitControlPoints`: allocate `n` control points. -/
def FbxMesh.InitControlPoints (m : FbxMesh K) (n : Nat) : FbxMesh K :=
  { m with controlPoints := List.replicate n ⟨0, 0, 0, 0⟩ }

/-- Assignment `controlPoints[i] = pos`. -/
def FbxMesh.setControlPoint (m : FbxMesh K) (i : Nat) (pos : FbxVector4 K) : FbxMesh K :=
  { m with controlPoints := m.controlPoints.set i pos }

/-- Method `FbxMesh::BeginPolygon`: open an empty polygon. -/
def FbxMesh.BeginPolygon (m : FbxMesh K) : FbxMesh K :=
  { m with current := [] }

/-- Method `FbxMesh::AddPolygon`: append a corner index to the open polygon. -/
def FbxMesh.AddPolygon (m : FbxMesh K) (index : Nat) : FbxMesh K :=
  { m with current := m.current ++ [index] }

/-- Method `FbxMesh::EndPolygon`: close the open polygon. -/
def FbxMesh.EndPolygon (m : FbxMesh K) : FbxMesh K :=
  { m with polygons := m.polygons ++ [m.current], current := [] }

/-- The member of class `FBXExporter` read by the geometry export. -/
structure FBXExporter (K : Type) [One K] [OfNat K 30] where
  m_Options : ConversionOptions K

namespace FBXExporter

/-- Body of the first loop of `ExportGeometry` (lines 375-387) for index `i`. -/
def ExportGeometry.vertexStep (self : FBXExporter K) (meshData : MeshData K)
    (fbxMesh : FbxMesh K) (i : Nat) : FbxMesh K :=
  let vertex := meshData.vertices.getD i Vertex.new
  let pos := MatrixConverter.ConvertPosition_LH_to_RH vertex.position
  let pos :=
    if self.m_Options.scale ≠ 1 then
      MatrixConverter.ApplyGlobalScale pos self.m_Options.scale
    else pos
  fbxMesh.setControlPoint i pos

/-- Body of the second loop of `ExportGeometry` (lines 390-410) for index `i`. -/
def ExportGeometry.polygonStep (self : FBXExporter K) (meshData : MeshData K)
    (fbxMesh : FbxMesh K) (i : Nat) : FbxMesh K :=
  let fbxMesh := fbxMesh.BeginPolygon
  let fbxMesh :=
    if self.m_Options.targetCoordSystem = CoordinateSystem.RIGHT_HANDED then
      let fbxMesh := fbxMesh.AddPolygon (meshData.indices.getD (i * 3 + 0) 0)
      let fbxMesh := fbxMesh.AddPolygon (meshData.indices.getD (i * 3 + 2) 0)
      let fbxMesh := fbxMesh.AddPolygon (meshData.indices.getD (i * 3 + 1) 0)
      fbxMesh
    else
      let fbxMesh := fbxMesh.AddPolygon (meshData.indices.getD (i * 3 + 0) 0)
      let fbxMesh := fbxMesh.AddPolygon (meshData.indices.getD (i * 3 + 1) 0)
      let fbxMesh := fbxMesh.AddPolygon (meshData.indices.getD (i * 3 + 2) 0)
      fbxMesh
  fbxMesh.EndPolygon

/-- Corner list that the second loop of `ExportGeometry` emits for
triangle `i`. -/
def emittedTriangle (self : FBXExporter K) (meshData : MeshData K) (i : Nat) : List Nat :=
  if self.m_Options.targetCoordSystem = CoordinateSystem.RIGHT_HANDED then
    [meshData.indices.getD (i * 3 + 0) 0, meshData.indices.getD (i * 3 + 2) 0,
      meshData.indices.getD (i * 3 + 1) 0]
  else
    [meshData.indices.getD (i * 3 + 0) 0, meshData.indices.getD (i * 3 + 1) 0,
      meshData.indices.getD (i * 3 + 2) 0]

/-- Method `FBXExporter::ExportGeometry`. -/
def ExportGeometry (self : FBXExporter K) (meshData : MeshData K) (fbxMesh : FbxMesh K) :
    FbxMesh K :=
  let numVertices := meshData.vertices.length
  let numPolygons := meshData.indices.length / 3
  let fbxMesh := fbxMesh.InitControlPoints numVertices
  let fbxMesh := (List.range numVertices).foldl (ExportGeometry.vertexStep self meshData) fbxMesh
  let fbxMesh := (List.range numPolygons).foldl (ExportGeometry.polygonStep self meshData) fbxMesh
  fbxMesh

/-- Method `FBXExporter::ExportUVs`: a new element `DiffuseUV` receives one
UV per vertex. -/
def ExportUVs (_self : FBXExporter K) (meshData : MeshData K) (fbxMesh : FbxMesh K) :
    FbxMesh K :=
  let uvElement : FbxGeometryElementUV K := { name := "DiffuseUV", directArray := [] }
  let uvElement := meshData.vertices.foldl
    (fun (uvElement : FbxGeometryElementUV K) (vertex : Vertex K) =>
      let uv : FbxVector2 K := ⟨vertex.texCoord.x, 1 - vertex.texCoord.y⟩
      { uvElement with directArray := uvElement.directArray ++ [uv] })
    uvElement
  { fbxMesh with elementUVs := fbxMesh.elementUVs ++ [uvElement] }

/-- Method `FBXExporter::ExportNormals`. -/
def ExportNormals (_self : FBXExporter K) (meshData : MeshData K) (fbxMesh : FbxMesh K) :
    FbxMesh K :=
  let normalElement : FbxGeometryElementNormal K := { directArray := [] }
  let normalElement := meshData.vertices.foldl
    (fun (normalElement : FbxGeometryElementNormal K) (vertex : Vertex K) =>
      let normal := MatrixConverter.ConvertNormal_LH_to_RH vertex.normal
      { normalElement with directArray := normalElement.directArray ++ [normal] })
    normalElement
  { fbxMesh with elementNormals := fbxMesh.elementNormals ++ [normalElement] }

end FBXExporter

/-! ## Skin weights (`XFileParser.cpp`) -/

/-- Result code `D3D_OK` of the Direct3D headers (success), as the `DWORD` it
converts to. -/
abbrev D3D_OK : Nat := 0

/-- Result code `D3DERR_INVALIDCALL` of the Direct3D headers (`0x8876086C`),
as the `DWORD` it converts to. -/
abbrev D3DERR_INVALIDCALL : Nat := 0x8876086C

/-- What the `ID3DXSkinInfo` interface gives for one bone: `GetBoneName`,
`GetBoneOffsetMatrix`, `GetNumBoneInfluences`, and for the one call of
`GetBoneInfluence` its return value, which is a result code (`HRESULT`, here
as the `DWORD` that line 424 stores it in), together with the contents of
the two arrays after the call. -/
structure SkinBoneInfo (K : Type) where
  boneName : String
  boneOffsetMatrix : D3DXMATRIX K
  numBoneInfluences : Nat
  GetBoneInfluence : Nat
  pVertices : List Nat
  pWeights : List K

/-- Behaviour of `ID3DXSkinInfo::GetBoneInfluence` as the library documents
it, for a bone with fewer than `2^31` influences: the return value is
`D3D_OK` or `D3DERR_INVALIDCALL`, and after `D3D_OK` the two arrays hold
`GetNumBoneInfluences` entries each. -/
def SkinBoneInfo.Documented (info : SkinBoneInfo K) : Prop :=
  (info.GetBoneInfluence = D3D_OK ∨ info.GetBoneInfluence = D3DERR_INVALIDCALL) ∧
  info.numBoneInfluences < 2 ^ 31 ∧
  (info.GetBoneInfluence = D3D_OK →
    info.pVertices.length = info.numBoneInfluences ∧
    info.pWeights.length = info.numBoneInfluences)

/-- The skin information object: one entry per bone, `GetNumBones` is the
number of entries. -/
structure SkinInfo (K : Type) where
  bones : List (SkinBoneInfo K)

namespace XFileParser

/-- Effect of `vector::resize(n)` on a vector of bones. -/
def resizeBones (bones : List (BoneData K)) (n : Nat) : List (BoneData K) :=
  (bones ++ List.replicate (n - bones.length) BoneData.new).take n

/-- Slot loop of `ExtractSkinWeights` (lines 450-458) over the slots still to
visit: the first slot whose weight is zero takes the pair, then the loop
stops. -/
def ExtractSkinWeights.slotLoop (iBone : Nat) (weight : K) :
    List (Fin MAX_BONE_INFLUENCES) → Vertex K → Vertex K
  | [], vertex => vertex
  | iSlot :: rest, vertex =>
    if vertex.boneWeights iSlot = 0 then
      { vertex with
        boneIndices := Function.update vertex.boneIndices iSlot iBone
        boneWeights := Function.update vertex.boneWeights iSlot weight }
    else ExtractSkinWeights.slotLoop iBone weight rest vertex

/-- Body of the influence loop of `ExtractSkinWeights` (lines 437-459) for
one pair `(vertexIndex, weight)` of bone `iBone`. -/
def ExtractSkinWeights.influenceStep (iBone : Nat) (vertices : List (Vertex K))
    (vertexIndex : Nat) (weight : K) : List (Vertex K) :=
  if vertexIndex < vertices.length then
    let vertex := vertices.getD vertexIndex Vertex.new
    vertices.set vertexIndex
      (ExtractSkinWeights.slotLoop iBone weight (List.finRange MAX_BONE_INFLUENCES) vertex)
  else vertices

/-- Body of the bone loop of `ExtractSkinWeights` (lines 394-464) for bone
number `iBone`. The variable `actualInfluences` receives the return value of
`GetBoneInfluence` (line 424), and the test of line 425 and the bound of the
influence loop are on that value. -/
def ExtractSkinWeights.boneStep (skinInfo : SkinInfo K) (mesh : MeshData K) (iBone : Nat) :
    MeshData K :=
  let info := skinInfo.bones.getD iBone ⟨"", D3DXMATRIX.identity, 0, 0, [], []⟩
  let bone := mesh.bones.getD iBone BoneData.new
  let bone := { bone with name := info.boneName }
  let bone := { bone with offsetMatrix := info.boneOffsetMatrix }
  let mesh := { mesh with bones := mesh.bones.set iBone bone }
  let numInfluences := info.numBoneInfluences
  let actualInfluences := info.GetBoneInfluence
  if actualInfluences = 0 ∨ actualInfluences > numInfluences then
    mesh
  else
    (List.range actualInfluences).foldl
      (fun (mesh : MeshData K) (iInfl : Nat) =>
        let vertexIndex := info.pVertices.getD iInfl 0
        let weight := info.pWeights.getD iInfl 0
        { mesh with
          vertices := ExtractSkinWeights.influenceStep iBone mesh.vertices vertexIndex weight })
      mesh

/-- Lines 387-465 of `ExtractSkinWeights`: resize the bone list and run the
bone loop. -/
def ExtractSkinWeights.assign (skinInfo : SkinInfo K) (mesh : MeshData K) : MeshData K :=
  let numBones := skinInfo.bones.length
  let mesh := { mesh with bones := resizeBones mesh.bones numBones }
  (List.range numBones).foldl (ExtractSkinWeights.boneStep skinInfo) mesh

/-- Body of the normalisation loop of `ExtractSkinWeights` (lines 479-489)
for one vertex. Each `float` operation is the exact operation followed by
the rounding `fl` to the nearest `float`; the constant `EPSILON` is the
`float` nearest to `0.0001`. -/
def ExtractSkinWeights.normalizeVertex (fl : K → K) (vertex : Vertex K) : Vertex K :=
  let totalWeight := (List.finRange MAX_BONE_INFLUENCES).foldl
    (fun (totalWeight : K) i => fl (totalWeight + vertex.boneWeights i)) 0
  if totalWeight > fl EPSILON then
    (List.finRange MAX_BONE_INFLUENCES).foldl
      (fun (vertex : Vertex K) i =>
        { vertex with
          boneWeights :=
            Function.update vertex.boneWeights i (fl (vertex.boneWeights i / totalWeight)) })
      vertex
  else vertex

/-- Method `XFileParser::ExtractSkinWeights`: the assignment of lines 387-465
followed by the normalisation loop of lines 477-490, with the rounding `fl`
of the `float` operations. -/
def ExtractSkinWeights (fl : K → K) (skinInfo : SkinInfo K) (mesh : MeshData K) : MeshData K :=
  let mesh := ExtractSkinWeights.assign skinInfo mesh
  { mesh with vertices := mesh.vertices.map (ExtractSkinWeights.normalizeVertex fl) }

/-- The value of `totalWeight` after the summation loop of lines 481-483:
the four slot weights added to `0.0f` one by one, each sum rounded. -/
def roundedWeightTotal (fl : K → K) (vertex : Vertex K) : K :=
  fl (fl (fl (fl (0 + vertex.boneWeights 0) + vertex.boneWeights 1) + vertex.boneWeights 2) +
    vertex.boneWeights 3)

/-- The pairs the skin information holds for a bone, in the order of the
arrays that `GetBoneInfluence` fills: after `D3D_OK` the
`GetNumBoneInfluences` entries of the two arrays, after a failed call
none. This is what the library reports, whatever the caller does with the
return value. -/
def reportedPairs (info : SkinBoneInfo K) : List (Nat × K) :=
  if info.GetBoneInfluence = D3D_OK then
    (List.range info.numBoneInfluences).map
      (fun iInfl => (info.pVertices.getD iInfl 0, info.pWeights.getD iInfl 0))
  else []

/-- All reported influences `(iBone, vertexIndex, weight)` in skeleton
order: bone `0` first, the pairs of one bone in reported order. -/
def reportedInfluences (skinInfo : SkinInfo K) : List (Nat × Nat × K) :=
  (List.range skinInfo.bones.length).flatMap
    (fun iBone =>
      (reportedPairs (skinInfo.bones.getD iBone ⟨"", D3DXMATRIX.identity, 0, 0, [], []⟩)).map
        (fun p => (iBone, p.1, p.2)))

end XFileParser

/-! ## Rotation by a quaternion -/

/-- Hamilton product of two quaternions given as `(x, y, z, w)`. -/
def hamilton (a b : K × K × K × K) : K × K × K × K :=
  (a.2.2.2 * b.1 + a.1 * b.2.2.2 + a.2.1 * b.2.2.1 - a.2.2.1 * b.2.1,
   a.2.2.2 * b.2.1 - a.1 * b.2.2.1 + a.2.1 * b.2.2.2 + a.2.2.1 * b.1,
   a.2.2.2 * b.2.2.1 + a.1 * b.2.1 - a.2.1 * b.1 + a.2.2.1 * b.2.2.2,
   a.2.2.2 * b.2.2.2 - a.1 * b.1 - a.2.1 * b.2.1 - a.2.2.1 * b.2.2.1)

/-- Standard rotation of the point `p` by the unit quaternion `q`: the vector
part of `q * (p, 0) * conj q`. -/
def rotate (q : K × K × K × K) (p : K × K × K) : K × K × K :=
  let r := hamilton (hamilton q (p.1, p.2.1, p.2.2, 0)) (-q.1, -q.2.1, -q.2.2.1, q.2.2.2)
  (r.1, r.2.1, r.2.2.1)

/-- Rotation of a Direct3D point by a Direct3D quaternion. -/
def D3DXQUATERNION.rotate (q : D3DXQUATERNION K) (p : D3DXVECTOR3 K) : D3DXVECTOR3 K :=
  let r := DXFbx.rotate (q.x, q.y, q.z, q.w) (p.x, p.y, p.z)
  ⟨r.1, r.2.1, r.2.2⟩

/-- Rotation of an FBX point by an FBX quaternion; `w` is kept. -/
def FbxQuaternion.rotate (q : FbxQuaternion K) (p : FbxVector4 K) : FbxVector4 K :=
  let r := DXFbx.rotate (q.x, q.y, q.z, q.w) (p.x, p.y, p.z)
  ⟨r.1, r.2.1, r.2.2, p.w⟩

/-- Rotation matrix `R(q)` of the quaternion `(x, y, z, w)`, acting on
column vectors. -/
def rotationMatrixOf (x y z w : K) : Matrix (Fin 3) (Fin 3) K :=
  Matrix.of ![![1 - 2 * (y * y + z * z), 2 * (x * y - w * z), 2 * (x * z + w * y)],
              ![2 * (x * y + w * z), 1 - 2 * (x * x + z * z), 2 * (y * z - w * x)],
              ![2 * (x * z - w * y), 2 * (y * z + w * x), 1 - 2 * (x * x + y * y)]]

/-- The reflection `F = diag(1, 1, -1)` of the Z axis. -/
def flipZ : Matrix (Fin 3) (Fin 3) K :=
  Matrix.of ![![1, 0, 0], ![0, 1, 0], ![0, 0, -1]]

/-- Squared length of a Direct3D quaternion. -/
def D3DXQUATERNION.sqLength (q : D3DXQUATERNION K) : K :=
  q.x * q.x + q.y * q.y + q.z * q.z + q.w * q.w

/-- The same four numbers read as a Direct3D quaternion. -/
def FbxQuaternion.toD3DX (q : FbxQuaternion K) : D3DXQUATERNION K :=
  ⟨q.x, q.y, q.z, q.w⟩

/-! ## A rational instance of the library interfaces

Used to run the embedding on concrete inputs. Square roots are `Rat.sqrt`
(exact on squares of rationals); sines and cosines of angles in degrees are
Bhaskara's rational approximation on `[-180, 180]`, exact at multiples of 90. -/

namespace Ref

/-- Rational approximation of the sine of `d` degrees, `0 ≤ d ≤ 180`. -/
def bhaskara (d : ℚ) : ℚ :=
  4 * d * (180 - d) / (40500 - d * (180 - d))

/-- Sine of `d` degrees for `-180 ≤ d ≤ 180`. -/
def sinDeg (d : ℚ) : ℚ :=
  if d < 0 then -bhaskara (-d) else bhaskara d

/-- Cosine of `d` degrees for `-180 ≤ d ≤ 180`. -/
def cosDeg (d : ℚ) : ℚ :=
  sinDeg (90 - |d|)

/-- Quaternion of a rotation matrix by the trace method. -/
def quaternionRotationMatrix (m : D3DXMATRIX ℚ) : D3DXQUATERNION ℚ :=
  let trace := m._11 + m._22 + m._33 + 1
  if trace > 1 then
    let s := 2 * Rat.sqrt trace
    ⟨(m._23 - m._32) / s, (m._31 - m._13) / s, (m._12 - m._21) / s, s / 4⟩
  else if m._11 ≥ m._22 ∧ m._11 ≥ m._33 then
    let s := 2 * Rat.sqrt (1 + m._11 - m._22 - m._33)
    ⟨s / 4, (m._12 + m._21) / s, (m._13 + m._31) / s, (m._23 - m._32) / s⟩
  else if m._22 ≥ m._33 then
    let s := 2 * Rat.sqrt (1 + m._22 - m._11 - m._33)
    ⟨(m._12 + m._21) / s, s / 4, (m._23 + m._32) / s, (m._31 - m._13) / s⟩
  else
    let s := 2 * Rat.sqrt (1 + m._33 - m._11 - m._22)
    ⟨(m._13 + m._31) / s, (m._23 + m._32) / s, s / 4, (m._12 - m._21) / s⟩

/-- Quaternion divided by its length. -/
def quaternionNormalize (q : D3DXQUATERNION ℚ) : D3DXQUATERNION ℚ :=
  let n := Rat.sqrt q.sqLength
  ⟨q.x / n, q.y / n, q.z / n, q.w / n⟩

/-- Rational instance of the Direct3D extension library calls. -/
def d3dx : D3DX ℚ :=
  { sqrt := Rat.sqrt
    QuaternionRotationMatrix := quaternionRotationMatrix
    QuaternionNormalize := quaternionNormalize }

/-- A 4x4 matrix as four rows; row 3 holds the translation. -/
structure Matrix4 where
  r0 : FbxVector4 ℚ
  r1 : FbxVector4 ℚ
  r2 : FbxVector4 ℚ
  r3 : FbxVector4 ℚ
deriving DecidableEq, Repr

/-- Row vector times matrix. -/
def rowMul (v : FbxVector4 ℚ) (m : Matrix4) : FbxVector4 ℚ :=
  ⟨v.x * m.r0.x + v.y * m.r1.x + v.z * m.r2.x + v.w * m.r3.x,
   v.x * m.r0.y + v.y * m.r1.y + v.z * m.r2.y + v.w * m.r3.y,
   v.x * m.r0.z + v.y * m.r1.z + v.z * m.r2.z + v.w * m.r3.z,
   v.x * m.r0.w + v.y * m.r1.w + v.z * m.r2.w + v.w * m.r3.w⟩

/-- Matrix product of the stored arrays. -/
def arrayMul (a b : Matrix4) : Matrix4 :=
  ⟨rowMul a.r0 b, rowMul a.r1 b, rowMul a.r2 b, rowMul a.r3 b⟩

/-- The identity matrix. -/
def identity : Matrix4 :=
  ⟨⟨1, 0, 0, 0⟩, ⟨0, 1, 0, 0⟩, ⟨0, 0, 1, 0⟩, ⟨0, 0, 0, 1⟩⟩

/-- Length of the spatial part of a row. -/
def rowLength (v : FbxVector4 ℚ) : ℚ :=
  Rat.sqrt (v.x * v.x + v.y * v.y + v.z * v.z)

/-- Scale read from the three basis rows. -/
def getS (m : Matrix4) : FbxVector4 ℚ :=
  ⟨rowLength m.r0, rowLength m.r1, rowLength m.r2, 1⟩

/-- Quaternion read from the three basis rows, each divided by its length. -/
def getQ (m : Matrix4) : FbxQuaternion ℚ :=
  let s := getS m
  let q := quaternionRotationMatrix
    ⟨m.r0.x / s.x, m.r0.y / s.x, m.r0.z / s.x, 0,
     m.r1.x / s.y, m.r1.y / s.y, m.r1.z / s.y, 0,
     m.r2.x / s.z, m.r2.y / s.z, m.r2.z / s.z, 0,
     0, 0, 0, 1⟩
  ⟨q.x, q.y, q.z, q.w⟩

/-- Replace the three basis rows by `rot` scaled row by row with `s`. -/
def withBasis (m : Matrix4) (rot : Matrix4) (s : FbxVector4 ℚ) : Matrix4 :=
  ⟨⟨s.x * rot.r0.x, s.x * rot.r0.y, s.x * rot.r0.z, 0⟩,
   ⟨s.y * rot.r1.x, s.y * rot.r1.y, s.y * rot.r1.z, 0⟩,
   ⟨s.z * rot.r2.x, s.z * rot.r2.y, s.z * rot.r2.z, 0⟩,
   m.r3⟩

/-- Rotation matrix of a quaternion, stored for row vectors. -/
def quaternionRows (q : FbxQuaternion ℚ) : Matrix4 :=
  ⟨⟨1 - 2 * (q.y * q.y + q.z * q.z), 2 * (q.x * q.y + q.w * q.z), 2 * (q.x * q.z - q.w * q.y), 0⟩,
   ⟨2 * (q.x * q.y - q.w * q.z), 1 - 2 * (q.x * q.x + q.z * q.z), 2 * (q.y * q.z + q.w * q.x), 0⟩,
   ⟨2 * (q.x * q.z + q.w * q.y), 2 * (q.y * q.z - q.w * q.x), 1 - 2 * (q.x * q.x + q.y * q.y), 0⟩,
   ⟨0, 0, 0, 1⟩⟩

/-- Rotation matrix of Euler angles in degrees, rotation about X first, then
Y, then Z, stored for row vectors. -/
def eulerRows (e : FbxVector4 ℚ) : Matrix4 :=
  let rx : Matrix4 :=
    ⟨⟨1, 0, 0, 0⟩, ⟨0, cosDeg e.x, sinDeg e.x, 0⟩, ⟨0, -sinDeg e.x, cosDeg e.x, 0⟩, ⟨0, 0, 0, 1⟩⟩
  let ry : Matrix4 :=
    ⟨⟨cosDeg e.y, 0, -sinDeg e.y, 0⟩, ⟨0, 1, 0, 0⟩, ⟨sinDeg e.y, 0, cosDeg e.y, 0⟩, ⟨0, 0, 0, 1⟩⟩
  let rz : Matrix4 :=
    ⟨⟨cosDeg e.z, sinDeg e.z, 0, 0⟩, ⟨-sinDeg e.z, cosDeg e.z, 0, 0⟩, ⟨0, 0, 1, 0⟩, ⟨0, 0, 0, 1⟩⟩
  arrayMul (arrayMul rx ry) rz

/-- Rational instance of the `FbxAMatrix` operations on `Matrix4`. The
product `a * b` applies `b` first, so its stored array is the array product
of `b` and `a`. -/
def sdk : FbxAMatrixOps ℚ Matrix4 :=
  { identity := identity
    SetRow := fun m i v =>
      if i = 0 then { m with r0 := v }
      else if i = 1 then { m with r1 := v }
      else if i = 2 then { m with r2 := v }
      else if i = 3 then { m with r3 := v }
      else m
    SetT := fun m t => { m with r3 := ⟨t.x, t.y, t.z, 1⟩ }
    SetQ := fun m q => withBasis m (quaternionRows q) (getS m)
    SetS := fun m s => withBasis m (quaternionRows (getQ m)) s
    SetR := fun m e => withBasis m (eulerRows e) (getS m)
    GetT := fun m => m.r3
    GetQ := getQ
    GetS := getS
    mul := fun a b => arrayMul b a }

end Ref

/-! ## Animation data (`Common.h`) and keyframe merge (`XFileParser.cpp`) -/

/-- Animation keyframe of `Common.h`. -/
structure AnimationKey (K : Type) where
  time : K
  translation : D3DXVECTOR3 K
  rotation : D3DXQUATERNION K
  scale : D3DXVECTOR3 K
deriving DecidableEq, Repr

/-- Default constructor `AnimationKey()`. -/
def AnimationKey.new : AnimationKey K :=
  { time := 0, translation := ⟨0, 0, 0⟩, rotation := ⟨0, 0, 0, 1⟩, scale := ⟨1, 1, 1⟩ }

/-- Animation track of `Common.h` (one per bone). -/
structure AnimationTrack (K : Type) where
  boneName : String
  keys : List (AnimationKey K)
deriving DecidableEq, Repr

/-- Animation clip of `Common.h`. -/
structure AnimationClip (K : Type) where
  name : String
  duration : K
  ticksPerSecond : K
  tracks : List (AnimationTrack K)
deriving DecidableEq, Repr

/-- Default constructor `AnimationClip()`. -/
def AnimationClip.new : AnimationClip K :=
  { name := "Take001", duration := 0, ticksPerSecond := 30, tracks := [] }

/-- Rotation key `D3DXKEY_QUATERNION` (Direct3D): `Time` and `Value`. -/
structure D3DXKEY_QUATERNION (K : Type) where
  Time : K
  Value : D3DXQUATERNION K
deriving DecidableEq, Repr

/-- Translation or scale key `D3DXKEY_VECTOR3` (Direct3D): `Time` and `Value`. -/
structure D3DXKEY_VECTOR3 (K : Type) where
  Time : K
  Value : D3DXVECTOR3 K
deriving DecidableEq, Repr

/-- What `ID3DXKeyframedAnimationSet` reports for one animation index:
`GetAnimationNameByIndex` (`none` for a null pointer) and the arrays filled
by `GetRotationKeys`, `GetTranslationKeys` and `GetScaleKeys`; the three
key counts are the lengths of the arrays. -/
structure KeyframedAnimation (K : Type) where
  boneName : Option String
  rotationKeys : List (D3DXKEY_QUATERNION K)
  translationKeys : List (D3DXKEY_VECTOR3 K)
  scaleKeys : List (D3DXKEY_VECTOR3 K)

/-- What `ID3DXAnimationSet` reports for one animation set: `GetName`,
`GetPeriod`, `GetPeriodicPosition(1.0)`, and the animations of the keyframed
interface (`none` when `QueryInterface` fails). -/
structure AnimationSet (K : Type) where
  name : String
  period : K
  periodicPosition : K
  keyframed : Option (List (KeyframedAnimation K))

/-- The animation controller: its animation sets in index order. -/
structure AnimationController (K : Type) where
  animationSets : List (AnimationSet K)

namespace XFileParser

/-- The `map<double, size_t> timeToIndex` built by the loop
`timeToIndex[track.keys[i].time] = i` over all indices of `keys`; a later
index replaces an earlier one with the same time. -/
def LoadAnimations.buildTimeToIndex (keys : List (AnimationKey K)) : K → Option Nat :=
  (List.range keys.length).foldl
    (fun (timeToIndex : K → Option Nat) (i : Nat) =>
      fun t => if t = (keys.getD i AnimationKey.new).time then some i else timeToIndex t)
    (fun _ => none)

/-- Rotation block of `LoadAnimations` (lines 573-596): every rotation key
is pushed with zero translation and unit scale. -/
def LoadAnimations.rotationStep (keys : List (AnimationKey K))
    (pRotKeys : List (D3DXKEY_QUATERNION K)) : List (AnimationKey K) :=
  if pRotKeys.length > 0 then
    pRotKeys.foldl
      (fun (keys : List (AnimationKey K)) (rotKey : D3DXKEY_QUATERNION K) =>
        let key : AnimationKey K := AnimationKey.new
        let key := { key with time := rotKey.Time }
        let key := { key with rotation := rotKey.Value }
        let key := { key with translation := ⟨0, 0, 0⟩ }
        let key := { key with scale := ⟨1, 1, 1⟩ }
        keys ++ [key])
      keys
  else keys

/-- Translation block of `LoadAnimations` (lines 603-656). -/
def LoadAnimations.translationStep (keys : List (AnimationKey K))
    (pPosKeys : List (D3DXKEY_VECTOR3 K)) : List (AnimationKey K) :=
  if pPosKeys.length > 0 then
    if keys.isEmpty then
      pPosKeys.foldl
        (fun (keys : List (AnimationKey K)) (posKey : D3DXKEY_VECTOR3 K) =>
          let key : AnimationKey K := AnimationKey.new
          let key := { key with time := posKey.Time }
          let key := { key with translation := posKey.Value }
          let key := { key with rotation := ⟨0, 0, 0, 1⟩ }
          let key := { key with scale := ⟨1, 1, 1⟩ }
          keys ++ [key])
        keys
    else
      let timeToIndex := LoadAnimations.buildTimeToIndex keys
      pPosKeys.foldl
        (fun (keys : List (AnimationKey K)) (posKey : D3DXKEY_VECTOR3 K) =>
          let time := posKey.Time
          match timeToIndex time with
          | some index =>
            keys.set index
              { keys.getD index AnimationKey.new with translation := posKey.Value }
          | none =>
            let key : AnimationKey K := AnimationKey.new
            let key := { key with time := time }
            let key := { key with translation := posKey.Value }
            let key := { key with rotation := ⟨0, 0, 0, 1⟩ }
            let key := { key with scale := ⟨1, 1, 1⟩ }
            keys ++ [key])
        keys
  else keys

/-- Scale block of `LoadAnimations` (lines 663-716). -/
def LoadAnimations.scaleStep (keys : List (AnimationKey K))
    (pScaleKeys : List (D3DXKEY_VECTOR3 K)) : List (AnimationKey K) :=
  if pScaleKeys.length > 0 then
    if keys.isEmpty then
      pScaleKeys.foldl
        (fun (keys : List (AnimationKey K)) (scaleKey : D3DXKEY_VECTOR3 K) =>
          let key : AnimationKey K := AnimationKey.new
          let key := { key with time := scaleKey.Time }
          let key := { key with scale := scaleKey.Value }
          let key := { key with translation := ⟨0, 0, 0⟩ }
          let key := { key with rotation := ⟨0, 0, 0, 1⟩ }
          keys ++ [key])
        keys
    else
      let timeToIndex := LoadAnimations.buildTimeToIndex keys
      pScaleKeys.foldl
        (fun (keys : List (AnimationKey K)) (scaleKey : D3DXKEY_VECTOR3 K) =>
          let time := scaleKey.Time
          match timeToIndex time with
          | some index =>
            keys.set index
              { keys.getD index AnimationKey.new with scale := scaleKey.Value }
          | none =>
            let key : AnimationKey K := AnimationKey.new
            let key := { key with time := time }
            let key := { key with scale := scaleKey.Value }
            let key := { key with translation := ⟨0, 0, 0⟩ }
            let key := { key with rotation := ⟨0, 0, 0, 1⟩ }
            keys ++ [key])
        keys
  else keys

/-- Lines 573-716 of `LoadAnimations`: the keys of one track, starting from
the empty key list of a fresh `AnimationTrack`. -/
def LoadAnimations.trackKeys (pRotKeys : List (D3DXKEY_QUATERNION K))
    (pPosKeys pScaleKeys : List (D3DXKEY_VECTOR3 K)) : List (AnimationKey K) :=
  let keys : List (AnimationKey K) := []
  let keys := LoadAnimations.rotationStep keys pRotKeys
  let keys := LoadAnimations.translationStep keys pPosKeys
  let keys := LoadAnimations.scaleStep keys pScaleKeys
  keys

/-- Body of the animation loop of `LoadAnimations` (lines 554-732) for one
animation of the keyframed set: an entry without a name is skipped, a track
is pushed only when it has keys. -/
def LoadAnimations.animationStep (clip : AnimationClip K) (anim : KeyframedAnimation K) :
    AnimationClip K :=
  match anim.boneName with
  | none => clip
  | some boneName =>
    if boneName.length = 0 then clip
    else
      let track : AnimationTrack K :=
        { boneName := boneName
          keys := LoadAnimations.trackKeys anim.rotationKeys anim.translationKeys
            anim.scaleKeys }
      if !track.keys.isEmpty then { clip with tracks := clip.tracks ++ [track] }
      else clip

/-- Body of the animation-set loop of `LoadAnimations` (lines 528-742): the
clip built for one animation set. -/
def LoadAnimations.clipOf (pAnimSet : AnimationSet K) : AnimationClip K :=
  let clip : AnimationClip K := AnimationClip.new
  let clip := { clip with name := pAnimSet.name }
  let clip := { clip with duration := pAnimSet.period }
  let clip := { clip with ticksPerSecond := pAnimSet.periodicPosition / pAnimSet.period }
  match pAnimSet.keyframed with
  | some animations => animations.foldl LoadAnimations.animationStep clip
  | none => clip

/-- Method `XFileParser::LoadAnimations`, as a function on the vector
`sceneData.animations`: one clip is pushed per animation set. -/
def LoadAnimations (animController : AnimationController K)
    (animations : List (AnimationClip K)) : List (AnimationClip K) :=
  animController.animationSets.foldl
    (fun (animations : List (AnimationClip K)) (pAnimSet : AnimationSet K) =>
      animations ++ [LoadAnimations.clipOf pAnimSet])
    animations

/-- Key pushed for a channel time found in no lookup entry, translation
channel: the channel value with identity rotation and unit scale. -/
def LoadAnimations.newTranslationKey (posKey : D3DXKEY_VECTOR3 K) : AnimationKey K :=
  { time := posKey.Time, translation := posKey.Value, rotation := ⟨0, 0, 0, 1⟩,
    scale := ⟨1, 1, 1⟩ }

/-- Key pushed for a channel time found in no lookup entry, scale channel:
the channel value with zero translation and identity rotation. -/
def LoadAnimations.newScaleKey (scaleKey : D3DXKEY_VECTOR3 K) : AnimationKey K :=
  { time := scaleKey.Time, translation := ⟨0, 0, 0⟩, rotation := ⟨0, 0, 0, 1⟩,
    scale := scaleKey.Value }

/-- Key pushed for a rotation key: the channel value with zero translation
and unit scale. -/
def LoadAnimations.newRotationKey (rotKey : D3DXKEY_QUATERNION K) : AnimationKey K :=
  { time := rotKey.Time, translation := ⟨0, 0, 0⟩, rotation := rotKey.Value,
    scale := ⟨1, 1, 1⟩ }

/-- The merge loop shared by the translation and the scale block (lines
633-653 and 693-713): `timeToIndex` is the lookup built before the loop,
`setValue` writes the channel component of an existing key, `newKey` builds
the key that is pushed when the time is not found. -/
def LoadAnimations.mergeChannel (timeToIndex : K → Option Nat)
    (setValue : AnimationKey K → D3DXVECTOR3 K → AnimationKey K)
    (newKey : D3DXKEY_VECTOR3 K → AnimationKey K)
    (keys : List (AnimationKey K)) (channel : List (D3DXKEY_VECTOR3 K)) :
    List (AnimationKey K) :=
  channel.foldl
    (fun (keys : List (AnimationKey K)) (channelKey : D3DXKEY_VECTOR3 K) =>
      match timeToIndex channelKey.Time with
      | some index =>
        keys.set index (setValue (keys.getD index AnimationKey.new) channelKey.Value)
      | none => keys ++ [newKey channelKey])
    keys

/-- The times of a key list, in list order. -/
def keyTimes (keys : List (AnimationKey K)) : List K :=
  keys.map (fun key => key.time)

/-- The times of a channel that occur in no key of `keys`, in channel
order. -/
def newTimes (keys : List (AnimationKey K)) (channelTimes : List K) : List K :=
  channelTimes.filter (fun t => decide (t ∉ keyTimes keys))

end XFileParser

/-! ## Scene export: skin clusters and animation curves (`FBXExporter.cpp`) -/

/-- Skeleton types of the FBX SDK class `FbxSkeleton`. -/
inductive FbxSkeleton.EType where
  | eRoot
  | eLimb
  | eLimbNode
  | eEffector
deriving DecidableEq, Repr

/-- Skeleton node attribute (FBX SDK): its name and skeleton type. -/
structure FbxSkeleton where
  name : String
  skeletonType : FbxSkeleton.EType
deriving DecidableEq, Repr

/-- Scene node (FBX SDK `FbxNode`), stored in the node list of its scene and
referred to by its position there: name, parent and children, the skeleton
attribute if one was set, and the three local transform properties. -/
structure FbxNode (K : Type) where
  name : String
  parent : Option Nat
  children : List Nat
  skeleton : Option FbxSkeleton
  LclTranslation : FbxVector4 K
  LclRotation : FbxVector4 K
  LclScaling : FbxVector4 K
deriving DecidableEq, Repr

/-- The nine curves of one animated node in an animation layer. A curve is
the list of `(time, value)` pairs written by the pairs of calls `KeyAdd`,
`KeySet`, in call order. -/
structure NodeCurves (K : Type) where
  TX : List (K × K)
  TY : List (K × K)
  TZ : List (K × K)
  RX : List (K × K)
  RY : List (K × K)
  RZ : List (K × K)
  SX : List (K × K)
  SY : List (K × K)
  SZ : List (K × K)
deriving DecidableEq, Repr

/-- Nine curves without keys, as `GetCurve(..., true)` creates them. -/
def NodeCurves.empty : NodeCurves K :=
  ⟨[], [], [], [], [], [], [], [], []⟩

/-- Animation layer (FBX SDK): its name and, for every node, the curves
created for it (`none` when no curve was created). -/
structure FbxAnimLayer (K : Type) where
  name : String
  curves : Nat → Option (NodeCurves K)

/-- Animation stack (FBX SDK): name, member layers, local time span in
seconds. -/
structure FbxAnimStack (K : Type) where
  name : String
  layers : List (FbxAnimLayer K)
  localTimeSpan : K × K

/-- The scene (FBX SDK `FbxScene`): its nodes, node `0` being the root node,
and its animation stacks. -/
structure FbxScene (K : Type) where
  nodes : List (FbxNode K)
  animStacks : List (FbxAnimStack K)

/-- Method `FbxScene::GetRootNode`. -/
def FbxScene.GetRootNode (_scene : FbxScene K) : Nat := 0

/-- Function `FbxNode::Create`: a new node without parent, children or
attribute is added to the scene; its position is returned. -/
def FbxNode.Create (scene : FbxScene K) (name : String) : FbxScene K × Nat :=
  ({ scene with
      nodes := scene.nodes ++
        [{ name := name, parent := none, children := [], skeleton := none,
           LclTranslation := ⟨0, 0, 0, 1⟩, LclRotation := ⟨0, 0, 0, 1⟩,
           LclScaling := ⟨1, 1, 1, 1⟩ }] },
    scene.nodes.length)

/-- Update of the node at position `node`. -/
def FbxScene.modifyNode (scene : FbxScene K) (node : Nat) (f : FbxNode K → FbxNode K) :
    FbxScene K :=
  match scene.nodes[node]? with
  | some n => { scene with nodes := scene.nodes.set node (f n) }
  | none => scene

/-- Method `FbxNode::AddChild`: `child` is appended to the children of
`parent` and gets `parent` as its parent. -/
def FbxScene.AddChild (scene : FbxScene K) (parent child : Nat) : FbxScene K :=
  let scene := scene.modifyNode parent (fun n => { n with children := n.children ++ [child] })
  scene.modifyNode child (fun n => { n with parent := some parent })

/-- Link modes of the FBX SDK class `FbxCluster`. -/
inductive FbxCluster.ELinkMode where
  | eNormalize
  | eAdditive
  | eTotalOne
deriving DecidableEq, Repr

/-- Skin cluster (FBX SDK `FbxCluster`) over matrices `M`: link node, link
mode, the `(control point index, weight)` pairs in the order added, and the
two transform matrices. -/
structure FbxCluster (K : Type) (M : Type) where
  link : Option Nat
  linkMode : FbxCluster.ELinkMode
  controlPoints : List (Nat × K)
  transformMatrix : Option M
  transformLinkMatrix : Option M

/-- Result of `FbxCluster::Create`. -/
def FbxCluster.Create {M : Type} : FbxCluster K M :=
  { link := none, linkMode := FbxCluster.ELinkMode.eNormalize, controlPoints := [],
    transformMatrix := none, transformLinkMatrix := none }

/-- Skin deformer (FBX SDK `FbxSkin`): its clusters in the order added. -/
structure FbxSkin (K : Type) (M : Type) where
  clusters : List (FbxCluster K M)

/-- Further FBX SDK calls used by the scene export: `FbxAMatrix::GetR`,
`FbxNode::EvaluateGlobalTransform` (as a function of the scene and the node)
and `FbxQuaternion::DecomposeSphericalXYZ`. -/
structure FbxSceneOps (K : Type) (M : Type) where
  GetR : M → FbxVector4 K
  EvaluateGlobalTransform : FbxScene K → Nat → M
  DecomposeSphericalXYZ : FbxQuaternion K → FbxVector4 K

/-- The members `m_pScene` and `m_BoneNodeMap` of class `FBXExporter`: the
scene under construction and the table from bone names to scene nodes. -/
structure ExportState (K : Type) where
  m_pScene : FbxScene K
  m_BoneNodeMap : String → Option Nat

namespace FBXExporter

variable {M : Type}

/-- Method `FBXExporter::CreateBone`; returns the new state and the bone
node. -/
def CreateBone (d3dx : D3DX K) (sdk : FbxAMatrixOps K M) (ops : FbxSceneOps K M)
    (st : ExportState K) (boneName : String) (transformMatrix : D3DXMATRIX K)
    (parentNode : Nat) : ExportState K × Nat :=
  let skeletonAttribute : FbxSkeleton := { name := boneName, skeletonType := FbxSkeleton.EType.eRoot }
  let skeletonAttribute := { skeletonAttribute with skeletonType := FbxSkeleton.EType.eLimbNode }
  let (scene, boneNode) := FbxNode.Create st.m_pScene boneName
  let scene := scene.modifyNode boneNode (fun n => { n with skeleton := some skeletonAttribute })
  let transform := MatrixConverter.ConvertMatrix_LH_to_RH d3dx sdk transformMatrix
  let scene := scene.modifyNode boneNode (fun n => { n with LclTranslation := sdk.GetT transform })
  let scene := scene.modifyNode boneNode (fun n => { n with LclRotation := ops.GetR transform })
  let scene := scene.modifyNode boneNode (fun n => { n with LclScaling := sdk.GetS transform })
  let scene := scene.AddChild parentNode boneNode
  let st := { st with m_pScene := scene }
  let st := { st with
    m_BoneNodeMap := fun name => if name = boneName then some boneNode else st.m_BoneNodeMap name }
  (st, boneNode)

/-- Loops of `ExportSkinWeights` over vertices and slots (lines 572-583):
the control points added to the cluster of bone `iBone`. -/
def ExportSkinWeights.addControlPoints {M : Type} (meshData : MeshData K) (iBone : Nat)
    (cluster : FbxCluster K M) : FbxCluster K M :=
  (List.range meshData.vertices.length).foldl
    (fun (cluster : FbxCluster K M) (iVert : Nat) =>
      let vertex := meshData.vertices.getD iVert Vertex.new
      (List.finRange MAX_BONE_INFLUENCES).foldl
        (fun (cluster : FbxCluster K M) iInfl =>
          if vertex.boneIndices iInfl = iBone ∧ vertex.boneWeights iInfl > 0 then
            { cluster with
              controlPoints := cluster.controlPoints ++ [(iVert, vertex.boneWeights iInfl)] }
          else cluster)
        cluster)
    cluster

/-- Body of the bone loop of `ExportSkinWeights` (lines 551-595) for bone
number `iBone`. The matrix `bindPoseMatrix` of line 590 is computed and
never used, so it has no counterpart here. -/
def ExportSkinWeights.boneStep (d3dx : D3DX K) (sdk : FbxAMatrixOps K M)
    (ops : FbxSceneOps K M) (meshData : MeshData K) (meshNode : Nat)
    (acc : ExportState K × FbxSkin K M) (iBone : Nat) : ExportState K × FbxSkin K M :=
  let st := acc.1
  let skin := acc.2
  let bone := meshData.bones.getD iBone BoneData.new
  let (st, boneNode) :=
    match st.m_BoneNodeMap bone.name with
    | some node => (st, node)
    | none => CreateBone d3dx sdk ops st bone.name bone.transformMatrix st.m_pScene.GetRootNode
  let cluster : FbxCluster K M := FbxCluster.Create
  let cluster := { cluster with link := some boneNode }
  let cluster := { cluster with linkMode := FbxCluster.ELinkMode.eTotalOne }
  let cluster := ExportSkinWeights.addControlPoints meshData iBone cluster
  let linkMatrix := ops.EvaluateGlobalTransform st.m_pScene boneNode
  let meshMatrix := ops.EvaluateGlobalTransform st.m_pScene meshNode
  let cluster := { cluster with transformMatrix := some meshMatrix }
  let cluster := { cluster with transformLinkMatrix := some linkMatrix }
  let skin := { skin with clusters := skin.clusters ++ [cluster] }
  (st, skin)

/-- Method `FBXExporter::ExportSkinWeights`; returns the new state and the
skin added to `fbxMesh` by `AddDeformer` (`none` after the early return). -/
def ExportSkinWeights (d3dx : D3DX K) (sdk : FbxAMatrixOps K M) (ops : FbxSceneOps K M)
    (st : ExportState K) (meshData : MeshData K) (meshNode : Nat) :
    ExportState K × Option (FbxSkin K M) :=
  if !meshData.hasSkinning || meshData.bones.isEmpty then (st, none)
  else
    let skin : FbxSkin K M := { clusters := [] }
    let acc := (List.range meshData.bones.length).foldl
      (ExportSkinWeights.boneStep d3dx sdk ops meshData meshNode) (st, skin)
    (acc.1, some acc.2)

/-- Constant `RAD_TO_DEG` of `ExportAnimationClip`:
`180.0 / 3.14159265358979323846`. -/
def RAD_TO_DEG : K := 180 / (314159265358979323846 / 100000000000000000000)

/-- Body of the key loop of `ExportAnimationClip` (lines 748-820): one key
is written to each of the nine curves. -/
def ExportAnimationClip.keyStep (sqrt : K → K) (ops : FbxSceneOps K M)
    (curves : NodeCurves K) (key : AnimationKey K) : NodeCurves K :=
  let keyTime := key.time
  let pos := MatrixConverter.ConvertPosition_LH_to_RH key.translation
  let rot := MatrixConverter.ConvertQuaternion_LH_to_RH sqrt key.rotation
  let euler := ops.DecomposeSphericalXYZ rot
  let scale := MatrixConverter.ConvertScale key.scale
  { TX := curves.TX ++ [(keyTime, pos.x)]
    TY := curves.TY ++ [(keyTime, pos.y)]
    TZ := curves.TZ ++ [(keyTime, pos.z)]
    RX := curves.RX ++ [(keyTime, euler.x * RAD_TO_DEG)]
    RY := curves.RY ++ [(keyTime, euler.y * RAD_TO_DEG)]
    RZ := curves.RZ ++ [(keyTime, euler.z * RAD_TO_DEG)]
    SX := curves.SX ++ [(keyTime, scale.x)]
    SY := curves.SY ++ [(keyTime, scale.y)]
    SZ := curves.SZ ++ [(keyTime, scale.z)] }

/-- The curves of a node after one more track was exported to it: the
curves are fetched, or created empty, and receive the keys of the track. -/
def ExportAnimationClip.addTrack (sqrt : K → K) (ops : FbxSceneOps K M)
    (existing : Option (NodeCurves K)) (track : AnimationTrack K) : NodeCurves K :=
  track.keys.foldl (ExportAnimationClip.keyStep sqrt ops) (existing.getD NodeCurves.empty)

/-- Body of the track loop of `ExportAnimationClip` (lines 689-835): a track
whose bone name is not in the table is skipped. -/
def ExportAnimationClip.trackStep (sqrt : K → K) (ops : FbxSceneOps K M)
    (st : ExportState K) (animLayer : FbxAnimLayer K) (track : AnimationTrack K) :
    FbxAnimLayer K :=
  match st.m_BoneNodeMap track.boneName with
  | none => animLayer
  | some boneNode =>
    { animLayer with
      curves := fun node =>
        if node = boneNode then
          some (ExportAnimationClip.addTrack sqrt ops (animLayer.curves boneNode) track)
        else animLayer.curves node }

/-- The layer `BaseLayer` of `ExportAnimationClip` after the track loop. -/
def ExportAnimationClip.layer (sqrt : K → K) (ops : FbxSceneOps K M)
    (st : ExportState K) (clip : AnimationClip K) : FbxAnimLayer K :=
  let animLayer : FbxAnimLayer K := { name := "BaseLayer", curves := fun _ => none }
  clip.tracks.foldl (ExportAnimationClip.trackStep sqrt ops st) animLayer

/-- Method `FBXExporter::ExportAnimationClip`: a stack named after the clip,
with the one layer `BaseLayer` and the time span `[0, clip.duration]`, is
added to the scene. -/
def ExportAnimationClip (sqrt : K → K) (ops : FbxSceneOps K M)
    (st : ExportState K) (clip : AnimationClip K) : ExportState K :=
  let animLayer := ExportAnimationClip.layer sqrt ops st clip
  let animStack : FbxAnimStack K :=
    { name := clip.name, layers := [animLayer], localTimeSpan := (0, clip.duration) }
  { st with
    m_pScene := { st.m_pScene with animStacks := st.m_pScene.animStacks ++ [animStack] } }

/-- Method `FBXExporter::ExportAnimations`. -/
def ExportAnimations (sqrt : K → K) (ops : FbxSceneOps K M)
    (st : ExportState K) (animations : List (AnimationClip K)) : ExportState K :=
  animations.foldl (ExportAnimationClip sqrt ops) st

/-- The tracks of a clip whose bone name the table resolves to `node`, in
clip order. -/
def tracksOfNode (st : ExportState K) (clip : AnimationClip K) (node : Nat) :
    List (AnimationTrack K) :=
  clip.tracks.filter (fun track => decide (st.m_BoneNodeMap track.boneName = some node))

/-- The statement that `node` is a placeholder joint for `boneName` in the
scene: it is not the root, carries the name and a limb-node skeleton
attribute, has the root as parent and is listed among the root's children. -/
def IsPlaceholderJoint (scene : FbxScene K) (boneName : String) (node : Nat) : Prop :=
  0 < node ∧
  ∃ fbxNode root, scene.nodes[node]? = some fbxNode ∧ scene.nodes[0]? = some root ∧
    fbxNode.name = boneName ∧ fbxNode.parent = some 0 ∧
    fbxNode.skeleton = some ⟨boneName, FbxSkeleton.EType.eLimbNode⟩ ∧
    node ∈ root.children

/-- What the bone loop of `ExportSkinWeights` maintains, from the state `st0`
at its start to the current state `st`: the scene keeps a root, nodes are
only added, entries of the table are kept, and every name that was not in
the table at the start resolves to a placeholder joint created since. -/
structure SkinLoopInv (st0 st : ExportState K) : Prop where
  hasRoot : ∃ root tail, st.m_pScene.nodes = root :: tail
  nodesGrow : st0.m_pScene.nodes.length ≤ st.m_pScene.nodes.length
  tableKept : ∀ name node, st0.m_BoneNodeMap name = some node →
    st.m_BoneNodeMap name = some node
  placeholders : ∀ name node, st0.m_BoneNodeMap name = none →
    st.m_BoneNodeMap name = some node →
    IsPlaceholderJoint st.m_pScene name node ∧ st0.m_pScene.nodes.length ≤ node

end FBXExporter

/-! ## Command line driver (`main.cpp` and the file-name utilities of `Common.h`) -/

namespace Utils

/-- Result of `std::string::find_last_of`: the last position of `s` holding
one of `chars`, if any. -/
def findLastOf (s : List Char) (chars : List Char) : Option Nat :=
  (List.range s.length).reverse.find? (fun i => decide (s.getD i (Char.ofNat 0) ∈ chars))

/-- Function `Utils::GetDirectory`: the path up to and including the last
backslash or slash, or the empty string. -/
def GetDirectory (filepath : String) : String :=
  match findLastOf filepath.toList [Char.ofNat 92, Char.ofNat 47] with
  | some pos => String.mk (filepath.toList.take (pos + 1))
  | none => ""

/-- Function `Utils::GetFilenameWithoutExtension`. -/
def GetFilenameWithoutExtension (filepath : String) : String :=
  let filename := filepath.toList
  let filename :=
    match findLastOf filename [Char.ofNat 92, Char.ofNat 47] with
    | some pos => filename.drop (pos + 1)
    | none => filename
  let filename :=
    match findLastOf filename [Char.ofNat 46] with
    | some pos => filename.take pos
    | none => filename
  String.mk filename

/-- Function `Utils::SanitizeFilename`: each of the characters
`<`, `>`, `:`, `"`, `|`, `?`, `*`, backslash and `/` becomes `_`. -/
def SanitizeFilename (filename : String) : String :=
  String.mk (filename.toList.map (fun c =>
    if c ∈ [Char.ofNat 60, Char.ofNat 62, Char.ofNat 58, Char.ofNat 34, Char.ofNat 124,
        Char.ofNat 63, Char.ofNat 42, Char.ofNat 92, Char.ofNat 47] then Char.ofNat 95
    else c))

end Utils

/-- The members of `SceneData` (`Common.h`) that the driver deals with:
`rootFrame`, the pointer that the destructor deletes (`none` is the null
pointer, otherwise the address of the root `FrameData`), and `animations`. -/
structure SceneData (K : Type) where
  rootFrame : Option Nat
  animations : List (AnimationClip K)

/-- Default constructor `SceneData()`. -/
def SceneData.new : SceneData K :=
  { rootFrame := none, animations := [] }

/-- Destructor `~SceneData()` (`Common.h`, lines 247-251), run when the
frames at the addresses `freed` have been deleted already: a non-null
`rootFrame` is deleted. The result is `none` when the frame at that address
was deleted before; the language gives such a second deletion no meaning. -/
def SceneData.destroy (freed : List Nat) (self : SceneData K) : Option (List Nat) :=
  match self.rootFrame with
  | none => some freed
  | some frame => if frame ∈ freed then none else some (frame :: freed)

/-- How a run of the process ends: with an exit code, or in a state to which
the language gives no meaning. -/
inductive ProcessOutcome where
  | exit (code : Int)
  | undefinedBehaviour
deriving DecidableEq, Repr

/-- What one run of `main` obtains from outside the driver: the C function
`atof`, `Utils::FileExists` and `Utils::CreateDirectory` (file system), the
result of `XFileParser::LoadFile` (`none` for the result `false`, which
leaves the scene data as constructed, otherwise the scene data it filled),
and whether the calls into the FBX SDK succeed that
`FBXExporter::ExportScene` makes and that the call number `i` of
`FBXExporter::ExportSingleAnimation` makes. -/
structure MainEnv (K : Type) [One K] [OfNat K 30] where
  atof : String → K
  FileExists : String → Bool
  LoadFile : String → ConversionOptions K → Option (SceneData K)
  ExportScene : String → ConversionOptions K → Bool
  CreateDirectory : String → Bool
  ExportSingleAnimation : Nat → AnimationClip K → String → ConversionOptions K → Bool

/-- Result of the method `FBXExporter::ExportScene`: `false` for scene data
without root frame (`CreateFBXScene`, lines 239-245), otherwise whether its
calls into the FBX SDK succeed. -/
def FBXExporter.ExportScene (env : MainEnv K) (sceneData : SceneData K) (filename : String)
    (options : ConversionOptions K) : Bool :=
  if sceneData.rootFrame.isNone then false
  else env.ExportScene filename options

/-- Result of the call number `i` of the method
`FBXExporter::ExportSingleAnimation`: `false` for scene data without root
frame (lines 177-181), otherwise whether its calls into the FBX SDK
succeed. -/
def FBXExporter.ExportSingleAnimation (env : MainEnv K) (sceneData : SceneData K) (i : Nat)
    (animation : AnimationClip K) (filename : String) (options : ConversionOptions K) : Bool :=
  if sceneData.rootFrame.isNone then false
  else env.ExportSingleAnimation i animation filename options

/-- Option loop of `ParseArguments` (lines 61-129) over the arguments still
to read; `none` is the result `false` (help requested). A flag that takes a
value is recognised only when a further argument follows. -/
def ParseArguments.options (atof : String → K) :
    List String → ConversionOptions K → Option (ConversionOptions K)
  | [], options => some options
  | [arg], options =>
    if arg = "--help" ∨ arg = "-h" then none
    else if arg = "--export-textures" then some { options with exportTextures := true }
    else if arg = "--no-export-textures" then some { options with exportTextures := false }
    else if arg = "--triangulate" then some { options with triangulate := true }
    else if arg = "--verbose" ∨ arg = "-v" then some { options with verbose := true }
    else some options
  | arg :: value :: rest, options =>
    if arg = "--help" ∨ arg = "-h" then none
    else if arg = "--fbx-version" then
      ParseArguments.options atof rest
        (if value = "2020" ∨ value = "2019" ∨ value = "2018" then
          { options with fbxVersion := 0 }
        else options)
    else if arg = "--up-axis" then
      ParseArguments.options atof rest
        (if value = "Y" ∨ value = "y" then { options with upAxis := UpAxis.Y_AXIS }
        else if value = "Z" ∨ value = "z" then { options with upAxis := UpAxis.Z_AXIS }
        else if value = "X" ∨ value = "x" then { options with upAxis := UpAxis.X_AXIS }
        else options)
    else if arg = "--coordinate-system" then
      ParseArguments.options atof rest
        (if value = "RH" ∨ value = "rh" then
          { options with targetCoordSystem := CoordinateSystem.RIGHT_HANDED }
        else if value = "LH" ∨ value = "lh" then
          { options with targetCoordSystem := CoordinateSystem.LEFT_HANDED }
        else options)
    else if arg = "--scale" then
      ParseArguments.options atof rest { options with scale := atof value }
    else if arg = "--export-textures" then
      ParseArguments.options atof (value :: rest) { options with exportTextures := true }
    else if arg = "--no-export-textures" then
      ParseArguments.options atof (value :: rest) { options with exportTextures := false }
    else if arg = "--triangulate" then
      ParseArguments.options atof (value :: rest) { options with triangulate := true }
    else if arg = "--fps" then
      ParseArguments.options atof rest
        (let options := { options with targetFPS := atof value }
         if options.targetFPS < 1 ∨ options.targetFPS > 120 then
           { options with targetFPS := 30 }
         else options)
    else if arg = "--verbose" ∨ arg = "-v" then
      ParseArguments.options atof (value :: rest) { options with verbose := true }
    else ParseArguments.options atof (value :: rest) options

/-- Function `ParseArguments` of `main.cpp` on `argv[0 .. argc-1]`; `none` is
the result `false`. -/
def ParseArguments (atof : String → K) (argv : List String) : Option (ConversionOptions K) :=
  if argv.length < 3 then none
  else
    let options : ConversionOptions K := {}
    let options := { options with inputFile := argv.getD 1 "" }
    let options := { options with outputFile := argv.getD 2 "" }
    ParseArguments.options atof (argv.drop 3) options

/-- Animation loop of `main` (lines 266-290): the number of clips whose
export succeeded. A failed export is reported and the loop goes on. -/
def main.exportedCount (env : MainEnv K) (options : ConversionOptions K)
    (modelData : SceneData K) (animations : List (AnimationClip K)) (animationsDir : String) :
    Nat :=
  (List.range animations.length).foldl
    (fun (exportedCount : Nat) (i : Nat) =>
      let anim := animations.getD i AnimationClip.new
      let animFilename := Utils.SanitizeFilename anim.name
      let animFilename :=
        if animFilename.isEmpty then "Animation_" ++ toString (i + 1) else animFilename
      let animPath := animationsDir ++ String.singleton (Char.ofNat 92) ++ animFilename ++ ".fbx"
      if FBXExporter.ExportSingleAnimation env modelData i anim animPath options then
        exportedCount + 1
      else exportedCount)
    0

/-- What `main` has done when it reaches one of its `return` statements:
the returned value, the number of exported animation clips that step 3
prints (`none` when step 3 exports nothing), and the `SceneData` objects
alive at that statement, in the order in which their destructors run (the
reverse of their order of declaration). -/
structure main.Return (K : Type) where
  value : Int
  exportedCount : Option Nat
  sceneObjects : List (SceneData K)

/-- Function `main` of `main.cpp` up to its `return` statement. Line 209
copies `sceneData` member by member (`SceneData` declares no copy
constructor), so `modelData.rootFrame` is the same pointer. Console output
is not represented. -/
def main.run (env : MainEnv K) (argv : List String) : main.Return K :=
  match ParseArguments env.atof argv with
  | none => ⟨1, none, []⟩
  | some options =>
    if !env.FileExists options.inputFile then ⟨1, none, []⟩
    else
      match env.LoadFile options.inputFile options with
      | none => ⟨1, none, [SceneData.new]⟩
      | some sceneData =>
        let modelData := sceneData
        let modelData := { modelData with animations := [] }
        if !FBXExporter.ExportScene env modelData options.outputFile options then
          ⟨1, none, [modelData, sceneData]⟩
        else if !sceneData.animations.isEmpty then
          let modelName := Utils.GetFilenameWithoutExtension options.inputFile
          let outputDir := Utils.GetDirectory options.outputFile
          let animationsDir := outputDir ++ modelName
          if !env.CreateDirectory animationsDir then ⟨1, none, [modelData, sceneData]⟩
          else
            ⟨0, some (main.exportedCount env options modelData sceneData.animations animationsDir),
              [modelData, sceneData]⟩
        else ⟨0, none, [modelData, sceneData]⟩

/-- The destructors of the `SceneData` objects alive at a `return`
statement, run one after the other; `none` when one of them deletes a frame
that is already deleted. -/
def main.destroyAll (sceneObjects : List (SceneData K)) : Option (List Nat) :=
  sceneObjects.foldl
    (fun (freed : Option (List Nat)) (sceneData : SceneData K) =>
      match freed with
      | none => none
      | some freed => sceneData.destroy freed)
    (some [])

/-- Function `main` of `main.cpp` as a process: the statements up to a
`return`, then the destructors of the local `SceneData` objects. The
returned value is the exit code when no frame is deleted twice. -/
def main (env : MainEnv K) (argv : List String) : ProcessOutcome :=
  let result := main.run env argv
  match main.destroyAll result.sceneObjects with
  | some _ => ProcessOutcome.exit result.value
  | none => ProcessOutcome.undefinedBehaviour

/-- A run environment in which everything succeeds except the export of
animation clips: the file exists, loading yields a root frame (at address
0) and one clip, the SDK calls of the model export and the directory
creation succeed, those of every `ExportSingleAnimation` fail. -/
def Ref.failingAnimationEnv : MainEnv ℚ :=
  { atof := fun _ => 0
    FileExists := fun _ => true
    LoadFile := fun _ _ => some { rootFrame := some 0, animations := [AnimationClip.new] }
    ExportScene := fun _ _ => true
    CreateDirectory := fun _ => true
    ExportSingleAnimation := fun _ _ _ _ => false }

/-- A rational stand-in for the remaining scene calls, used to run the scene
export on concrete inputs: Euler angles are not computed (the rotation read
from a matrix and the decomposition of a quaternion are the zero angles) and
every global transform is the identity matrix. -/
def Ref.sceneOps : FbxSceneOps ℚ Ref.Matrix4 :=
  { GetR := fun _ => ⟨0, 0, 0, 1⟩
    EvaluateGlobalTransform := fun _ _ => Ref.identity
    DecomposeSphericalXYZ := fun _ => ⟨0, 0, 0, 1⟩ }

/-- Skin information of one bone whose call of `GetBoneInfluence` succeeds
and fills in the pair `(0, 1/2)`. -/
def Ref.oneInfluenceSkinInfo : SkinInfo ℚ :=
  ⟨[⟨"Bone", D3DXMATRIX.identity, 1, D3D_OK, [0], [1 / 2]⟩]⟩

/-- Skin information of two bones whose calls of `GetBoneInfluence`
succeed: bone 0 fills in the pair `(0, 0)`, bone 1 the pair `(0, 1/4)`. -/
def Ref.zeroWeightSkinInfo : SkinInfo ℚ :=
  ⟨[⟨"First", D3DXMATRIX.identity, 1, D3D_OK, [0], [0]⟩,
    ⟨"Second", D3DXMATRIX.identity, 1, D3D_OK, [0], [1 / 4]⟩]⟩

/-- A mesh of one freshly constructed vertex. -/
def Ref.tinyMesh : MeshData ℚ :=
  { name := "Mesh", vertices := [Vertex.new], indices := [], materialIndices := [],
    hasSkinning := true, bones := [] }

/-- Skin information of the two bones `A` (bone 0) and `B` (bone 1), whose
calls of `GetBoneInfluence` succeed: `A` fills in the pair `(3, 4/5)` and `B`
the pair `(3, 2/5)`. -/
def Ref.scenarioSkinInfo : SkinInfo ℚ :=
  ⟨[⟨"A", D3DXMATRIX.identity, 1, D3D_OK, [3], [4 / 5]⟩,
    ⟨"B", D3DXMATRIX.identity, 1, D3D_OK, [3], [2 / 5]⟩]⟩

/-- A mesh of four freshly constructed vertices. -/
def Ref.scenarioMesh : MeshData ℚ :=
  { name := "Mesh", vertices := [Vertex.new, Vertex.new, Vertex.new, Vertex.new],
    indices := [], materialIndices := [], hasSkinning := true, bones := [] }

/-- An export state whose scene has only its root node and whose table is
empty. -/
def Ref.rootState : ExportState ℚ :=
  { m_pScene :=
      { nodes := [{ name := "RootNode", parent := none, children := [], skeleton := none,
                    LclTranslation := ⟨0, 0, 0, 1⟩, LclRotation := ⟨0, 0, 0, 1⟩,
                    LclScaling := ⟨1, 1, 1, 1⟩ }]
        animStacks := [] }
    m_BoneNodeMap := fun _ => none }

/-- A skinned mesh without vertices and with the one bone `Spine`. -/
def Ref.oneBoneMesh : MeshData ℚ :=
  { name := "Mesh", vertices := [], indices := [], materialIndices := [],
    hasSkinning := true, bones := [{ (BoneData.new : BoneData ℚ) with name := "Spine" }] }

/-! ## Statements about slots, divisions and the frame hierarchy -/

/-- Lines 271-303 of `DecomposeMatrix` with the division of two floats as
the parameter `div`: the statements of `DecomposeMatrix.rotationMatrix`,
every quotient `a / b` being computed as `div a b`. -/
def MatrixConverter.DecomposeMatrix.rotationMatrixWith (div : K → K → K)
    (matrix : D3DXMATRIX K) (scale : D3DXVECTOR3 K) : D3DXMATRIX K :=
  let rotationMatrix := matrix
  let rotationMatrix := { rotationMatrix with _41 := 0, _42 := 0, _43 := 0 }
  let rotationMatrix :=
    if scale.x ≠ 0 then
      { rotationMatrix with
        _11 := div rotationMatrix._11 scale.x
        _12 := div rotationMatrix._12 scale.x
        _13 := div rotationMatrix._13 scale.x }
    else rotationMatrix
  let rotationMatrix :=
    if scale.y ≠ 0 then
      { rotationMatrix with
        _21 := div rotationMatrix._21 scale.y
        _22 := div rotationMatrix._22 scale.y
        _23 := div rotationMatrix._23 scale.y }
    else rotationMatrix
  let rotationMatrix :=
    if scale.z ≠ 0 then
      { rotationMatrix with
        _31 := div rotationMatrix._31 scale.z
        _32 := div rotationMatrix._32 scale.z
        _33 := div rotationMatrix._33 scale.z }
    else rotationMatrix
  rotationMatrix

/-! ## Frame hierarchy (`Common.h`) and its conversion (`XFileParser.cpp`) -/

/-- A Direct3D frame pointer `LPD3DXFRAME` over mesh containers `C`: the null
pointer, or a frame with its `Name` (`none` for a null name), its
`TransformationMatrix`, the mesh containers reached from `pMeshContainer`
through `pNextMeshContainer`, and the pointers `pFrameSibling` and
`pFrameFirstChild`. -/
inductive LPD3DXFRAME (K : Type) (C : Type) where
  | null : LPD3DXFRAME K C
  | frame (Name : Option String) (TransformationMatrix : D3DXMATRIX K)
      (pMeshContainer : List C) (pFrameSibling : LPD3DXFRAME K C)
      (pFrameFirstChild : LPD3DXFRAME K C) : LPD3DXFRAME K C

/-- Test `!d3dFrame` for the null pointer. -/
def LPD3DXFRAME.isNull {C : Type} : LPD3DXFRAME K C → Bool
  | .null => true
  | .frame _ _ _ _ _ => false

/-- Member `Name` of a frame (`none` for a null name or a null frame). -/
def LPD3DXFRAME.Name {C : Type} : LPD3DXFRAME K C → Option String
  | .null => none
  | .frame Name _ _ _ _ => Name

/-- Member `TransformationMatrix` of a frame. -/
def LPD3DXFRAME.TransformationMatrix {C : Type} : LPD3DXFRAME K C → D3DXMATRIX K
  | .null => D3DXMATRIX.identity
  | .frame _ TransformationMatrix _ _ _ => TransformationMatrix

/-- Member `pFrameSibling` of a frame. -/
def LPD3DXFRAME.pFrameSibling {C : Type} : LPD3DXFRAME K C → LPD3DXFRAME K C
  | .null => .null
  | .frame _ _ _ pFrameSibling _ => pFrameSibling

/-- Member `pFrameFirstChild` of a frame. -/
def LPD3DXFRAME.pFrameFirstChild {C : Type} : LPD3DXFRAME K C → LPD3DXFRAME K C
  | .null => .null
  | .frame _ _ _ _ pFrameFirstChild => pFrameFirstChild

/-- The frames reached from a frame pointer through `pFrameSibling`, the
frame itself first. The children of a frame in first-child/next-sibling
order are the sibling chain of its `pFrameFirstChild`. -/
def LPD3DXFRAME.siblingChain {C : Type} : LPD3DXFRAME K C → List (LPD3DXFRAME K C)
  | .null => []
  | .frame Name TransformationMatrix pMeshContainer pFrameSibling pFrameFirstChild =>
    .frame Name TransformationMatrix pMeshContainer pFrameSibling pFrameFirstChild ::
      siblingChain pFrameSibling

/-- Frame record `FrameData` of `Common.h`. A `FrameData*` is the position
of the record among the allocated records (`none` for the null pointer). -/
structure FrameData (K : Type) where
  name : String
  transformMatrix : D3DXMATRIX K
  combinedMatrix : D3DXMATRIX K
  parent : Option Nat
  children : List (Option Nat)
  meshes : List (MeshData K)

/-- Default constructor `FrameData()`. -/
def FrameData.new : FrameData K :=
  { name := ""
    transformMatrix := D3DXMATRIX.identity
    combinedMatrix := D3DXMATRIX.identity
    parent := none
    children := []
    meshes := [] }

/-- What `ConvertFrame` reads and writes: the `FrameData` records allocated
so far, in allocation order, and the material vector (of a type `Mat`). -/
structure ConvertState (K : Type) (Mat : Type) where
  frames : List (FrameData K)
  materials : Mat

/-- Assignment through the frame pointer `p`: the record at `p` becomes `f`
of itself. -/
def ConvertState.modifyFrame {Mat : Type} (st : ConvertState K Mat) (p : Nat)
    (f : FrameData K → FrameData K) : ConvertState K Mat :=
  { st with frames := st.frames.set p (f (st.frames.getD p FrameData.new)) }

namespace XFileParser

/-- Body of the mesh container loop of `ConvertFrame` (lines 186-194).
`ConvertMeshContainer` is a parameter: it gives the converted mesh (`none`
for a null result) and the material vector it leaves. -/
def ConvertFrame.meshStep {C Mat : Type}
    (ConvertMeshContainer : C → Mat → Option (MeshData K) × Mat) (frame : Nat)
    (st : ConvertState K Mat) (pMeshContainer : C) : ConvertState K Mat :=
  let r := ConvertMeshContainer pMeshContainer st.materials
  let mesh := r.1
  let st := { st with materials := r.2 }
  match mesh with
  | some mesh => st.modifyFrame frame (fun d => { d with meshes := d.meshes ++ [mesh] })
  | none => st

/-- Lines 174-194 of `ConvertFrame`: a new record is allocated (its pointer
is the number of records allocated before), name, matrix and parent are
assigned and the mesh containers are converted. -/
def ConvertFrame.create {C Mat : Type}
    (ConvertMeshContainer : C → Mat → Option (MeshData K) × Mat)
    (Name : Option String) (TransformationMatrix : D3DXMATRIX K) (pMeshContainer : List C)
    (parent : Option Nat) (st : ConvertState K Mat) : ConvertState K Mat :=
  let frame := st.frames.length
  let st := { st with frames := st.frames ++ [FrameData.new] }
  let st :=
    match Name with
    | some n => st.modifyFrame frame (fun d => { d with name := n })
    | none => st
  let st := st.modifyFrame frame (fun d => { d with transformMatrix := TransformationMatrix })
  let st := st.modifyFrame frame (fun d => { d with parent := parent })
  pMeshContainer.foldl (ConvertFrame.meshStep ConvertMeshContainer frame) st

/-- Lines 200-201 of `ConvertFrame`, for the result `r` of the call for the
sibling: with a non-null `parent`, the returned pointer is pushed to the
children of the parent. -/
def ConvertFrame.linkSibling {Mat : Type} (parent : Option Nat)
    (r : ConvertState K Mat × Option Nat) : ConvertState K Mat :=
  let sibling := r.2
  match parent with
  | some p => r.1.modifyFrame p (fun d => { d with children := d.children ++ [sibling] })
  | none => r.1

/-- Line 208 of `ConvertFrame`, for the result `r` of the call for the first
child: the returned pointer is pushed to the children of `frame`. -/
def ConvertFrame.linkChild {Mat : Type} (frame : Nat)
    (r : ConvertState K Mat × Option Nat) : ConvertState K Mat :=
  let child := r.2
  r.1.modifyFrame frame (fun d => { d with children := d.children ++ [child] })

/-- Method `XFileParser::ConvertFrame`: the state after the call and the
returned pointer. -/
def ConvertFrame {C Mat : Type}
    (ConvertMeshContainer : C → Mat → Option (MeshData K) × Mat) :
    LPD3DXFRAME K C → Option Nat → ConvertState K Mat → ConvertState K Mat × Option Nat
  | .null, _, st => (st, none)
  | .frame Name TransformationMatrix pMeshContainer pFrameSibling pFrameFirstChild,
      parent, st =>
    let frame := st.frames.length
    let st := ConvertFrame.create ConvertMeshContainer Name TransformationMatrix pMeshContainer
      parent st
    let st :=
      if pFrameSibling.isNull then st
      else
        ConvertFrame.linkSibling parent
          (ConvertFrame ConvertMeshContainer pFrameSibling parent st)
    let st :=
      if pFrameFirstChild.isNull then st
      else
        ConvertFrame.linkChild frame
          (ConvertFrame ConvertMeshContainer pFrameFirstChild (some frame) st)
    (st, some frame)

/-- The statement that the record at `k` was filled from the source frame
`c` under the parent pointer `parent`: it has the name of `c` (empty for a
null name), its matrix, and `parent` as parent. -/
def ConvertFrame.ConvertedAt {C Mat : Type} (st : ConvertState K Mat) (k : Nat)
    (c : LPD3DXFRAME K C) (parent : Option Nat) : Prop :=
  ∃ node, st.frames[k]? = some node ∧ node.name = c.Name.getD "" ∧
    node.transformMatrix = c.TransformationMatrix ∧ node.parent = parent

/-- What a call `ConvertFrame d3dFrame parent` does to the state `st`, the
list `ks` holding the records allocated for the frames of the sibling chain
of `d3dFrame`, in chain order: the first of them is returned, records that
existed before are untouched except that the records after the first, in
reverse order, are pushed to the children of the parent. -/
structure ConvertFrame.Spec {C Mat : Type}
    (ConvertMeshContainer : C → Mat → Option (MeshData K) × Mat)
    (d3dFrame : LPD3DXFRAME K C) (parent : Option Nat) (st : ConvertState K Mat)
    (ks : List Nat) : Prop where
  result : (ConvertFrame ConvertMeshContainer d3dFrame parent st).2 = ks.head?
  length : ks.length = d3dFrame.siblingChain.length
  increasing : ks.Pairwise (fun a b => a < b)
  fresh : ∀ k ∈ ks, st.frames.length ≤ k
  grows : st.frames.length ≤
    (ConvertFrame ConvertMeshContainer d3dFrame parent st).1.frames.length
  others : ∀ i, i < st.frames.length → parent ≠ some i →
    (ConvertFrame ConvertMeshContainer d3dFrame parent st).1.frames[i]? = st.frames[i]?
  pushed : ∀ p old, parent = some p → st.frames[p]? = some old →
    (ConvertFrame ConvertMeshContainer d3dFrame parent st).1.frames[p]? =
      some { old with children := old.children ++ ks.tail.reverse.map some }
  converted : ∀ (j k : Nat) (c : LPD3DXFRAME K C), ks[j]? = some k →
    d3dFrame.siblingChain[j]? = some c →
    ConvertFrame.ConvertedAt (ConvertFrame ConvertMeshContainer d3dFrame parent st).1 k c parent

end XFileParser

/-- A frame `Root` whose children are `A` and `B`, in this order, all
without mesh containers. -/
def Ref.frameTree : LPD3DXFRAME ℚ Unit :=
  .frame (some "Root") D3DXMATRIX.identity [] .null
    (.frame (some "A") D3DXMATRIX.identity []
      (.frame (some "B") D3DXMATRIX.identity [] .null .null) .null)

/-- A mesh container conversion that returns the null pointer and leaves
the materials alone. -/
def Ref.noMesh (_pMeshContainer : Unit) (materials : Unit) : Option (MeshData ℚ) × Unit :=
  (none, materials)

/-! ## Statements about exported animation curves -/

/-- The nine curves that hold the given keys in order: for every key its
time with the components of the converted translation, of the Euler angles
in degrees of the converted rotation, and of the scale. -/
def FBXExporter.curvesOfKeys {M : Type} (sqrt : K → K) (ops : FbxSceneOps K M)
    (keys : List (AnimationKey K)) : NodeCurves K :=
  { TX := keys.map (fun key => (key.time, key.translation.x))
    TY := keys.map (fun key => (key.time, key.translation.y))
    TZ := keys.map (fun key => (key.time, -key.translation.z))
    RX := keys.map (fun key => (key.time,
      (ops.DecomposeSphericalXYZ
        (MatrixConverter.ConvertQuaternion_LH_to_RH sqrt key.rotation)).x * FBXExporter.RAD_TO_DEG))
    RY := keys.map (fun key => (key.time,
      (ops.DecomposeSphericalXYZ
        (MatrixConverter.ConvertQuaternion_LH_to_RH sqrt key.rotation)).y * FBXExporter.RAD_TO_DEG))
    RZ := keys.map (fun key => (key.time,
      (ops.DecomposeSphericalXYZ
        (MatrixConverter.ConvertQuaternion_LH_to_RH sqrt key.rotation)).z * FBXExporter.RAD_TO_DEG))
    SX := keys.map (fun key => (key.time, key.scale.x))
    SY := keys.map (fun key => (key.time, key.scale.y))
    SZ := keys.map (fun key => (key.time, key.scale.z)) }

/-- An export state whose scene has the root node and the node `Bone`
(node 1) under it, and whose table resolves the name `Bone` to node 1. -/
def Ref.boneState : ExportState ℚ :=
  { m_pScene :=
      { nodes := [{ name := "RootNode", parent := none, children := [1], skeleton := none,
                    LclTranslation := ⟨0, 0, 0, 1⟩, LclRotation := ⟨0, 0, 0, 1⟩,
                    LclScaling := ⟨1, 1, 1, 1⟩ },
                  { name := "Bone", parent := some 0, children := [], skeleton := none,
                    LclTranslation := ⟨0, 0, 0, 1⟩, LclRotation := ⟨0, 0, 0, 1⟩,
                    LclScaling := ⟨1, 1, 1, 1⟩ }]
        animStacks := [] }
    m_BoneNodeMap := fun name => if name = "Bone" then some 1 else none }

/-- A clip of two tracks with one key each: the track of the unknown bone
`Ghost`, with a key at time 1, and the track of `Bone`, with a key at time
1/2 that has the translation `(1, 2, 3)` and the scale `(4, 5, 6)`. -/
def Ref.ghostAndBoneClip : AnimationClip ℚ :=
  { (AnimationClip.new : AnimationClip ℚ) with
    tracks :=
      [⟨"Ghost", [{ (AnimationKey.new : AnimationKey ℚ) with
          time := 1, translation := ⟨9, 9, 9⟩ }]⟩,
       ⟨"Bone", [{ (AnimationKey.new : AnimationKey ℚ) with
          time := 1 / 2, translation := ⟨1, 2, 3⟩, scale := ⟨4, 5, 6⟩ }]⟩] }

/-! ## Theorems -/

open MatrixConverter

variable {M : Type}

/-! ### Point, direction and orientation conversion -/

/-- C1: for every vector `(x, y, z)` the position conversion returns
`(x, y, -z)` with `w = 1` and the normal conversion returns `(x, y, -z)` with
`w = 0`; only the Z component is negated. -/
theorem C1_point_and_direction_negate_z (x y z : K) :
    ConvertPosition_LH_to_RH (⟨x, y, z⟩ : D3DXVECTOR3 K) = ⟨x, y, -z, 1⟩ ∧
    ConvertNormal_LH_to_RH (⟨x, y, z⟩ : D3DXVECTOR3 K) = ⟨x, y, -z, 0⟩ :=
  ⟨rfl, rfl⟩

theorem sqLength_neg_xy (q : D3DXQUATERNION K) :
    (⟨-q.x, -q.y, q.z, q.w⟩ : FbxQuaternion K).sqLength = q.sqLength := by
  simp only [FbxQuaternion.sqLength, D3DXQUATERNION.sqLength]; ring

theorem sqLength_pos_of_ne_zero (q : D3DXQUATERNION K) (hq : q ≠ ⟨0, 0, 0, 0⟩) :
    0 < q.sqLength := by
  have h : q.x ≠ 0 ∨ q.y ≠ 0 ∨ q.z ≠ 0 ∨ q.w ≠ 0 := by
    by_contra hc
    push_neg at hc
    apply hq
    cases q
    simp_all
  simp only [D3DXQUATERNION.sqLength]
  rcases h with h | h | h | h
  · nlinarith [mul_self_pos.mpr h, mul_self_nonneg q.y, mul_self_nonneg q.z, mul_self_nonneg q.w]
  · nlinarith [mul_self_pos.mpr h, mul_self_nonneg q.x, mul_self_nonneg q.z, mul_self_nonneg q.w]
  · nlinarith [mul_self_pos.mpr h, mul_self_nonneg q.y, mul_self_nonneg q.x, mul_self_nonneg q.w]
  · nlinarith [mul_self_pos.mpr h, mul_self_nonneg q.y, mul_self_nonneg q.z, mul_self_nonneg q.x]

theorem sqrt_one_of_isSqrtAt (sqrt : K → K) (h : IsSqrtAt sqrt 1) : sqrt 1 = 1 := by
  obtain ⟨h0, h1⟩ := h
  have : (sqrt 1 - 1) * (sqrt 1 + 1) = 0 := by ring_nf; rw [sq, h1]; ring
  rcases mul_eq_zero.mp this with h | h
  · linarith
  · linarith

theorem convertQuaternion_unit (sqrt : K → K) (q : D3DXQUATERNION K)
    (hq : q.sqLength = 1) (hs : IsSqrtAt sqrt 1) :
    ConvertQuaternion_LH_to_RH sqrt q = ⟨-q.x, -q.y, q.z, q.w⟩ := by
  have h1 := sqrt_one_of_isSqrtAt sqrt hs
  simp only [ConvertQuaternion_LH_to_RH, FbxQuaternion.Normalize, sqLength_neg_xy, hq, h1]
  simp

/-- C2: for every non-zero quaternion `q = (x, y, z, w)` whose squared length
has the square root `sqrt q.sqLength` (the norm of `q`), the orientation
conversion returns `(-x, -y, z, w)` divided by that norm; the result has
unit length, and for a unit quaternion it is exactly `(-x, -y, z, w)`. -/
theorem C2_quaternion_negate_xy_normalize (sqrt : K → K) (q : D3DXQUATERNION K)
    (hq : q ≠ ⟨0, 0, 0, 0⟩) (hs : IsSqrtAt sqrt q.sqLength) :
    ConvertQuaternion_LH_to_RH sqrt q =
      ⟨-q.x / sqrt q.sqLength, -q.y / sqrt q.sqLength,
        q.z / sqrt q.sqLength, q.w / sqrt q.sqLength⟩ ∧
    (ConvertQuaternion_LH_to_RH sqrt q).sqLength = 1 ∧
    (q.sqLength = 1 → ConvertQuaternion_LH_to_RH sqrt q = ⟨-q.x, -q.y, q.z, q.w⟩) := by
  have hpos := sqLength_pos_of_ne_zero q hq
  obtain ⟨h0, h1⟩ := hs
  have hne : sqrt q.sqLength ≠ 0 := by
    intro h; rw [h] at h1; simp at h1; linarith
  have heq : ConvertQuaternion_LH_to_RH sqrt q =
      ⟨-q.x / sqrt q.sqLength, -q.y / sqrt q.sqLength,
        q.z / sqrt q.sqLength, q.w / sqrt q.sqLength⟩ := by
    simp only [ConvertQuaternion_LH_to_RH, FbxQuaternion.Normalize, sqLength_neg_xy]
    rw [if_neg hne]
  refine ⟨heq, ?_, ?_⟩
  · rw [heq]
    have hdiv : ∀ a b c d n : K, n ≠ 0 →
        -a / n * (-a / n) + -b / n * (-b / n) + c / n * (c / n) + d / n * (d / n) =
          (a * a + b * b + c * c + d * d) / (n * n) := by
      intro a b c d n hn
      field_simp
    have hlen := hdiv q.x q.y q.z q.w (sqrt q.sqLength) hne
    rw [h1] at hlen
    simp only [FbxQuaternion.sqLength]
    rw [hlen]
    exact div_self (ne_of_gt hpos)
  · intro hu
    exact convertQuaternion_unit sqrt q hu (hu ▸ ⟨h0, h1⟩)

/-- Witness for C2: the quaternion `(0, 3, 0, 4)` of norm 5 is converted to
`(0, -3/5, 0, 4/5)`. -/
theorem C2_witness :
    ConvertQuaternion_LH_to_RH Rat.sqrt (⟨0, 3, 0, 4⟩ : D3DXQUATERNION ℚ) =
      ⟨0, -3 / 5, 0, 4 / 5⟩ := by
  have h := (C2_quaternion_negate_xy_normalize Rat.sqrt (⟨0, 3, 0, 4⟩ : D3DXQUATERNION ℚ)
    (by simp) (by norm_num [IsSqrtAt, D3DXQUATERNION.sqLength])).1
  rw [h]
  norm_num [D3DXQUATERNION.sqLength]

/-- For a unit quaternion the rotation `q * (p, 0) * conj q` is the product
of the rotation matrix `R(q)` with `p`. -/
theorem rotate_eq_rotationMatrixOf (q : D3DXQUATERNION K) (hq : q.sqLength = 1)
    (p : D3DXVECTOR3 K) :
    ![(q.rotate p).x, (q.rotate p).y, (q.rotate p).z] =
      (rotationMatrixOf q.x q.y q.z q.w).mulVec ![p.x, p.y, p.z] := by
  simp only [D3DXQUATERNION.sqLength] at hq
  ext i
  fin_cases i
  · simp [rotationMatrixOf, D3DXQUATERNION.rotate, rotate, hamilton, Matrix.mulVec,
      Matrix.dotProduct, Fin.sum_univ_three, Matrix.vecHead, Matrix.vecTail]
    linear_combination p.x * hq
  · simp [rotationMatrixOf, D3DXQUATERNION.rotate, rotate, hamilton, Matrix.mulVec,
      Matrix.dotProduct, Fin.sum_univ_three, Matrix.vecHead, Matrix.vecTail]
    linear_combination p.y * hq
  · simp [rotationMatrixOf, D3DXQUATERNION.rotate, rotate, hamilton, Matrix.mulVec,
      Matrix.dotProduct, Fin.sum_univ_three, Matrix.vecHead, Matrix.vecTail]
    linear_combination p.z * hq

/-- C3: for every unit quaternion `q` and every point `p`, converting the
rotated point equals rotating the converted point by the converted
quaternion; equivalently the rotation matrix of the converted quaternion is
`F * R(q) * F` with `F = diag(1, 1, -1)`. -/
theorem C3_converted_quaternion_same_rotation (sqrt : K → K) (q : D3DXQUATERNION K)
    (hq : q.sqLength = 1) (hs : IsSqrtAt sqrt 1) :
    (∀ p : D3DXVECTOR3 K,
      ConvertPosition_LH_to_RH (q.rotate p) =
        (ConvertQuaternion_LH_to_RH sqrt q).rotate (ConvertPosition_LH_to_RH p)) ∧
    rotationMatrixOf (ConvertQuaternion_LH_to_RH sqrt q).x (ConvertQuaternion_LH_to_RH sqrt q).y
        (ConvertQuaternion_LH_to_RH sqrt q).z (ConvertQuaternion_LH_to_RH sqrt q).w =
      flipZ * rotationMatrixOf q.x q.y q.z q.w * flipZ := by
  rw [convertQuaternion_unit sqrt q hq hs]
  constructor
  · intro p
    simp only [ConvertPosition_LH_to_RH, D3DXQUATERNION.rotate, FbxQuaternion.rotate, rotate,
      hamilton, FbxVector4.mk.injEq, and_true]
    refine ⟨?_, ?_, ?_⟩ <;> ring
  · ext i j
    fin_cases i <;> fin_cases j <;>
      simp [rotationMatrixOf, flipZ, Matrix.mul_apply, Fin.sum_univ_three, Matrix.vecHead,
        Matrix.vecTail] <;> ring

/-- Witness for C3: the half turn about Y, `q = (0, 1, 0, 0)`, applied to the
point `(1, 2, 3)`. -/
theorem C3_witness :
    ConvertPosition_LH_to_RH ((⟨0, 1, 0, 0⟩ : D3DXQUATERNION ℚ).rotate ⟨1, 2, 3⟩) =
      (ConvertQuaternion_LH_to_RH Rat.sqrt ⟨0, 1, 0, 0⟩).rotate
        (ConvertPosition_LH_to_RH ⟨1, 2, 3⟩) :=
  (C3_converted_quaternion_same_rotation Rat.sqrt (⟨0, 1, 0, 0⟩ : D3DXQUATERNION ℚ)
    (by norm_num [D3DXQUATERNION.sqLength]) (by norm_num [IsSqrtAt])).1 ⟨1, 2, 3⟩

/-- C4: for every unit quaternion `q`, converting twice yields `q` or `-q`. -/
theorem C4_convert_twice (sqrt : K → K) (q : D3DXQUATERNION K)
    (hq : q.sqLength = 1) (hs : IsSqrtAt sqrt 1) :
    ConvertQuaternion_LH_to_RH sqrt (ConvertQuaternion_LH_to_RH sqrt q).toD3DX =
        ⟨q.x, q.y, q.z, q.w⟩ ∨
      ConvertQuaternion_LH_to_RH sqrt (ConvertQuaternion_LH_to_RH sqrt q).toD3DX =
        ⟨-q.x, -q.y, -q.z, -q.w⟩ := by
  left
  rw [convertQuaternion_unit sqrt q hq hs]
  have h2 : (FbxQuaternion.toD3DX (⟨-q.x, -q.y, q.z, q.w⟩ : FbxQuaternion K)).sqLength = 1 := by
    rw [← hq]; simp only [FbxQuaternion.toD3DX, D3DXQUATERNION.sqLength]; ring
  rw [convertQuaternion_unit sqrt _ h2 hs]
  simp [FbxQuaternion.toD3DX]

/-- Witness for C4: the unit quaternion `(3/5, 0, 4/5, 0)`. -/
theorem C4_witness :
    ConvertQuaternion_LH_to_RH Rat.sqrt
        (ConvertQuaternion_LH_to_RH Rat.sqrt (⟨3 / 5, 0, 4 / 5, 0⟩ : D3DXQUATERNION ℚ)).toD3DX =
        ⟨3 / 5, 0, 4 / 5, 0⟩ ∨
      ConvertQuaternion_LH_to_RH Rat.sqrt
        (ConvertQuaternion_LH_to_RH Rat.sqrt (⟨3 / 5, 0, 4 / 5, 0⟩ : D3DXQUATERNION ℚ)).toD3DX =
        ⟨-(3 / 5), -0, -(4 / 5), -0⟩ :=
  C4_convert_twice Rat.sqrt (⟨3 / 5, 0, 4 / 5, 0⟩ : D3DXQUATERNION ℚ)
    (by norm_num [D3DXQUATERNION.sqLength]) (by norm_num [IsSqrtAt])

/-! ### Decomposition -/

theorem abs_of_isSqrtAt_mul_self (sqrt : K → K) (a s : K) (h : IsSqrtAt sqrt a)
    (ha : a = s * s) : sqrt a = |s| := by
  obtain ⟨h0, h1⟩ := h
  have h2 : sqrt a * sqrt a = |s| * |s| := by rw [h1, ha, abs_mul_abs_self]
  exact (mul_self_inj h0 (abs_nonneg s)).mp h2

/-- C5: for every matrix (the library root being a square root at the three
squared basis lengths), `DecomposeMatrix` returns the entries
`(_41, _42, _43)` as translation and, as scale, the Euclidean lengths of the
basis vectors `(_11, _12, _13)`, `(_21, _22, _23)`, `(_31, _32, _33)`: each
scale component is non-negative and squares to the squared length; when the
basis vectors are `s_i` times unit vectors the scale is `(|s_x|, |s_y|, |s_z|)`. -/
theorem C5_decompose_translation_and_scale (d3dx : D3DX K) (m : D3DXMATRIX K)
    (hx : IsSqrtAt d3dx.sqrt (m._11 * m._11 + m._12 * m._12 + m._13 * m._13))
    (hy : IsSqrtAt d3dx.sqrt (m._21 * m._21 + m._22 * m._22 + m._23 * m._23))
    (hz : IsSqrtAt d3dx.sqrt (m._31 * m._31 + m._32 * m._32 + m._33 * m._33)) :
    (DecomposeMatrix d3dx m).1 = ⟨m._41, m._42, m._43⟩ ∧
    (0 ≤ (DecomposeMatrix d3dx m).2.2.x ∧
      (DecomposeMatrix d3dx m).2.2.x * (DecomposeMatrix d3dx m).2.2.x =
        m._11 * m._11 + m._12 * m._12 + m._13 * m._13) ∧
    (0 ≤ (DecomposeMatrix d3dx m).2.2.y ∧
      (DecomposeMatrix d3dx m).2.2.y * (DecomposeMatrix d3dx m).2.2.y =
        m._21 * m._21 + m._22 * m._22 + m._23 * m._23) ∧
    (0 ≤ (DecomposeMatrix d3dx m).2.2.z ∧
      (DecomposeMatrix d3dx m).2.2.z * (DecomposeMatrix d3dx m).2.2.z =
        m._31 * m._31 + m._32 * m._32 + m._33 * m._33) ∧
    (∀ (sx sy sz : K) (ux uy uz : D3DXVECTOR3 K),
      ux.x * ux.x + ux.y * ux.y + ux.z * ux.z = 1 →
      uy.x * uy.x + uy.y * uy.y + uy.z * uy.z = 1 →
      uz.x * uz.x + uz.y * uz.y + uz.z * uz.z = 1 →
      (m._11 = sx * ux.x ∧ m._12 = sx * ux.y ∧ m._13 = sx * ux.z) →
      (m._21 = sy * uy.x ∧ m._22 = sy * uy.y ∧ m._23 = sy * uy.z) →
      (m._31 = sz * uz.x ∧ m._32 = sz * uz.y ∧ m._33 = sz * uz.z) →
      (DecomposeMatrix d3dx m).2.2 = ⟨|sx|, |sy|, |sz|⟩) := by
  refine ⟨rfl, hx, hy, hz, ?_⟩
  intro sx sy sz ux uy uz hux huy huz hmx hmy hmz
  have key : ∀ (a b c s : K) (u : D3DXVECTOR3 K), u.x * u.x + u.y * u.y + u.z * u.z = 1 →
      a = s * u.x → b = s * u.y → c = s * u.z → a * a + b * b + c * c = s * s := by
    intro a b c s u hu ha hb hc
    rw [ha, hb, hc]
    have : s * u.x * (s * u.x) + s * u.y * (s * u.y) + s * u.z * (s * u.z) =
        s * s * (u.x * u.x + u.y * u.y + u.z * u.z) := by ring
    rw [this, hu, mul_one]
  have ex := abs_of_isSqrtAt_mul_self d3dx.sqrt _ sx hx (key _ _ _ sx ux hux hmx.1 hmx.2.1 hmx.2.2)
  have ey := abs_of_isSqrtAt_mul_self d3dx.sqrt _ sy hy (key _ _ _ sy uy huy hmy.1 hmy.2.1 hmy.2.2)
  have ez := abs_of_isSqrtAt_mul_self d3dx.sqrt _ sz hz (key _ _ _ sz uz huz hmz.1 hmz.2.1 hmz.2.2)
  show (⟨_, _, _⟩ : D3DXVECTOR3 K) = _
  simp only [DecomposeMatrix, ExtractScale, D3DXVec3Length, ex, ey, ez]

/-- Witness for C5: basis vectors `(-3, -4, 0)`, `(0, 2, 0)`, `(0, 0, 1)` and
translation `(7, 8, 9)` decompose into translation `(7, 8, 9)` and scale
`(5, 2, 1)`. -/
theorem C5_witness :
    (DecomposeMatrix Ref.d3dx
        (⟨-3, -4, 0, 0, 0, 2, 0, 0, 0, 0, 1, 0, 7, 8, 9, 1⟩ : D3DXMATRIX ℚ)).1 = ⟨7, 8, 9⟩ ∧
    (DecomposeMatrix Ref.d3dx
        (⟨-3, -4, 0, 0, 0, 2, 0, 0, 0, 0, 1, 0, 7, 8, 9, 1⟩ : D3DXMATRIX ℚ)).2.2 =
      ⟨|(-5 : ℚ)|, |(2 : ℚ)|, |(1 : ℚ)|⟩ := by
  have h := C5_decompose_translation_and_scale Ref.d3dx
    (⟨-3, -4, 0, 0, 0, 2, 0, 0, 0, 0, 1, 0, 7, 8, 9, 1⟩ : D3DXMATRIX ℚ)
    (by norm_num [IsSqrtAt, Ref.d3dx]) (by norm_num [IsSqrtAt, Ref.d3dx])
    (by norm_num [IsSqrtAt, Ref.d3dx])
  exact ⟨h.1, h.2.2.2.2 (-5) 2 1 ⟨3 / 5, 4 / 5, 0⟩ ⟨0, 1, 0⟩ ⟨0, 0, 1⟩
    (by norm_num) (by norm_num) (by norm_num) (by norm_num) (by norm_num) (by norm_num)⟩

/-! ### Conversion with options -/

theorem Ref.sdk_setTLaws : Ref.sdk.SetTLaws :=
  { getT_x := fun _ _ => rfl
    getT_y := fun _ _ => rfl
    getT_z := fun _ _ => rfl
    getQ := fun _ _ => rfl
    getS := fun _ _ => rfl }

/-- C6: with up-axis Y, the translation of the result of
`ConvertMatrixWithOptions` is the translation of the unscaled conversion
multiplied componentwise by `options.scale`, its rotation and scale
components are those of the unscaled conversion (`ConvertMatrix_LH_to_RH`
for a right-handed target, `D3DMatrixToFbxAMatrix` for a left-handed one),
and with `options.scale = 1` the result is the unscaled conversion. -/
theorem C6_global_scale_on_translation_only (d3dx : D3DX K) (sdk : FbxAMatrixOps K M)
    (laws : sdk.SetTLaws) (matrix : D3DXMATRIX K) (options : ConversionOptions K)
    (hup : options.upAxis = UpAxis.Y_AXIS) :
    (options.targetCoordSystem = CoordinateSystem.RIGHT_HANDED →
      ConvertMatrixWithOptions.unscaled d3dx sdk matrix options =
        ConvertMatrix_LH_to_RH d3dx sdk matrix) ∧
    (options.targetCoordSystem = CoordinateSystem.LEFT_HANDED →
      ConvertMatrixWithOptions.unscaled d3dx sdk matrix options =
        D3DMatrixToFbxAMatrix sdk matrix) ∧
    (sdk.GetT (ConvertMatrixWithOptions d3dx sdk matrix options)).x =
      (sdk.GetT (ConvertMatrixWithOptions.unscaled d3dx sdk matrix options)).x * options.scale ∧
    (sdk.GetT (ConvertMatrixWithOptions d3dx sdk matrix options)).y =
      (sdk.GetT (ConvertMatrixWithOptions.unscaled d3dx sdk matrix options)).y * options.scale ∧
    (sdk.GetT (ConvertMatrixWithOptions d3dx sdk matrix options)).z =
      (sdk.GetT (ConvertMatrixWithOptions.unscaled d3dx sdk matrix options)).z * options.scale ∧
    sdk.GetQ (ConvertMatrixWithOptions d3dx sdk matrix options) =
      sdk.GetQ (ConvertMatrixWithOptions.unscaled d3dx sdk matrix options) ∧
    sdk.GetS (ConvertMatrixWithOptions d3dx sdk matrix options) =
      sdk.GetS (ConvertMatrixWithOptions.unscaled d3dx sdk matrix options) ∧
    (options.scale = 1 →
      ConvertMatrixWithOptions d3dx sdk matrix options =
        ConvertMatrixWithOptions.unscaled d3dx sdk matrix options) := by
  have hz : ¬ options.upAxis = UpAxis.Z_AXIS := by rw [hup]; decide
  refine ⟨fun h => by simp [ConvertMatrixWithOptions.unscaled, h],
    fun h => by simp [ConvertMatrixWithOptions.unscaled, h], ?_⟩
  simp only [ConvertMatrixWithOptions, ConvertMatrixWithOptions.converted, if_neg hz]
  by_cases hs : options.scale = 1
  · simp [hs]
  · simp only [ne_eq, hs, not_false_eq_true, if_true, laws.getT_x, laws.getT_y, laws.getT_z,
      laws.getQ, laws.getS, ApplyGlobalScale, false_implies, and_true]

/-- Witness for C6: a matrix with translation `(5, 6, 7)` converted with
global scale 2, right-handed target and up-axis Y. -/
theorem C6_witness :
    (Ref.sdk.GetT (ConvertMatrixWithOptions Ref.d3dx Ref.sdk
        ⟨1, 0, 0, 0, 0, 1, 0, 0, 0, 0, 1, 0, 5, 6, 7, 1⟩ { scale := 2 })).x =
      (Ref.sdk.GetT (ConvertMatrixWithOptions.unscaled Ref.d3dx Ref.sdk
        ⟨1, 0, 0, 0, 0, 1, 0, 0, 0, 0, 1, 0, 5, 6, 7, 1⟩ { scale := 2 })).x * 2 :=
  (C6_global_scale_on_translation_only Ref.d3dx Ref.sdk Ref.sdk_setTLaws
    ⟨1, 0, 0, 0, 0, 1, 0, 0, 0, 0, 1, 0, 5, 6, 7, 1⟩ { scale := 2 } rfl).2.2.1

/-- C7 (amended): `ConvertMatrixWithOptions` left-multiplies the converted
transform by the fixed rotation of -90 degrees about X exactly when the
target up-axis is Z; it applies no up-axis rotation when the target up-axis
is Y or X. -/
theorem C7_up_axis_rotation_only_for_z (d3dx : D3DX K) (sdk : FbxAMatrixOps K M)
    (matrix : D3DXMATRIX K) (options : ConversionOptions K) :
    (options.upAxis = UpAxis.Z_AXIS →
      ConvertMatrixWithOptions d3dx sdk matrix options =
        sdk.mul (upAxisRotation sdk)
          (ConvertMatrixWithOptions.converted d3dx sdk matrix options)) ∧
    (options.upAxis = UpAxis.Y_AXIS →
      ConvertMatrixWithOptions d3dx sdk matrix options =
        ConvertMatrixWithOptions.converted d3dx sdk matrix options) ∧
    (options.upAxis = UpAxis.X_AXIS →
      ConvertMatrixWithOptions d3dx sdk matrix options =
        ConvertMatrixWithOptions.converted d3dx sdk matrix options) := by
  refine ⟨?_, ?_, ?_⟩ <;> intro h <;> simp [ConvertMatrixWithOptions, h]

/-- Witness for C7 (amended): with up-axis Z the identity transform is
left-multiplied by the up-axis rotation. -/
theorem C7_witness :
    ConvertMatrixWithOptions Ref.d3dx Ref.sdk D3DXMATRIX.identity { upAxis := UpAxis.Z_AXIS } =
      Ref.sdk.mul (upAxisRotation Ref.sdk)
        (ConvertMatrixWithOptions.converted Ref.d3dx Ref.sdk D3DXMATRIX.identity
          { upAxis := UpAxis.Z_AXIS }) :=
  (C7_up_axis_rotation_only_for_z Ref.d3dx Ref.sdk D3DXMATRIX.identity
    { upAxis := UpAxis.Z_AXIS }).1 rfl

theorem Ref.upAxisRotation_r1 : (upAxisRotation Ref.sdk).r1 = ⟨0, 0, -1, 0⟩ := by
  have hc : Ref.cosDeg (-90) = 0 := by norm_num [Ref.cosDeg, Ref.sinDeg, Ref.bhaskara]
  have hs : Ref.sinDeg (-90) = -1 := by norm_num [Ref.sinDeg, Ref.bhaskara]
  have hc0 : Ref.cosDeg 0 = 1 := by norm_num [Ref.cosDeg, Ref.sinDeg, Ref.bhaskara]
  have hs0 : Ref.sinDeg 0 = 0 := by norm_num [Ref.sinDeg, Ref.bhaskara]
  have hl : Ref.rowLength ⟨0, 1, 0, 0⟩ = 1 := by norm_num [Ref.rowLength]
  simp only [upAxisRotation, Ref.sdk, Ref.withBasis, Ref.eulerRows, Ref.getS, Ref.identity,
    Ref.arrayMul, Ref.rowMul, hc, hs, hc0, hs0, hl]
  norm_num

/-- Counterexample to C7 as stated: with target up-axis X, which differs from
the source up-axis Y, the identity transform (left-handed target) is
returned as converted, and that differs from its product with the
rotation of -90 degrees about X. -/
theorem C7_counterexample :
    (({ upAxis := UpAxis.X_AXIS, targetCoordSystem := CoordinateSystem.LEFT_HANDED } :
        ConversionOptions ℚ).upAxis ≠ UpAxis.Y_AXIS) ∧
    ConvertMatrixWithOptions Ref.d3dx Ref.sdk D3DXMATRIX.identity
        { upAxis := UpAxis.X_AXIS, targetCoordSystem := CoordinateSystem.LEFT_HANDED } ≠
      Ref.sdk.mul (upAxisRotation Ref.sdk)
        (ConvertMatrixWithOptions.converted Ref.d3dx Ref.sdk D3DXMATRIX.identity
          { upAxis := UpAxis.X_AXIS, targetCoordSystem := CoordinateSystem.LEFT_HANDED }) := by
  refine ⟨by decide, ?_⟩
  have hconv : ConvertMatrixWithOptions.converted Ref.d3dx Ref.sdk D3DXMATRIX.identity
      { upAxis := UpAxis.X_AXIS, targetCoordSystem := CoordinateSystem.LEFT_HANDED } =
      Ref.identity := by
    simp [ConvertMatrixWithOptions.converted, ConvertMatrixWithOptions.unscaled,
      D3DMatrixToFbxAMatrix, Ref.sdk, Ref.identity, D3DXMATRIX.identity]
  have hfull : ConvertMatrixWithOptions Ref.d3dx Ref.sdk D3DXMATRIX.identity
      { upAxis := UpAxis.X_AXIS, targetCoordSystem := CoordinateSystem.LEFT_HANDED } =
      Ref.identity := by
    simp [ConvertMatrixWithOptions, hconv]
  rw [hfull, hconv]
  intro h
  have h1 := congrArg (fun m : Ref.Matrix4 => m.r1.y) h
  have h2 : (Ref.sdk.mul (upAxisRotation Ref.sdk) Ref.identity).r1.y = 0 := by
    show (Ref.rowMul Ref.identity.r1 (upAxisRotation Ref.sdk)).y = 0
    simp [Ref.rowMul, Ref.identity, Ref.upAxisRotation_r1]
  simp only [h2] at h1
  norm_num [Ref.identity] at h1

/-! ### Geometry export -/

namespace FBXExporter

theorem polygonStep_polygons (self : FBXExporter K) (meshData : MeshData K)
    (fbxMesh : FbxMesh K) (i : Nat) :
    (ExportGeometry.polygonStep self meshData fbxMesh i).polygons =
      fbxMesh.polygons ++ [emittedTriangle self meshData i] := by
  unfold ExportGeometry.polygonStep emittedTriangle
  by_cases h : self.m_Options.targetCoordSystem = CoordinateSystem.RIGHT_HANDED
  · simp [h, FbxMesh.BeginPolygon, FbxMesh.AddPolygon, FbxMesh.EndPolygon]
  · simp [h, FbxMesh.BeginPolygon, FbxMesh.AddPolygon, FbxMesh.EndPolygon]

theorem polygonLoop_polygons (self : FBXExporter K) (meshData : MeshData K)
    (l : List Nat) (fbxMesh : FbxMesh K) :
    (l.foldl (ExportGeometry.polygonStep self meshData) fbxMesh).polygons =
      fbxMesh.polygons ++ l.map (emittedTriangle self meshData) := by
  induction l generalizing fbxMesh with
  | nil => simp
  | cons i rest ih =>
    rw [List.foldl_cons, ih, polygonStep_polygons]
    simp

theorem vertexLoop_polygons (self : FBXExporter K) (meshData : MeshData K)
    (l : List Nat) (fbxMesh : FbxMesh K) :
    (l.foldl (ExportGeometry.vertexStep self meshData) fbxMesh).polygons = fbxMesh.polygons := by
  induction l generalizing fbxMesh with
  | nil => rfl
  | cons i rest ih =>
    rw [List.foldl_cons, ih]
    rfl

theorem exportGeometry_polygons (self : FBXExporter K) (meshData : MeshData K)
    (fbxMesh : FbxMesh K) :
    (ExportGeometry self meshData fbxMesh).polygons =
      fbxMesh.polygons ++
        (List.range (meshData.indices.length / 3)).map (emittedTriangle self meshData) := by
  unfold ExportGeometry
  simp only [polygonLoop_polygons, vertexLoop_polygons]
  rfl

/-- C8: `ExportGeometry` emits one polygon per triangle, and for every
triangle `k` with corner indices `a = i[3k]`, `b = i[3k+1]`, `c = i[3k+2]`
the polygon is `(a, c, b)` when the target coordinate system is right-handed
and `(a, b, c)` otherwise. -/
theorem C8_triangle_winding (self : FBXExporter K) (meshData : MeshData K) :
    (ExportGeometry self meshData FbxMesh.Create).polygons.length =
      meshData.indices.length / 3 ∧
    ∀ (k a b c : Nat), meshData.indices[3 * k]? = some a →
      meshData.indices[3 * k + 1]? = some b → meshData.indices[3 * k + 2]? = some c →
      (ExportGeometry self meshData FbxMesh.Create).polygons[k]? =
        some (if self.m_Options.targetCoordSystem = CoordinateSystem.RIGHT_HANDED
          then [a, c, b] else [a, b, c]) := by
  rw [exportGeometry_polygons]
  constructor
  · simp [FbxMesh.Create]
  · intro k a b c ha hb hc
    have hlt : 3 * k + 2 < meshData.indices.length := by
      rcases Nat.lt_or_ge (3 * k + 2) meshData.indices.length with h | h
      · exact h
      · rw [List.getElem?_eq_none h] at hc; cases hc
    have hk : k < meshData.indices.length / 3 := by omega
    have e0 : meshData.indices.getD (k * 3 + 0) 0 = a := by
      rw [List.getD_eq_getElem?_getD, show k * 3 + 0 = 3 * k by ring, ha]; rfl
    have e1 : meshData.indices.getD (k * 3 + 1) 0 = b := by
      rw [List.getD_eq_getElem?_getD, show k * 3 + 1 = 3 * k + 1 by ring, hb]; rfl
    have e2 : meshData.indices.getD (k * 3 + 2) 0 = c := by
      rw [List.getD_eq_getElem?_getD, show k * 3 + 2 = 3 * k + 2 by ring, hc]; rfl
    simp only [FbxMesh.Create, List.nil_append]
    rw [List.getElem?_map, List.getElem?_range hk]
    simp only [Option.map_some', emittedTriangle, e0, e1, e2]

/-- Witness for C8: the mesh with vertices `(0,0,0)`, `(1,0,0)`, `(0,1,0)`
and triangle `[0, 1, 2]`, exported for the right-handed default target, has
the polygon `[0, 2, 1]`. -/
theorem C8_witness :
    (ExportGeometry ({ m_Options := {} } : FBXExporter ℚ)
        { name := "Mesh"
          vertices := [{ (Vertex.new : Vertex ℚ) with position := ⟨0, 0, 0⟩ },
            { (Vertex.new : Vertex ℚ) with position := ⟨1, 0, 0⟩ },
            { (Vertex.new : Vertex ℚ) with position := ⟨0, 1, 0⟩ }]
          indices := [0, 1, 2]
          materialIndices := []
          hasSkinning := false
          bones := [] }
        FbxMesh.Create).polygons[0]? = some [0, 2, 1] :=
  (C8_triangle_winding ({ m_Options := {} } : FBXExporter ℚ) _).2 0 0 1 2 rfl rfl rfl

theorem uvLoop_directArray (l : List (Vertex K)) (e : FbxGeometryElementUV K) :
    l.foldl
      (fun (uvElement : FbxGeometryElementUV K) (vertex : Vertex K) =>
        ({ uvElement with
            directArray := uvElement.directArray ++
              [(⟨vertex.texCoord.x, 1 - vertex.texCoord.y⟩ : FbxVector2 K)] } :
          FbxGeometryElementUV K))
      e =
    { e with directArray := e.directArray ++
        l.map (fun vertex => (⟨vertex.texCoord.x, 1 - vertex.texCoord.y⟩ : FbxVector2 K)) } := by
  induction l generalizing e with
  | nil => simp
  | cons v rest ih =>
    rw [List.foldl_cons, ih]
    simp

/-- C9: for every mesh and whatever the exporter options are, `ExportUVs`
adds one UV element whose direct array holds exactly one UV per vertex, in
vertex order, equal to `(u, 1 - v)` of the source texture coordinate. -/
theorem C9_uv_v_flip (self : FBXExporter K) (meshData : MeshData K) (fbxMesh : FbxMesh K) :
    (ExportUVs self meshData fbxMesh).elementUVs =
      fbxMesh.elementUVs ++
        [{ name := "DiffuseUV"
           directArray := meshData.vertices.map
            (fun vertex => (⟨vertex.texCoord.x, 1 - vertex.texCoord.y⟩ : FbxVector2 K)) }] := by
  unfold ExportUVs
  simp only [uvLoop_directArray]
  simp

end FBXExporter

/-! ### Skin weights -/

namespace XFileParser

theorem set_of_getElem?_eq {α : Type} (l : List α) (i : Nat) (a : α) (h : l[i]? = some a) :
    l.set i a = l := by
  induction l generalizing i with
  | nil => rfl
  | cons x xs ih =>
    cases i with
    | zero =>
      simp only [List.getElem?_cons_zero, Option.some.injEq] at h
      simp [h]
    | succ n =>
      simp only [List.getElem?_cons_succ] at h
      simp [ih n h]

/-- With a documented return value of `GetBoneInfluence` the test of line 425
holds, whatever the arrays contain: `D3D_OK` is the value `0`, and
`D3DERR_INVALIDCALL` exceeds every count below `2^31`. The bone is skipped
and the vertices stay as they are. -/
theorem boneStep_vertices_of_documented (skinInfo : SkinInfo K) (mesh : MeshData K)
    (iBone : Nat) (hdoc : ∀ info ∈ skinInfo.bones, info.Documented) :
    (ExtractSkinWeights.boneStep skinInfo mesh iBone).vertices = mesh.vertices := by
  have hinfo : ∀ info : SkinBoneInfo K,
      info = skinInfo.bones.getD iBone ⟨"", D3DXMATRIX.identity, 0, 0, [], []⟩ →
      info.GetBoneInfluence = 0 ∨ info.GetBoneInfluence > info.numBoneInfluences := by
    intro info hi
    rcases Nat.lt_or_ge iBone skinInfo.bones.length with hlt | hge
    · have hmem : info ∈ skinInfo.bones := by
        rw [hi, List.getD_eq_getElem _ _ hlt]
        exact List.getElem_mem _
      obtain ⟨hr, hn, _⟩ := hdoc info hmem
      rcases hr with hr | hr
      · left; exact hr
      · right
        rw [hr]
        have : (2 : Nat) ^ 31 < D3DERR_INVALIDCALL := by norm_num [D3DERR_INVALIDCALL]
        exact lt_trans hn this
    · left
      rw [hi, List.getD_eq_default _ _ hge]
  unfold ExtractSkinWeights.boneStep
  simp only
  rw [if_pos (hinfo _ rfl)]

theorem boneLoop_vertices_of_documented (skinInfo : SkinInfo K)
    (hdoc : ∀ info ∈ skinInfo.bones, info.Documented) (l : List Nat) (mesh : MeshData K) :
    (l.foldl (ExtractSkinWeights.boneStep skinInfo) mesh).vertices = mesh.vertices := by
  induction l generalizing mesh with
  | nil => rfl
  | cons i rest ih =>
    rw [List.foldl_cons, ih, boneStep_vertices_of_documented skinInfo mesh i hdoc]

/-- With documented return values of `GetBoneInfluence`, the assignment
phase of `ExtractSkinWeights` stores nothing: the vertices stay as they
are. -/
theorem assign_vertices_of_documented (skinInfo : SkinInfo K) (mesh : MeshData K)
    (hdoc : ∀ info ∈ skinInfo.bones, info.Documented) :
    (ExtractSkinWeights.assign skinInfo mesh).vertices = mesh.vertices := by
  unfold ExtractSkinWeights.assign
  exact boneLoop_vertices_of_documented skinInfo hdoc _ _

theorem finRange_four : List.finRange MAX_BONE_INFLUENCES = [0, 1, 2, 3] := rfl

/-- The normalization of one vertex, with its two loops over the four slots
written out: when the rounded total exceeds the constant, every slot weight
becomes the rounded quotient by that total. -/
theorem normalizeVertex_eq (fl : K → K) (vertex : Vertex K) :
    ExtractSkinWeights.normalizeVertex fl vertex =
      if roundedWeightTotal fl vertex > fl EPSILON then
        { vertex with
          boneWeights := fun i => fl (vertex.boneWeights i / roundedWeightTotal fl vertex) }
      else vertex := by
  have htotal : (List.finRange MAX_BONE_INFLUENCES).foldl
      (fun (totalWeight : K) i => fl (totalWeight + vertex.boneWeights i)) 0 =
      roundedWeightTotal fl vertex := by
    rw [finRange_four]
    rfl
  unfold ExtractSkinWeights.normalizeVertex
  simp only [htotal]
  split
  · rw [finRange_four]
    simp only [List.foldl_cons, List.foldl_nil]
    congr 1
    funext i
    fin_cases i <;> rfl
  · rfl

/-- A vertex whose four slot weights are zero is left as it is by the
normalization, for every rounding that keeps `0` and sends `0.0001` to a
value that is not negative. -/
theorem normalizeVertex_of_zero (fl : K → K) (h0 : fl 0 = 0) (hε : 0 ≤ fl EPSILON)
    (vertex : Vertex K) (hz : ∀ i, vertex.boneWeights i = 0) :
    ExtractSkinWeights.normalizeVertex fl vertex = vertex := by
  have ht : roundedWeightTotal fl vertex = 0 := by
    simp [roundedWeightTotal, hz, h0]
  rw [normalizeVertex_eq, ht, if_neg (not_lt.mpr hε)]

/-- With documented return values of `GetBoneInfluence`, `ExtractSkinWeights`
leaves vertices whose slot weights are all zero as they are. -/
theorem extractSkinWeights_vertices_of_documented (fl : K → K) (h0 : fl 0 = 0)
    (hε : 0 ≤ fl EPSILON) (skinInfo : SkinInfo K) (mesh : MeshData K)
    (hdoc : ∀ info ∈ skinInfo.bones, info.Documented)
    (hfresh : ∀ vertex ∈ mesh.vertices, ∀ i, vertex.boneWeights i = 0) :
    (ExtractSkinWeights fl skinInfo mesh).vertices = mesh.vertices := by
  show (ExtractSkinWeights.assign skinInfo mesh).vertices.map
    (ExtractSkinWeights.normalizeVertex fl) = mesh.vertices
  rw [assign_vertices_of_documented skinInfo mesh hdoc]
  conv_rhs => rw [← List.map_id mesh.vertices]
  apply List.map_congr_left
  intro vertex hv
  exact normalizeVertex_of_zero fl h0 hε vertex (hfresh vertex hv)

/-- C10 (failing input): one bone whose call of `GetBoneInfluence` succeeds
and reports the pair (vertex 0, weight 1/2), and a mesh of one freshly
constructed vertex. By the claim the pair is stored with bone index 0 in
slot 0 of vertex 0, and this is what the influence loop does with the pair
when it runs. `ExtractSkinWeights` does not run it: `actualInfluences` holds
the result code `D3D_OK`, which is 0, the test of line 425 skips the bone,
and vertex 0 keeps its four zero weights. -/
theorem C10_reported_pair_not_stored :
    (∀ info ∈ Ref.oneInfluenceSkinInfo.bones, info.Documented) ∧
    reportedInfluences Ref.oneInfluenceSkinInfo = [(0, 0, 1 / 2)] ∧
    ExtractSkinWeights.influenceStep 0 Ref.tinyMesh.vertices 0 (1 / 2) =
      [{ (Vertex.new : Vertex ℚ) with
          boneIndices := ![0, 0, 0, 0], boneWeights := ![1 / 2, 0, 0, 0] }] ∧
    (ExtractSkinWeights.assign Ref.oneInfluenceSkinInfo Ref.tinyMesh).vertices =
      [Vertex.new] := by
  have hdoc : ∀ info ∈ Ref.oneInfluenceSkinInfo.bones, info.Documented := by
    simp [Ref.oneInfluenceSkinInfo, SkinBoneInfo.Documented]
  refine ⟨hdoc, ?_, ?_, ?_⟩
  · simp [reportedInfluences, reportedPairs, Ref.oneInfluenceSkinInfo, List.range_succ]
  · simp only [ExtractSkinWeights.influenceStep, Ref.tinyMesh, finRange_four,
      ExtractSkinWeights.slotLoop, Vertex.new]
    simp
    constructor
    · funext i; fin_cases i <;> rfl
    · funext i
      fin_cases i <;> simp [Function.update] <;> decide
  · rw [assign_vertices_of_documented _ _ hdoc]
    rfl

/-- C11 (failing input): the scenario of the claim, bones `A` and `B` whose
calls of `GetBoneInfluence` succeed and report (vertex 3, 0.8) and
(vertex 3, 0.4), on a mesh of four freshly constructed vertices. By the
claim vertex 3 ends with the weights (2/3, 1/3) in slots 0 and 1.
`ExtractSkinWeights` leaves vertex 3 as constructed, with four zero weights:
the test of line 425 skips both bones (the result code `D3D_OK` is 0), and
the normalization leaves a total of 0 alone. This holds for every rounding
`fl` that keeps 0 and does not send 0.0001 below 0. -/
theorem C11_scenario_weights_stay_zero (fl : ℚ → ℚ) (h0 : fl 0 = 0) (hε : 0 ≤ fl EPSILON) :
    (∀ info ∈ Ref.scenarioSkinInfo.bones, info.Documented) ∧
    reportedInfluences Ref.scenarioSkinInfo = [(0, 3, 4 / 5), (1, 3, 2 / 5)] ∧
    (ExtractSkinWeights fl Ref.scenarioSkinInfo Ref.scenarioMesh).vertices[3]? =
      some Vertex.new := by
  have hdoc : ∀ info ∈ Ref.scenarioSkinInfo.bones, info.Documented := by
    simp [Ref.scenarioSkinInfo, SkinBoneInfo.Documented]
  refine ⟨hdoc, ?_, ?_⟩
  · simp [reportedInfluences, reportedPairs, Ref.scenarioSkinInfo, List.range_succ]
  · rw [extractSkinWeights_vertices_of_documented fl h0 hε _ _ hdoc
      (by
        intro vertex hv i
        simp only [Ref.scenarioMesh, List.mem_cons, List.mem_singleton, List.not_mem_nil,
          or_false, or_self] at hv
        rw [hv]; rfl)]
    rfl

/-- Witness for C11: with no rounding at all, vertex 3 of the scenario ends
as constructed. -/
theorem C11_witness :
    (∀ info ∈ Ref.scenarioSkinInfo.bones, info.Documented) ∧
    reportedInfluences Ref.scenarioSkinInfo = [(0, 3, 4 / 5), (1, 3, 2 / 5)] ∧
    (ExtractSkinWeights id Ref.scenarioSkinInfo Ref.scenarioMesh).vertices[3]? =
      some Vertex.new :=
  C11_scenario_weights_stay_zero id rfl (by norm_num [EPSILON])

/-- C29 (failing input): two bones whose calls of `GetBoneInfluence`
succeed, bone 0 reporting (vertex 0, weight 0) and bone 1 reporting
(vertex 0, weight 1/4), on a mesh of one freshly constructed vertex. By the
claim the influence of bone 1 is stored in slot 0, over the bone index
written for the influence of weight 0, and this is what the influence loop
does with the two pairs when it runs. `ExtractSkinWeights` does not run it:
the test of line 425 skips both bones (the result code `D3D_OK` is 0), and
vertex 0 keeps its four zero weights and the bone index 0 in slot 0. -/
theorem C29_nonzero_influence_after_zero_not_stored :
    (∀ info ∈ Ref.zeroWeightSkinInfo.bones, info.Documented) ∧
    reportedInfluences Ref.zeroWeightSkinInfo = [(0, 0, 0), (1, 0, 1 / 4)] ∧
    ExtractSkinWeights.influenceStep 1
        (ExtractSkinWeights.influenceStep 0 Ref.tinyMesh.vertices 0 0) 0 (1 / 4) =
      [{ (Vertex.new : Vertex ℚ) with
          boneIndices := ![1, 0, 0, 0], boneWeights := ![1 / 4, 0, 0, 0] }] ∧
    (ExtractSkinWeights.assign Ref.zeroWeightSkinInfo Ref.tinyMesh).vertices =
      [Vertex.new] := by
  have hdoc : ∀ info ∈ Ref.zeroWeightSkinInfo.bones, info.Documented := by
    simp [Ref.zeroWeightSkinInfo, SkinBoneInfo.Documented]
  refine ⟨hdoc, ?_, ?_, ?_⟩
  · simp [reportedInfluences, reportedPairs, Ref.zeroWeightSkinInfo, List.range_succ]
  · simp only [ExtractSkinWeights.influenceStep, Ref.tinyMesh, finRange_four,
      ExtractSkinWeights.slotLoop, Vertex.new]
    simp
    constructor
    · funext i; fin_cases i <;> rfl
    · funext i
      fin_cases i <;> simp [Function.update] <;> decide
  · rw [assign_vertices_of_documented _ _ hdoc]
    rfl

/-! ### Keyframe merge -/

open LoadAnimations

theorem foldl_push_eq {α β : Type} (f : List α → β → List α) (g : β → α)
    (hf : ∀ l c, f l c = l ++ [g c]) (l : List α) (ch : List β) :
    ch.foldl f l = l ++ ch.map g := by
  induction ch generalizing l with
  | nil => simp
  | cons c rest ih => rw [List.foldl_cons, ih, hf]; simp

theorem length_pos_false {β : Type} (ch : List β) (h : ¬ ch.length > 0) : ch = [] := by
  cases ch with
  | nil => rfl
  | cons r rest => simp at h

theorem rotationStep_eq (keys : List (AnimationKey K)) (rot : List (D3DXKEY_QUATERNION K)) :
    rotationStep keys rot = keys ++ rot.map newRotationKey := by
  unfold rotationStep
  split
  · exact foldl_push_eq _ newRotationKey (fun _ _ => rfl) keys rot
  · next h => simp [length_pos_false rot h]

theorem translationStep_nil (ch : List (D3DXKEY_VECTOR3 K)) :
    translationStep ([] : List (AnimationKey K)) ch = ch.map newTranslationKey := by
  unfold translationStep
  split
  · simp only [List.isEmpty_nil, if_true]
    exact (foldl_push_eq _ newTranslationKey (fun _ _ => rfl) [] ch).trans (by simp)
  · next h => simp [length_pos_false ch h]

theorem scaleStep_nil (ch : List (D3DXKEY_VECTOR3 K)) :
    scaleStep ([] : List (AnimationKey K)) ch = ch.map newScaleKey := by
  unfold scaleStep
  split
  · simp only [List.isEmpty_nil, if_true]
    exact (foldl_push_eq _ newScaleKey (fun _ _ => rfl) [] ch).trans (by simp)
  · next h => simp [length_pos_false ch h]

theorem isEmpty_false_of_ne_nil {α : Type} (l : List α) (h : l ≠ []) : l.isEmpty = false := by
  cases l with
  | nil => exact absurd rfl h
  | cons k ks => rfl

theorem translationStep_of_ne_nil (keys : List (AnimationKey K)) (hk : keys ≠ [])
    (ch : List (D3DXKEY_VECTOR3 K)) :
    translationStep keys ch =
      mergeChannel (buildTimeToIndex keys) (fun key v => { key with translation := v })
        newTranslationKey keys ch := by
  unfold translationStep
  split
  · simp only [isEmpty_false_of_ne_nil keys hk, Bool.false_eq_true, if_false]
    rfl
  · next h => simp [length_pos_false ch h, mergeChannel]

theorem scaleStep_of_ne_nil (keys : List (AnimationKey K)) (hk : keys ≠ [])
    (ch : List (D3DXKEY_VECTOR3 K)) :
    scaleStep keys ch =
      mergeChannel (buildTimeToIndex keys) (fun key v => { key with scale := v })
        newScaleKey keys ch := by
  unfold scaleStep
  split
  · simp only [isEmpty_false_of_ne_nil keys hk, Bool.false_eq_true, if_false]
    rfl
  · next h => simp [length_pos_false ch h, mergeChannel]

/-- The lookup after the first `n` indices. -/
theorem buildFold_succ (keys : List (AnimationKey K)) (n : Nat) (t : K) :
    (List.range (n + 1)).foldl
      (fun (timeToIndex : K → Option Nat) (i : Nat) =>
        fun t => if t = (keys.getD i AnimationKey.new).time then some i else timeToIndex t)
      (fun _ => none) t =
    if t = (keys.getD n AnimationKey.new).time then some n
    else (List.range n).foldl
      (fun (timeToIndex : K → Option Nat) (i : Nat) =>
        fun t => if t = (keys.getD i AnimationKey.new).time then some i else timeToIndex t)
      (fun _ => none) t := by
  rw [List.range_succ, List.foldl_append]
  rfl

theorem buildFold_spec (keys : List (AnimationKey K)) (t : K) (n : Nat) :
    ((List.range n).foldl
      (fun (timeToIndex : K → Option Nat) (i : Nat) =>
        fun t => if t = (keys.getD i AnimationKey.new).time then some i else timeToIndex t)
      (fun _ => none) t = none ↔ ∀ i, i < n → (keys.getD i AnimationKey.new).time ≠ t) ∧
    (∀ index, (List.range n).foldl
      (fun (timeToIndex : K → Option Nat) (i : Nat) =>
        fun t => if t = (keys.getD i AnimationKey.new).time then some i else timeToIndex t)
      (fun _ => none) t = some index →
        index < n ∧ (keys.getD index AnimationKey.new).time = t) := by
  induction n with
  | zero => simp
  | succ n ih =>
    rw [buildFold_succ]
    by_cases h : t = (keys.getD n AnimationKey.new).time
    · rw [if_pos h]
      constructor
      · constructor
        · intro hc; cases hc
        · intro hall; exact absurd h.symm (hall n (Nat.lt_succ_self n))
      · intro index hidx
        have : index = n := (Option.some.inj hidx).symm
        subst this
        exact ⟨Nat.lt_succ_self _, h.symm⟩
    · rw [if_neg h]
      constructor
      · rw [ih.1]
        constructor
        · intro hall i hi
          rcases Nat.lt_succ_iff_lt_or_eq.mp hi with hlt | heq
          · exact hall i hlt
          · subst heq; exact fun hc => h hc.symm
        · intro hall i hi
          exact hall i (Nat.lt_succ_of_lt hi)
      · intro index hidx
        obtain ⟨h1, h2⟩ := ih.2 index hidx
        exact ⟨Nat.lt_succ_of_lt h1, h2⟩

theorem buildTimeToIndex_eq_none (keys : List (AnimationKey K)) (t : K) :
    buildTimeToIndex keys t = none ↔ t ∉ keyTimes keys := by
  unfold buildTimeToIndex
  rw [(buildFold_spec keys t keys.length).1]
  simp only [keyTimes, List.mem_map, not_exists, not_and]
  constructor
  · intro hall k hk hkt
    obtain ⟨i, hi, rfl⟩ := List.getElem_of_mem hk
    apply hall i hi
    rw [List.getD_eq_getElem?_getD, List.getElem?_eq_getElem hi]
    exact hkt
  · intro hall i hi
    have := hall (keys[i]) (List.getElem_mem _)
    rw [List.getD_eq_getElem?_getD, List.getElem?_eq_getElem hi]
    exact this

theorem buildTimeToIndex_eq_some (keys : List (AnimationKey K)) (t : K) (index : Nat)
    (h : buildTimeToIndex keys t = some index) :
    ∃ key, keys[index]? = some key ∧ key.time = t := by
  unfold buildTimeToIndex at h
  obtain ⟨h1, h2⟩ := (buildFold_spec keys t keys.length).2 index h
  refine ⟨keys[index], List.getElem?_eq_getElem h1, ?_⟩
  rw [List.getD_eq_getElem?_getD, List.getElem?_eq_getElem h1] at h2
  exact h2


theorem keyTimes_set_getD (keys : List (AnimationKey K)) (index : Nat)
    (f : AnimationKey K → AnimationKey K) (hf : ∀ key, (f key).time = key.time) :
    keyTimes (keys.set index (f (keys.getD index AnimationKey.new))) = keyTimes keys := by
  induction keys generalizing index with
  | nil => rfl
  | cons k ks ih =>
    cases index with
    | zero => simp [keyTimes, hf]
    | succ n =>
      have := ih n
      simp only [keyTimes, List.set_cons_succ, List.map_cons, List.getD_cons_succ] at this ⊢
      rw [this]

theorem mergeChannel_append (m : K → Option Nat)
    (setValue : AnimationKey K → D3DXVECTOR3 K → AnimationKey K)
    (newKey : D3DXKEY_VECTOR3 K → AnimationKey K) (keys : List (AnimationKey K))
    (pre : List (D3DXKEY_VECTOR3 K)) (c : D3DXKEY_VECTOR3 K) :
    mergeChannel m setValue newKey keys (pre ++ [c]) =
      match m c.Time with
      | some index =>
        (mergeChannel m setValue newKey keys pre).set index
          (setValue ((mergeChannel m setValue newKey keys pre).getD index AnimationKey.new)
            c.Value)
      | none => mergeChannel m setValue newKey keys pre ++ [newKey c] := by
  unfold mergeChannel
  rw [List.foldl_append]
  rfl

theorem keyTimes_mergeChannel (m : K → Option Nat)
    (setValue : AnimationKey K → D3DXVECTOR3 K → AnimationKey K)
    (newKey : D3DXKEY_VECTOR3 K → AnimationKey K)
    (hset : ∀ key v, (setValue key v).time = key.time)
    (hnew : ∀ c, (newKey c).time = c.Time)
    (keys : List (AnimationKey K)) (ch : List (D3DXKEY_VECTOR3 K)) :
    keyTimes (mergeChannel m setValue newKey keys ch) =
      keyTimes keys ++ (ch.map (fun c => c.Time)).filter (fun t => decide (m t = none)) := by
  induction ch using List.reverseRecOn with
  | nil => simp [mergeChannel]
  | append_singleton pre c ih =>
    rw [mergeChannel_append]
    cases hm : m c.Time with
    | some index =>
      simp only
      rw [keyTimes_set_getD _ _ (fun key => setValue key c.Value) (fun key => hset key c.Value), ih]
      simp [List.filter_append, hm]
    | none =>
      simp only
      rw [keyTimes, List.map_append, ← keyTimes, ih]
      simp [List.filter_append, hm, hnew]

theorem keyTimes_translationStep (keys : List (AnimationKey K))
    (ch : List (D3DXKEY_VECTOR3 K)) :
    keyTimes (translationStep keys ch) =
      keyTimes keys ++ newTimes keys (ch.map (fun c => c.Time)) := by
  by_cases hk : keys = []
  · subst hk
    rw [translationStep_nil]
    simp [keyTimes, newTimes, newTranslationKey]
  · rw [translationStep_of_ne_nil keys hk, keyTimes_mergeChannel (buildTimeToIndex keys)
      (fun key v => { key with translation := v }) newTranslationKey (fun _ _ => rfl)
      (fun _ => rfl)]
    congr 1
    unfold newTimes
    apply List.filter_congr
    intro t _
    simp only [decide_eq_decide]
    exact buildTimeToIndex_eq_none keys t

theorem keyTimes_scaleStep (keys : List (AnimationKey K))
    (ch : List (D3DXKEY_VECTOR3 K)) :
    keyTimes (scaleStep keys ch) =
      keyTimes keys ++ newTimes keys (ch.map (fun c => c.Time)) := by
  by_cases hk : keys = []
  · subst hk
    rw [scaleStep_nil]
    simp [keyTimes, newTimes, newScaleKey]
  · rw [scaleStep_of_ne_nil keys hk, keyTimes_mergeChannel (buildTimeToIndex keys)
      (fun key v => { key with scale := v }) newScaleKey (fun _ _ => rfl)
      (fun _ => rfl)]
    congr 1
    unfold newTimes
    apply List.filter_congr
    intro t _
    simp only [decide_eq_decide]
    exact buildTimeToIndex_eq_none keys t

theorem keyTimes_rotationStep_nil (rot : List (D3DXKEY_QUATERNION K)) :
    keyTimes (rotationStep [] rot) = rot.map (fun r => r.Time) := by
  rw [rotationStep_eq]
  simp [keyTimes, newRotationKey]

/-- The times of the merged keys of a track: the rotation times, then the
translation times not among them, then the scale times not among those. -/
theorem keyTimes_trackKeys (rot : List (D3DXKEY_QUATERNION K))
    (pos sc : List (D3DXKEY_VECTOR3 K)) :
    keyTimes (trackKeys rot pos sc) =
      rot.map (fun r => r.Time) ++
        newTimes (rotationStep [] rot) (pos.map (fun c => c.Time)) ++
        newTimes (translationStep (rotationStep [] rot) pos) (sc.map (fun c => c.Time)) := by
  unfold trackKeys
  simp only [keyTimes_scaleStep, keyTimes_translationStep, keyTimes_rotationStep_nil]

theorem newTimes_nil (ch : List K) : newTimes ([] : List (AnimationKey K)) ch = ch := by
  simp [newTimes, keyTimes]

theorem mem_newTimes (keys : List (AnimationKey K)) (ch : List K) (t : K) :
    t ∈ newTimes keys ch ↔ t ∈ ch ∧ t ∉ keyTimes keys := by
  simp [newTimes]

theorem nodup_append_newTimes (keys : List (AnimationKey K)) (ch : List K)
    (hk : (keyTimes keys).Nodup) (hc : ch.Nodup) :
    (keyTimes keys ++ newTimes keys ch).Nodup := by
  rw [List.nodup_append]
  refine ⟨hk, hc.filter _, ?_⟩
  intro t ht ht'
  exact ((mem_newTimes keys ch t).mp ht').2 ht

theorem subset_append_newTimes (keys : List (AnimationKey K)) (ch : List K) :
    ch ⊆ keyTimes keys ++ newTimes keys ch := by
  intro t ht
  by_cases h : t ∈ keyTimes keys
  · exact List.mem_append_left _ h
  · exact List.mem_append_right _ ((mem_newTimes keys ch t).mpr ⟨ht, h⟩)

theorem pairwise_lt_newTimes (keys : List (AnimationKey K)) (ch : List K)
    (hc : ch.Pairwise (· < ·)) : (newTimes keys ch).Pairwise (· < ·) :=
  hc.sublist (List.filter_sublist _)

theorem nodup_of_pairwise_lt (l : List K) (h : l.Pairwise (· < ·)) : l.Nodup :=
  h.imp (fun hab => ne_of_lt hab)

/-- C16 (amended): for a track whose rotation, translation and scale channels
are each given in strictly increasing time order, the merged key list of
`LoadAnimations` has pairwise distinct times and consists of three strictly
increasing runs: the rotation times, then the translation times not among
them, then the scale times not among the times merged before. -/
theorem C16_distinct_times_three_runs (rot : List (D3DXKEY_QUATERNION K)) (pos sc : List (D3DXKEY_VECTOR3 K))
    (hr : (rot.map (fun r => r.Time)).Pairwise (· < ·))
    (hp : (pos.map (fun c => c.Time)).Pairwise (· < ·))
    (hs : (sc.map (fun c => c.Time)).Pairwise (· < ·)) :
    (keyTimes (trackKeys rot pos sc)).Nodup ∧
    keyTimes (trackKeys rot pos sc) =
      rot.map (fun r => r.Time) ++
        newTimes (rotationStep [] rot) (pos.map (fun c => c.Time)) ++
        newTimes (translationStep (rotationStep [] rot) pos) (sc.map (fun c => c.Time)) ∧
    (rot.map (fun r => r.Time)).Pairwise (· < ·) ∧
    (newTimes (rotationStep [] rot) (pos.map (fun c => c.Time))).Pairwise (· < ·) ∧
    (newTimes (translationStep (rotationStep [] rot) pos)
      (sc.map (fun c => c.Time))).Pairwise (· < ·) := by
  refine ⟨?_, keyTimes_trackKeys rot pos sc, hr, pairwise_lt_newTimes _ _ hp,
    pairwise_lt_newTimes _ _ hs⟩
  unfold trackKeys
  simp only
  rw [keyTimes_scaleStep]
  apply nodup_append_newTimes _ _ _ (nodup_of_pairwise_lt _ hs)
  rw [keyTimes_translationStep]
  apply nodup_append_newTimes _ _ _ (nodup_of_pairwise_lt _ hp)
  rw [keyTimes_rotationStep_nil]
  exact nodup_of_pairwise_lt _ hr

/-- C17 (amended): when the translation channel and the scale channel each
have pairwise distinct key times, the merged key count of a track is at
least the maximum of the rotation-key, translation-key and scale-key counts. -/
theorem C17_count_lower_bound_distinct_times (rot : List (D3DXKEY_QUATERNION K)) (pos sc : List (D3DXKEY_VECTOR3 K))
    (hp : (pos.map (fun c => c.Time)).Nodup)
    (hs : (sc.map (fun c => c.Time)).Nodup) :
    max rot.length (max pos.length sc.length) ≤ (trackKeys rot pos sc).length := by
  have length_keyTimes : ∀ keys : List (AnimationKey K),
      (keyTimes keys).length = keys.length := fun keys => by simp [keyTimes]
  have h1 : (rotationStep ([] : List (AnimationKey K)) rot).length = rot.length := by
    rw [rotationStep_eq]; simp
  have h2 : (rotationStep ([] : List (AnimationKey K)) rot).length ≤
      (translationStep (rotationStep [] rot) pos).length := by
    rw [← length_keyTimes, ← length_keyTimes, keyTimes_translationStep]
    simp
  have h3 : pos.length ≤ (translationStep (rotationStep [] rot) pos).length := by
    rw [← length_keyTimes, keyTimes_translationStep]
    have := (List.subperm_of_subset hp (subset_append_newTimes (rotationStep [] rot) _)).length_le
    simpa using this
  have h4 : (translationStep (rotationStep [] rot) pos).length ≤ (trackKeys rot pos sc).length := by
    unfold trackKeys
    rw [← length_keyTimes, ← length_keyTimes, keyTimes_scaleStep]
    simp
  have h5 : sc.length ≤ (trackKeys rot pos sc).length := by
    unfold trackKeys
    rw [← length_keyTimes, keyTimes_scaleStep]
    have := (List.subperm_of_subset hs
      (subset_append_newTimes (translationStep (rotationStep [] rot) pos) _)).length_le
    simpa using this
  omega

theorem map_set_of_eq {α β : Type} (f : α → β) (l : List α) (i : Nat) (a b : α)
    (h : l[i]? = some b) (hf : f a = f b) : (l.set i a).map f = l.map f := by
  rw [List.map_set]
  apply set_of_getElem?_eq
  rw [List.getElem?_map, h, hf]
  rfl

/-- One more channel key whose time is the time of a key of `keys0`. -/
theorem mergeChannel_overwrite (setValue : AnimationKey K → D3DXVECTOR3 K → AnimationKey K)
    (newKey : D3DXKEY_VECTOR3 K → AnimationKey K)
    (hset : ∀ key v, (setValue key v).time = key.time)
    (hnew : ∀ c, (newKey c).time = c.Time)
    (keys0 : List (AnimationKey K)) (pre : List (D3DXKEY_VECTOR3 K)) (c : D3DXKEY_VECTOR3 K)
    (hex : c.Time ∈ keyTimes keys0) :
    ∃ index key,
      (mergeChannel (buildTimeToIndex keys0) setValue newKey keys0 pre)[index]? = some key ∧
      key.time = c.Time ∧
      mergeChannel (buildTimeToIndex keys0) setValue newKey keys0 (pre ++ [c]) =
        (mergeChannel (buildTimeToIndex keys0) setValue newKey keys0 pre).set index
          (setValue key c.Value) := by
  cases hm : buildTimeToIndex keys0 c.Time with
  | none => exact absurd hex ((buildTimeToIndex_eq_none keys0 c.Time).mp hm)
  | some index =>
    obtain ⟨key0, hk0, ht0⟩ := buildTimeToIndex_eq_some keys0 c.Time index hm
    have htimes := keyTimes_mergeChannel (buildTimeToIndex keys0) setValue newKey hset hnew
      keys0 pre
    have hlt : index < keys0.length := by
      rcases Nat.lt_or_ge index keys0.length with h | h
      · exact h
      · rw [List.getElem?_eq_none h] at hk0; cases hk0
    have h1 : (keyTimes (mergeChannel (buildTimeToIndex keys0) setValue newKey keys0 pre))[index]? =
        some c.Time := by
      rw [htimes, List.getElem?_append_left (by simpa [keyTimes] using hlt)]
      simp [keyTimes, hk0, ht0]
    simp only [keyTimes, List.getElem?_map, Option.map_eq_some'] at h1
    obtain ⟨key, hkey, hkt⟩ := h1
    refine ⟨index, key, hkey, hkt, ?_⟩
    rw [mergeChannel_append, hm]
    simp only
    rw [List.getD_eq_getElem?_getD, hkey]
    rfl

theorem mergeChannel_insert (setValue : AnimationKey K → D3DXVECTOR3 K → AnimationKey K)
    (newKey : D3DXKEY_VECTOR3 K → AnimationKey K)
    (hset : ∀ key v, (setValue key v).time = key.time)
    (hnew : ∀ c, (newKey c).time = c.Time)
    (keys0 : List (AnimationKey K)) (pre : List (D3DXKEY_VECTOR3 K)) (c : D3DXKEY_VECTOR3 K)
    (hno : ∀ key ∈ mergeChannel (buildTimeToIndex keys0) setValue newKey keys0 pre,
      key.time ≠ c.Time) :
    mergeChannel (buildTimeToIndex keys0) setValue newKey keys0 (pre ++ [c]) =
      mergeChannel (buildTimeToIndex keys0) setValue newKey keys0 pre ++ [newKey c] := by
  have htimes := keyTimes_mergeChannel (buildTimeToIndex keys0) setValue newKey hset hnew
    keys0 pre
  have hnot : c.Time ∉ keyTimes keys0 := by
    intro hin
    have : c.Time ∈ keyTimes (mergeChannel (buildTimeToIndex keys0) setValue newKey keys0 pre) := by
      rw [htimes]; exact List.mem_append_left _ hin
    simp only [keyTimes, List.mem_map] at this
    obtain ⟨key, hk, hkt⟩ := this
    exact hno key hk hkt
  rw [mergeChannel_append, (buildTimeToIndex_eq_none keys0 c.Time).mpr hnot]

/-- C13: the keyframe merge of `LoadAnimations` seeds the track from the first
non-empty channel in the order rotation, translation, scale. With only the
rotation channel non-empty the merged keys are that channel's keys, in order,
with zero translation and unit scale; with only the translation channel,
its keys with identity rotation `(0,0,0,1)` and unit scale; with only the scale
channel, its keys with zero translation and identity rotation. In general the
merged keys start with the rotation keys, or with the translation keys when
there are no rotation keys, and are the scale keys when there are neither. -/
theorem C13_single_channel_seed (rot : List (D3DXKEY_QUATERNION K))
    (pos sc : List (D3DXKEY_VECTOR3 K)) :
    trackKeys rot [] [] =
      rot.map (fun r => ⟨r.Time, ⟨0, 0, 0⟩, r.Value, ⟨1, 1, 1⟩⟩) ∧
    trackKeys [] pos [] =
      pos.map (fun c => ⟨c.Time, c.Value, ⟨0, 0, 0, 1⟩, ⟨1, 1, 1⟩⟩) ∧
    trackKeys [] [] sc =
      sc.map (fun c => ⟨c.Time, ⟨0, 0, 0⟩, ⟨0, 0, 0, 1⟩, c.Value⟩) ∧
    (keyTimes (trackKeys rot pos sc)).take rot.length = rot.map (fun r => r.Time) ∧
    (rot = [] → (keyTimes (trackKeys rot pos sc)).take pos.length = pos.map (fun c => c.Time)) ∧
    (rot = [] → pos = [] → keyTimes (trackKeys rot pos sc) = sc.map (fun c => c.Time)) := by
  refine ⟨?_, ?_, ?_, ?_, ?_, ?_⟩
  · simp only [trackKeys, rotationStep_eq, List.nil_append]
    have h1 : ∀ keys : List (AnimationKey K), translationStep keys [] = keys := by
      intro keys; simp [translationStep]
    have h2 : ∀ keys : List (AnimationKey K), scaleStep keys [] = keys := by
      intro keys; simp [scaleStep]
    rw [h1, h2]
    rfl
  · simp only [trackKeys, rotationStep_eq, List.map_nil, List.append_nil, translationStep_nil]
    have h2 : ∀ keys : List (AnimationKey K), scaleStep keys [] = keys := by
      intro keys; simp [scaleStep]
    rw [h2]
    rfl
  · simp only [trackKeys, rotationStep_eq, List.map_nil, List.append_nil, translationStep_nil,
      scaleStep_nil]
    rfl
  · rw [keyTimes_trackKeys, List.append_assoc]
    have : rot.length = (rot.map (fun r => r.Time)).length := by simp
    rw [this, List.take_left']
    rfl
  · intro hr
    subst hr
    rw [keyTimes_trackKeys]
    simp only [List.map_nil, List.nil_append, rotationStep_eq, newTimes_nil]
    have : pos.length = (pos.map (fun c => c.Time)).length := by simp
    rw [this, List.take_left']
    rfl
  · intro hr hp
    subst hr; subst hp
    rw [keyTimes_trackKeys]
    simp [rotationStep_eq, translationStep_nil, newTimes_nil]

/-- C14 (amended): when a translation (resp. scale) channel key has a time at
which a merged key already existed before that channel's keys were merged
(`keys0`), the merge overwrites only the translation (resp. scale) of one
existing key with that time: the number of keys, and the time and the other
two components of every key, are unchanged. Here `pre` are the channel keys
merged so far and `c` is the next one. -/
theorem C14_overwrite_key_present_before_channel (keys0 : List (AnimationKey K)) (pre : List (D3DXKEY_VECTOR3 K))
    (c : D3DXKEY_VECTOR3 K) (hex : c.Time ∈ keyTimes keys0) :
    (∃ index key, (translationStep keys0 pre)[index]? = some key ∧ key.time = c.Time ∧
        translationStep keys0 (pre ++ [c]) =
          (translationStep keys0 pre).set index { key with translation := c.Value }) ∧
    ((translationStep keys0 (pre ++ [c])).length = (translationStep keys0 pre).length ∧
      keyTimes (translationStep keys0 (pre ++ [c])) = keyTimes (translationStep keys0 pre) ∧
      (translationStep keys0 (pre ++ [c])).map (fun key => key.rotation) =
        (translationStep keys0 pre).map (fun key => key.rotation) ∧
      (translationStep keys0 (pre ++ [c])).map (fun key => key.scale) =
        (translationStep keys0 pre).map (fun key => key.scale)) ∧
    (∃ index key, (scaleStep keys0 pre)[index]? = some key ∧ key.time = c.Time ∧
        scaleStep keys0 (pre ++ [c]) =
          (scaleStep keys0 pre).set index { key with scale := c.Value }) ∧
    ((scaleStep keys0 (pre ++ [c])).length = (scaleStep keys0 pre).length ∧
      keyTimes (scaleStep keys0 (pre ++ [c])) = keyTimes (scaleStep keys0 pre) ∧
      (scaleStep keys0 (pre ++ [c])).map (fun key => key.rotation) =
        (scaleStep keys0 pre).map (fun key => key.rotation) ∧
      (scaleStep keys0 (pre ++ [c])).map (fun key => key.translation) =
        (scaleStep keys0 pre).map (fun key => key.translation)) := by
  have hne : keys0 ≠ [] := by
    intro hk
    subst hk
    simp [keyTimes] at hex
  obtain ⟨i, key, hkey, hkt, heq⟩ := mergeChannel_overwrite
    (fun key v => { key with translation := v }) newTranslationKey (fun _ _ => rfl)
    (fun _ => rfl) keys0 pre c hex
  obtain ⟨j, key', hkey', hkt', heq'⟩ := mergeChannel_overwrite
    (fun key v => { key with scale := v }) newScaleKey (fun _ _ => rfl)
    (fun _ => rfl) keys0 pre c hex
  rw [← translationStep_of_ne_nil keys0 hne, ← translationStep_of_ne_nil keys0 hne] at heq
  rw [← translationStep_of_ne_nil keys0 hne] at hkey
  rw [← scaleStep_of_ne_nil keys0 hne, ← scaleStep_of_ne_nil keys0 hne] at heq'
  rw [← scaleStep_of_ne_nil keys0 hne] at hkey'
  refine ⟨⟨i, key, hkey, hkt, heq⟩, ⟨?_, ?_, ?_, ?_⟩, ⟨j, key', hkey', hkt', heq'⟩, ?_, ?_, ?_, ?_⟩
  · rw [heq, List.length_set]
  · rw [heq]; exact map_set_of_eq _ _ _ _ _ hkey rfl
  · rw [heq]; exact map_set_of_eq _ _ _ _ _ hkey rfl
  · rw [heq]; exact map_set_of_eq _ _ _ _ _ hkey rfl
  · rw [heq', List.length_set]
  · rw [heq']; exact map_set_of_eq _ _ _ _ _ hkey' rfl
  · rw [heq']; exact map_set_of_eq _ _ _ _ _ hkey' rfl
  · rw [heq']; exact map_set_of_eq _ _ _ _ _ hkey' rfl

theorem translationStep_insert (keys0 : List (AnimationKey K)) (pre : List (D3DXKEY_VECTOR3 K))
    (c : D3DXKEY_VECTOR3 K) (hno : ∀ key ∈ translationStep keys0 pre, key.time ≠ c.Time) :
    translationStep keys0 (pre ++ [c]) = translationStep keys0 pre ++ [newTranslationKey c] := by
  by_cases hk : keys0 = []
  · subst hk
    simp [translationStep_nil]
  · rw [translationStep_of_ne_nil keys0 hk] at hno ⊢
    rw [translationStep_of_ne_nil keys0 hk]
    exact mergeChannel_insert (fun key v => { key with translation := v }) newTranslationKey
      (fun _ _ => rfl) (fun _ => rfl) keys0 pre c hno

theorem scaleStep_insert (keys0 : List (AnimationKey K)) (pre : List (D3DXKEY_VECTOR3 K))
    (c : D3DXKEY_VECTOR3 K) (hno : ∀ key ∈ scaleStep keys0 pre, key.time ≠ c.Time) :
    scaleStep keys0 (pre ++ [c]) = scaleStep keys0 pre ++ [newScaleKey c] := by
  by_cases hk : keys0 = []
  · subst hk
    simp [scaleStep_nil]
  · rw [scaleStep_of_ne_nil keys0 hk] at hno ⊢
    rw [scaleStep_of_ne_nil keys0 hk]
    exact mergeChannel_insert (fun key v => { key with scale := v }) newScaleKey
      (fun _ _ => rfl) (fun _ => rfl) keys0 pre c hno

/-- C15: when a translation (resp. scale) channel key `c` has a time at which
no merged key exists, the merge appends one key at that time carrying the
channel value, with identity rotation `(0,0,0,1)` and unit scale (resp. zero
translation), whatever the neighbouring keys are. Rotation keys at times 0
and 1 and a translation key at time `1/2` give three keys, with the times 0,
1 and `1/2`, the last one having identity rotation and unit scale. -/
theorem C15_insert_new_time (keys0 : List (AnimationKey K)) (pre : List (D3DXKEY_VECTOR3 K))
    (c : D3DXKEY_VECTOR3 K) :
    ((∀ key ∈ translationStep keys0 pre, key.time ≠ c.Time) →
      translationStep keys0 (pre ++ [c]) =
        translationStep keys0 pre ++ [⟨c.Time, c.Value, ⟨0, 0, 0, 1⟩, ⟨1, 1, 1⟩⟩]) ∧
    ((∀ key ∈ scaleStep keys0 pre, key.time ≠ c.Time) →
      scaleStep keys0 (pre ++ [c]) =
        scaleStep keys0 pre ++ [⟨c.Time, ⟨0, 0, 0⟩, ⟨0, 0, 0, 1⟩, c.Value⟩]) ∧
    (∀ (q0 q1 : D3DXQUATERNION K) (v : D3DXVECTOR3 K),
      trackKeys [⟨0, q0⟩, ⟨1, q1⟩] [⟨1 / 2, v⟩] [] =
        [⟨0, ⟨0, 0, 0⟩, q0, ⟨1, 1, 1⟩⟩, ⟨1, ⟨0, 0, 0⟩, q1, ⟨1, 1, 1⟩⟩,
          ⟨1 / 2, v, ⟨0, 0, 0, 1⟩, ⟨1, 1, 1⟩⟩]) := by
  refine ⟨translationStep_insert keys0 pre c, scaleStep_insert keys0 pre c, ?_⟩
  intro q0 q1 v
  have hrot : rotationStep ([] : List (AnimationKey K)) [⟨0, q0⟩, ⟨1, q1⟩] =
      [⟨0, ⟨0, 0, 0⟩, q0, ⟨1, 1, 1⟩⟩, ⟨1, ⟨0, 0, 0⟩, q1, ⟨1, 1, 1⟩⟩] := by
    rw [rotationStep_eq]; rfl
  have hpos := translationStep_insert
    ([⟨0, ⟨0, 0, 0⟩, q0, ⟨1, 1, 1⟩⟩, ⟨1, ⟨0, 0, 0⟩, q1, ⟨1, 1, 1⟩⟩] : List (AnimationKey K))
    [] ⟨1 / 2, v⟩
    (by
      have h0 : ∀ keys : List (AnimationKey K), translationStep keys [] = keys := by
        intro keys; simp [translationStep]
      rw [h0]
      intro key hkey
      simp only [List.mem_cons, List.mem_singleton, List.not_mem_nil, or_false] at hkey
      rcases hkey with h | h <;> subst h <;> norm_num)
  have h0 : ∀ keys : List (AnimationKey K), translationStep keys [] = keys := by
    intro keys; simp [translationStep]
  have h2 : ∀ keys : List (AnimationKey K), scaleStep keys [] = keys := by
    intro keys; simp [scaleStep]
  rw [h0] at hpos
  simp only [trackKeys, hrot, h2]
  rw [show ([⟨1 / 2, v⟩] : List (D3DXKEY_VECTOR3 K)) = [] ++ [⟨1 / 2, v⟩] from rfl, hpos]
  rfl

/-- Witness for C13: a track with only two scale keys, at times 1 and 3. -/
theorem C13_witness :
    keyTimes (trackKeys ([] : List (D3DXKEY_QUATERNION ℚ)) [] [⟨1, ⟨2, 2, 2⟩⟩, ⟨3, ⟨1, 1, 1⟩⟩]) =
      [1, 3] :=
  (C13_single_channel_seed ([] : List (D3DXKEY_QUATERNION ℚ)) []
    [⟨1, ⟨2, 2, 2⟩⟩, ⟨3, ⟨1, 1, 1⟩⟩]).2.2.2.2.2 rfl rfl

/-- Counterexample to C14 as stated: one rotation key at time 0 and the
translation keys `(1, (1,0,0))`, `(1, (2,0,0))`. After the first translation
key a merged key exists at time 1 (two keys in all); the second translation
key, at that same time, is appended as a third key instead of overwriting:
the lookup is built before the channel's loop and is not extended. -/
theorem C14_counterexample :
    (∃ key ∈ trackKeys [(⟨0, ⟨0, 0, 0, 1⟩⟩ : D3DXKEY_QUATERNION ℚ)] [⟨1, ⟨1, 0, 0⟩⟩] [],
      key.time = 1) ∧
    (trackKeys [(⟨0, ⟨0, 0, 0, 1⟩⟩ : D3DXKEY_QUATERNION ℚ)] [⟨1, ⟨1, 0, 0⟩⟩] []).length = 2 ∧
    (trackKeys [(⟨0, ⟨0, 0, 0, 1⟩⟩ : D3DXKEY_QUATERNION ℚ)]
      [⟨1, ⟨1, 0, 0⟩⟩, ⟨1, ⟨2, 0, 0⟩⟩] []).length = 3 := by
  have h1 : keyTimes (trackKeys [(⟨0, ⟨0, 0, 0, 1⟩⟩ : D3DXKEY_QUATERNION ℚ)]
      [⟨1, ⟨1, 0, 0⟩⟩] []) = [0, 1] := by
    rw [keyTimes_trackKeys]
    simp [newTimes, keyTimes, rotationStep_eq, newRotationKey]
  have h2 : keyTimes (trackKeys [(⟨0, ⟨0, 0, 0, 1⟩⟩ : D3DXKEY_QUATERNION ℚ)]
      [⟨1, ⟨1, 0, 0⟩⟩, ⟨1, ⟨2, 0, 0⟩⟩] []) = [0, 1, 1] := by
    rw [keyTimes_trackKeys]
    simp [newTimes, keyTimes, rotationStep_eq, newRotationKey]
  refine ⟨?_, ?_, ?_⟩
  · have : (1 : ℚ) ∈ keyTimes (trackKeys [(⟨0, ⟨0, 0, 0, 1⟩⟩ : D3DXKEY_QUATERNION ℚ)]
        [⟨1, ⟨1, 0, 0⟩⟩] []) := by rw [h1]; simp
    simp only [keyTimes, List.mem_map] at this
    obtain ⟨key, hk, hkt⟩ := this
    exact ⟨key, hk, hkt⟩
  · have := congrArg List.length h1
    simpa [keyTimes] using this
  · have := congrArg List.length h2
    simpa [keyTimes] using this

/-- Witness for C14: a translation key at time 0 on a track that has a key at
time 0 leaves the number of keys unchanged. -/
theorem C14_witness :
    (translationStep [(⟨0, ⟨0, 0, 0⟩, ⟨0, 0, 0, 1⟩, ⟨1, 1, 1⟩⟩ : AnimationKey ℚ)]
        ([] ++ [⟨0, ⟨5, 5, 5⟩⟩])).length =
      (translationStep [(⟨0, ⟨0, 0, 0⟩, ⟨0, 0, 0, 1⟩, ⟨1, 1, 1⟩⟩ : AnimationKey ℚ)] []).length :=
  (C14_overwrite_key_present_before_channel [(⟨0, ⟨0, 0, 0⟩, ⟨0, 0, 0, 1⟩, ⟨1, 1, 1⟩⟩ : AnimationKey ℚ)] []
    ⟨0, ⟨5, 5, 5⟩⟩ (by simp [keyTimes])).2.1.1

/-- Witness for C15: a translation key at time `1/2` on a track whose only key
is at time 0. -/
theorem C15_witness :
    translationStep [(⟨0, ⟨0, 0, 0⟩, ⟨0, 0, 0, 1⟩, ⟨1, 1, 1⟩⟩ : AnimationKey ℚ)]
        ([] ++ [⟨1 / 2, ⟨5, 5, 5⟩⟩]) =
      translationStep [(⟨0, ⟨0, 0, 0⟩, ⟨0, 0, 0, 1⟩, ⟨1, 1, 1⟩⟩ : AnimationKey ℚ)] [] ++
        [⟨1 / 2, ⟨5, 5, 5⟩, ⟨0, 0, 0, 1⟩, ⟨1, 1, 1⟩⟩] :=
  (C15_insert_new_time [(⟨0, ⟨0, 0, 0⟩, ⟨0, 0, 0, 1⟩, ⟨1, 1, 1⟩⟩ : AnimationKey ℚ)] []
    ⟨1 / 2, ⟨5, 5, 5⟩⟩).1
    (by
      intro key hkey
      have h0 : translationStep [(⟨0, ⟨0, 0, 0⟩, ⟨0, 0, 0, 1⟩, ⟨1, 1, 1⟩⟩ : AnimationKey ℚ)] [] =
          [⟨0, ⟨0, 0, 0⟩, ⟨0, 0, 0, 1⟩, ⟨1, 1, 1⟩⟩] := by simp [translationStep]
      rw [h0] at hkey
      simp only [List.mem_singleton] at hkey
      subst hkey
      norm_num)

/-- Counterexample to C16 as stated: rotation keys at times 0 and 1 and one
translation key at time `1/2`, each channel strictly increasing. The merged
times are `[0, 1, 1/2]`, which is not strictly increasing: new keys are
appended and the list is never sorted. -/
theorem C16_counterexample :
    ([(⟨0, ⟨0, 0, 0, 1⟩⟩ : D3DXKEY_QUATERNION ℚ), ⟨1, ⟨0, 0, 0, 1⟩⟩].map
      (fun r => r.Time)).Pairwise (· < ·) ∧
    ([(⟨1 / 2, ⟨0, 0, 0⟩⟩ : D3DXKEY_VECTOR3 ℚ)].map (fun c => c.Time)).Pairwise (· < ·) ∧
    (([] : List (D3DXKEY_VECTOR3 ℚ)).map (fun c => c.Time)).Pairwise (· < ·) ∧
    keyTimes (trackKeys [(⟨0, ⟨0, 0, 0, 1⟩⟩ : D3DXKEY_QUATERNION ℚ), ⟨1, ⟨0, 0, 0, 1⟩⟩]
      [⟨1 / 2, ⟨0, 0, 0⟩⟩] []) = [0, 1, 1 / 2] ∧
    ¬ (keyTimes (trackKeys [(⟨0, ⟨0, 0, 0, 1⟩⟩ : D3DXKEY_QUATERNION ℚ), ⟨1, ⟨0, 0, 0, 1⟩⟩]
      [⟨1 / 2, ⟨0, 0, 0⟩⟩] [])).Pairwise (· < ·) := by
  have h : keyTimes (trackKeys [(⟨0, ⟨0, 0, 0, 1⟩⟩ : D3DXKEY_QUATERNION ℚ), ⟨1, ⟨0, 0, 0, 1⟩⟩]
      [⟨1 / 2, ⟨0, 0, 0⟩⟩] []) = [0, 1, 1 / 2] := by
    rw [keyTimes_trackKeys]
    simp [newTimes, keyTimes, rotationStep_eq, newRotationKey]
  refine ⟨by simp, by simp, by simp, h, ?_⟩
  rw [h]
  norm_num

/-- Witness for C16: rotation keys at times 0 and 1 and a translation key at
time `1/2` give pairwise distinct merged times. -/
theorem C16_witness :
    (keyTimes (trackKeys [(⟨0, ⟨0, 0, 0, 1⟩⟩ : D3DXKEY_QUATERNION ℚ), ⟨1, ⟨0, 0, 0, 1⟩⟩]
      [⟨1 / 2, ⟨0, 0, 0⟩⟩] [])).Nodup :=
  (C16_distinct_times_three_runs [(⟨0, ⟨0, 0, 0, 1⟩⟩ : D3DXKEY_QUATERNION ℚ), ⟨1, ⟨0, 0, 0, 1⟩⟩]
    [⟨1 / 2, ⟨0, 0, 0⟩⟩] [] (by simp) (by simp) (by simp)).1

/-- Counterexample to C17 as stated: all three channels are non-empty, with
one rotation key at time 0, two translation keys at time 0 and one scale key
at time 0. Both translation keys overwrite the one merged key, so the merged
key count is 1, below the translation-key count 2. -/
theorem C17_counterexample :
    (trackKeys [(⟨0, ⟨0, 0, 0, 1⟩⟩ : D3DXKEY_QUATERNION ℚ)]
        [⟨0, ⟨1, 0, 0⟩⟩, ⟨0, ⟨2, 0, 0⟩⟩] [⟨0, ⟨1, 1, 1⟩⟩]).length <
      max [(⟨0, ⟨0, 0, 0, 1⟩⟩ : D3DXKEY_QUATERNION ℚ)].length
        (max [(⟨0, ⟨1, 0, 0⟩⟩ : D3DXKEY_VECTOR3 ℚ), ⟨0, ⟨2, 0, 0⟩⟩].length
          [(⟨0, ⟨1, 1, 1⟩⟩ : D3DXKEY_VECTOR3 ℚ)].length) := by
  have h : keyTimes (trackKeys [(⟨0, ⟨0, 0, 0, 1⟩⟩ : D3DXKEY_QUATERNION ℚ)]
      [⟨0, ⟨1, 0, 0⟩⟩, ⟨0, ⟨2, 0, 0⟩⟩] [⟨0, ⟨1, 1, 1⟩⟩]) = [0] := by
    have h2 : keyTimes (translationStep
        (rotationStep [] [(⟨0, ⟨0, 0, 0, 1⟩⟩ : D3DXKEY_QUATERNION ℚ)])
        [⟨0, ⟨1, 0, 0⟩⟩, ⟨0, ⟨2, 0, 0⟩⟩]) = [0] := by
      rw [keyTimes_translationStep]
      simp [newTimes, keyTimes, rotationStep_eq, newRotationKey]
    rw [keyTimes_trackKeys]
    simp only [newTimes, h2]
    simp [keyTimes, rotationStep_eq, newRotationKey]
  have hl := congrArg List.length h
  simp only [keyTimes, List.length_map, List.length_singleton] at hl
  rw [hl]
  decide

/-- Witness for C17: one rotation key, two translation keys at times 0 and 1
and one scale key at time 2. -/
theorem C17_witness :
    max [(⟨0, ⟨0, 0, 0, 1⟩⟩ : D3DXKEY_QUATERNION ℚ)].length
        (max [(⟨0, ⟨1, 0, 0⟩⟩ : D3DXKEY_VECTOR3 ℚ), ⟨1, ⟨2, 0, 0⟩⟩].length
          [(⟨2, ⟨1, 1, 1⟩⟩ : D3DXKEY_VECTOR3 ℚ)].length) ≤
      (trackKeys [(⟨0, ⟨0, 0, 0, 1⟩⟩ : D3DXKEY_QUATERNION ℚ)]
        [⟨0, ⟨1, 0, 0⟩⟩, ⟨1, ⟨2, 0, 0⟩⟩] [⟨2, ⟨1, 1, 1⟩⟩]).length :=
  C17_count_lower_bound_distinct_times [(⟨0, ⟨0, 0, 0, 1⟩⟩ : D3DXKEY_QUATERNION ℚ)]
    [⟨0, ⟨1, 0, 0⟩⟩, ⟨1, ⟨2, 0, 0⟩⟩] [⟨2, ⟨1, 1, 1⟩⟩] (by simp) (by simp)

end XFileParser

namespace FBXExporter

/-! ### Scene export: skin clusters and animation curves -/

/-- The scene and the table after `CreateBone` under the root of a scene that
has the nodes `root :: tail`. -/
theorem CreateBone_eq (d3dx : D3DX K) (sdk : FbxAMatrixOps K M) (ops : FbxSceneOps K M)
    (st : ExportState K) (boneName : String) (transformMatrix : D3DXMATRIX K)
    (root : FbxNode K) (tail : List (FbxNode K)) (hnodes : st.m_pScene.nodes = root :: tail) :
    (CreateBone d3dx sdk ops st boneName transformMatrix 0).2 = tail.length + 1 ∧
    (CreateBone d3dx sdk ops st boneName transformMatrix 0).1.m_pScene.nodes =
      { root with children := root.children ++ [tail.length + 1] } :: tail ++
        [{ name := boneName, parent := some 0, children := [],
           skeleton := some ⟨boneName, FbxSkeleton.EType.eLimbNode⟩,
           LclTranslation := sdk.GetT (ConvertMatrix_LH_to_RH d3dx sdk transformMatrix),
           LclRotation := ops.GetR (ConvertMatrix_LH_to_RH d3dx sdk transformMatrix),
           LclScaling := sdk.GetS (ConvertMatrix_LH_to_RH d3dx sdk transformMatrix) }] ∧
    (CreateBone d3dx sdk ops st boneName transformMatrix 0).1.m_pScene.animStacks =
      st.m_pScene.animStacks ∧
    (CreateBone d3dx sdk ops st boneName transformMatrix 0).1.m_BoneNodeMap =
      fun name => if name = boneName then some (tail.length + 1) else st.m_BoneNodeMap name := by
  obtain ⟨⟨nodes, anims⟩, table⟩ := st
  simp only at hnodes
  subst hnodes
  have modifyNode_last : ∀ (nodes : List (FbxNode K)) (x : FbxNode K)
      (f : FbxNode K → FbxNode K),
      FbxScene.modifyNode ⟨nodes ++ [x], anims⟩ nodes.length f = ⟨nodes ++ [f x], anims⟩ := by
    intro nodes x f
    simp [FbxScene.modifyNode]
  have modifyNode_zero : ∀ (rest : List (FbxNode K)) (f : FbxNode K → FbxNode K),
      FbxScene.modifyNode ⟨root :: rest, anims⟩ 0 f = ⟨f root :: rest, anims⟩ := by
    intro rest f
    simp [FbxScene.modifyNode]
  simp only [CreateBone, FbxNode.Create, FbxScene.AddChild]
  simp only [modifyNode_last]
  rw [show (root :: tail ++ [_] : List (FbxNode K)) = root :: (tail ++ [_]) from rfl,
    modifyNode_zero]
  refine ⟨rfl, ?_, ?_, rfl⟩
  · simp [FbxScene.modifyNode]
  · simp [FbxScene.modifyNode]

theorem isPlaceholderJoint_createBone (d3dx : D3DX K) (sdk : FbxAMatrixOps K M)
    (ops : FbxSceneOps K M) (st : ExportState K) (boneName : String)
    (transformMatrix : D3DXMATRIX K) (root : FbxNode K) (tail : List (FbxNode K))
    (hnodes : st.m_pScene.nodes = root :: tail) (name : String) (node : Nat)
    (h : IsPlaceholderJoint st.m_pScene name node) :
    IsPlaceholderJoint (CreateBone d3dx sdk ops st boneName transformMatrix 0).1.m_pScene
      name node := by
  obtain ⟨hpos, fbxNode, root', hn, hr, hname, hparent, hskel, hmem⟩ := h
  obtain ⟨-, hnodes', -, -⟩ := CreateBone_eq d3dx sdk ops st boneName transformMatrix root tail
    hnodes
  rw [hnodes] at hn hr
  simp only [List.getElem?_cons_zero, Option.some.injEq] at hr
  subst hr
  refine ⟨hpos, fbxNode, { root with children := root.children ++ [tail.length + 1] },
    ?_, ?_, hname, hparent, hskel, ?_⟩
  · rw [hnodes']
    obtain ⟨k, rfl⟩ : ∃ k, node = k + 1 := ⟨node - 1, by omega⟩
    simp only [List.cons_append, List.getElem?_cons_succ] at hn ⊢
    have hk : k < tail.length := by
      rcases Nat.lt_or_ge k tail.length with h | h
      · exact h
      · rw [List.getElem?_eq_none h] at hn; cases hn
    rw [List.getElem?_append_left hk]
    exact hn
  · rw [hnodes']
    simp
  · exact List.mem_append_left _ hmem

theorem isPlaceholderJoint_new (d3dx : D3DX K) (sdk : FbxAMatrixOps K M)
    (ops : FbxSceneOps K M) (st : ExportState K) (boneName : String)
    (transformMatrix : D3DXMATRIX K) (root : FbxNode K) (tail : List (FbxNode K))
    (hnodes : st.m_pScene.nodes = root :: tail) :
    IsPlaceholderJoint (CreateBone d3dx sdk ops st boneName transformMatrix 0).1.m_pScene
      boneName (tail.length + 1) := by
  obtain ⟨-, hnodes', -, -⟩ := CreateBone_eq d3dx sdk ops st boneName transformMatrix root tail
    hnodes
  refine ⟨Nat.succ_pos _,
    { name := boneName, parent := some 0, children := [],
      skeleton := some ⟨boneName, FbxSkeleton.EType.eLimbNode⟩,
      LclTranslation := sdk.GetT (ConvertMatrix_LH_to_RH d3dx sdk transformMatrix),
      LclRotation := ops.GetR (ConvertMatrix_LH_to_RH d3dx sdk transformMatrix),
      LclScaling := sdk.GetS (ConvertMatrix_LH_to_RH d3dx sdk transformMatrix) },
    { root with children := root.children ++ [tail.length + 1] }, ?_, ?_, rfl, rfl, rfl, ?_⟩
  · rw [hnodes']
    simp only [List.cons_append, List.getElem?_cons_succ]
    rw [List.getElem?_append_right (le_refl _)]
    simp
  · rw [hnodes']
    simp
  · simp

/-- One pass of the bone loop keeps the loop invariant and the table entries,
and appends one cluster linked to the node of the bone. -/
theorem boneStep_spec (d3dx : D3DX K) (sdk : FbxAMatrixOps K M) (ops : FbxSceneOps K M)
    (meshData : MeshData K) (meshNode : Nat) (st0 : ExportState K)
    (acc : ExportState K × FbxSkin K M) (iBone : Nat) (hinv : SkinLoopInv st0 acc.1) :
    SkinLoopInv st0 (ExportSkinWeights.boneStep d3dx sdk ops meshData meshNode acc iBone).1 ∧
    (∀ name node, acc.1.m_BoneNodeMap name = some node →
      (ExportSkinWeights.boneStep d3dx sdk ops meshData meshNode acc iBone).1.m_BoneNodeMap name =
        some node) ∧
    ∃ node cluster,
      (ExportSkinWeights.boneStep d3dx sdk ops meshData meshNode acc iBone).1.m_BoneNodeMap
        (meshData.bones.getD iBone BoneData.new).name = some node ∧
      cluster.link = some node ∧
      (ExportSkinWeights.boneStep d3dx sdk ops meshData meshNode acc iBone).2.clusters =
        acc.2.clusters ++ [cluster] := by
  obtain ⟨st, skin⟩ := acc
  simp only at hinv
  obtain ⟨root, tail, hnodes⟩ := hinv.hasRoot
  have hlink : ∀ (node : Nat) (c : FbxCluster K M), c.link = some node →
      (ExportSkinWeights.addControlPoints meshData iBone c).link = some node := by
    intro node c hc
    unfold ExportSkinWeights.addControlPoints
    generalize List.range meshData.vertices.length = l
    induction l generalizing c with
    | nil => exact hc
    | cons v rest ih =>
      rw [List.foldl_cons]
      apply ih
      generalize List.finRange MAX_BONE_INFLUENCES = l2
      induction l2 generalizing c with
      | nil => exact hc
      | cons s rest2 ih2 =>
        rw [List.foldl_cons]
        apply ih2
        split
        · exact hc
        · exact hc
  cases hm : st.m_BoneNodeMap (meshData.bones.getD iBone BoneData.new).name with
  | some node =>
    simp only [ExportSkinWeights.boneStep, hm]
    refine ⟨hinv, fun _ _ h => h, node, _, rfl, ?_, rfl⟩
    exact hlink node _ rfl
  | none =>
    obtain ⟨hnode, hnodes', -, hmap⟩ := CreateBone_eq d3dx sdk ops st
      (meshData.bones.getD iBone BoneData.new).name
      (meshData.bones.getD iBone BoneData.new).transformMatrix root tail hnodes
    simp only [ExportSkinWeights.boneStep, hm, FbxScene.GetRootNode]
    refine ⟨?_, ?_, tail.length + 1, _, ?_, ?_, rfl⟩
    · refine ⟨⟨_, _, hnodes'⟩, ?_, ?_, ?_⟩
      · rw [hnodes']
        have := hinv.nodesGrow
        rw [hnodes] at this
        simp only [List.length_cons, List.cons_append, List.length_append,
          List.length_singleton] at this ⊢
        omega
      · intro name node h0
        have h1 := hinv.tableKept name node h0
        rw [hmap]
        have hne : name ≠ (meshData.bones.getD iBone BoneData.new).name := by
          intro heq; rw [heq, hm] at h1; cases h1
        simp only [hne, if_false]
        exact h1
      · intro name node h0 h1
        rw [hmap] at h1
        by_cases hname : name = (meshData.bones.getD iBone BoneData.new).name
        · simp only [hname, if_true, Option.some.injEq] at h1
          subst h1
          rw [hname]
          refine ⟨isPlaceholderJoint_new d3dx sdk ops st _ _ root tail hnodes, ?_⟩
          have := hinv.nodesGrow
          rw [hnodes] at this
          simpa using this
        · simp only [hname, if_false] at h1
          obtain ⟨hp, hle⟩ := hinv.placeholders name node h0 h1
          exact ⟨isPlaceholderJoint_createBone d3dx sdk ops st _ _ root tail hnodes name node hp,
            hle⟩
    · intro name node h1
      rw [hmap]
      have hne : name ≠ (meshData.bones.getD iBone BoneData.new).name := by
        intro heq; rw [heq, hm] at h1; cases h1
      simp only [hne, if_false]
      exact h1
    · rw [hmap]; simp
    · rw [hnode]
      exact hlink _ _ rfl

theorem boneLoop_spec (d3dx : D3DX K) (sdk : FbxAMatrixOps K M) (ops : FbxSceneOps K M)
    (meshData : MeshData K) (meshNode : Nat) (st0 : ExportState K)
    (root : FbxNode K) (tail : List (FbxNode K)) (hnodes : st0.m_pScene.nodes = root :: tail)
    (n : Nat) :
    SkinLoopInv st0 ((List.range n).foldl
      (ExportSkinWeights.boneStep d3dx sdk ops meshData meshNode) (st0, ⟨[]⟩)).1 ∧
    ((List.range n).foldl
      (ExportSkinWeights.boneStep d3dx sdk ops meshData meshNode) (st0, ⟨[]⟩)).2.clusters.length =
        n ∧
    ∀ i, i < n → ∃ node cluster,
      ((List.range n).foldl (ExportSkinWeights.boneStep d3dx sdk ops meshData meshNode)
        (st0, ⟨[]⟩)).1.m_BoneNodeMap (meshData.bones.getD i BoneData.new).name = some node ∧
      ((List.range n).foldl (ExportSkinWeights.boneStep d3dx sdk ops meshData meshNode)
        (st0, ⟨[]⟩)).2.clusters[i]? = some cluster ∧
      cluster.link = some node := by
  induction n with
  | zero =>
    have hinv0 : SkinLoopInv st0 st0 :=
      { hasRoot := ⟨root, tail, hnodes⟩
        nodesGrow := le_refl _
        tableKept := fun _ _ h => h
        placeholders := fun _ _ h0 h1 => by rw [h0] at h1; cases h1 }
    refine ⟨hinv0, rfl, ?_⟩
    intro i hi
    exact absurd hi (Nat.not_lt_zero i)
  | succ n ih =>
    obtain ⟨hinv, hlen, hall⟩ := ih
    rw [List.range_succ, List.foldl_append, List.foldl_cons, List.foldl_nil]
    obtain ⟨hinv', hmono, node, cluster, hmap, hlink, hclusters⟩ :=
      boneStep_spec d3dx sdk ops meshData meshNode st0 _ n hinv
    refine ⟨hinv', ?_, ?_⟩
    · rw [hclusters, List.length_append, hlen]
      rfl
    · intro i hi
      rcases Nat.lt_succ_iff_lt_or_eq.mp hi with hlt | heq
      · obtain ⟨node', cluster', hmap', hget', hlink'⟩ := hall i hlt
        refine ⟨node', cluster', hmono _ _ hmap', ?_, hlink'⟩
        rw [hclusters, List.getElem?_append_left (by rw [hlen]; exact hlt)]
        exact hget'
      · subst heq
        refine ⟨node, cluster, hmap, ?_, hlink⟩
        rw [hclusters, List.getElem?_append_right (by rw [hlen]), hlen]
        simp

/-- C18: for a skinned mesh with bones, exported into a scene that has its root
node, `ExportSkinWeights` produces a skin with exactly one cluster per bone,
in bone order. The cluster of each bone is linked to the node that the table
gives for the bone's name afterwards: the node the name resolved to before
the call, or, when the name was not in the table, a placeholder joint created
by the call as a child of the scene root and registered under that name.
Entries that were in the table are kept. -/
theorem C18_placeholder_joint_for_unresolved_bone (d3dx : D3DX K) (sdk : FbxAMatrixOps K M)
    (ops : FbxSceneOps K M) (st : ExportState K) (meshData : MeshData K) (meshNode : Nat)
    (hskin : meshData.hasSkinning = true) (hbones : meshData.bones ≠ [])
    (hroot : st.m_pScene.nodes ≠ []) :
    ∃ skin : FbxSkin K M,
      (ExportSkinWeights d3dx sdk ops st meshData meshNode).2 = some skin ∧
      skin.clusters.length = meshData.bones.length ∧
      (∀ (i : Nat) (bone : BoneData K), meshData.bones[i]? = some bone →
        ∃ (node : Nat) (cluster : FbxCluster K M),
          (ExportSkinWeights d3dx sdk ops st meshData meshNode).1.m_BoneNodeMap bone.name =
            some node ∧
          skin.clusters[i]? = some cluster ∧ cluster.link = some node ∧
          (st.m_BoneNodeMap bone.name = some node ∨
            (st.m_BoneNodeMap bone.name = none ∧
              IsPlaceholderJoint (ExportSkinWeights d3dx sdk ops st meshData meshNode).1.m_pScene
                bone.name node ∧
              st.m_pScene.nodes.length ≤ node))) ∧
      (∀ name node, st.m_BoneNodeMap name = some node →
        (ExportSkinWeights d3dx sdk ops st meshData meshNode).1.m_BoneNodeMap name =
          some node) := by
  obtain ⟨root, tail, hnodes⟩ : ∃ root tail, st.m_pScene.nodes = root :: tail := by
    cases h : st.m_pScene.nodes with
    | nil => exact absurd h hroot
    | cons r t => exact ⟨r, t, rfl⟩
  have hempty : meshData.bones.isEmpty = false := by
    cases h : meshData.bones with
    | nil => exact absurd h hbones
    | cons b bs => rfl
  obtain ⟨hinv, hlen, hall⟩ := boneLoop_spec d3dx sdk ops meshData meshNode st root tail hnodes
    meshData.bones.length
  have hres : ExportSkinWeights d3dx sdk ops st meshData meshNode =
      (((List.range meshData.bones.length).foldl
          (ExportSkinWeights.boneStep d3dx sdk ops meshData meshNode) (st, ⟨[]⟩)).1,
        some ((List.range meshData.bones.length).foldl
          (ExportSkinWeights.boneStep d3dx sdk ops meshData meshNode) (st, ⟨[]⟩)).2) := by
    simp [ExportSkinWeights, hskin, hempty]
  rw [hres]
  refine ⟨_, rfl, hlen, ?_, hinv.tableKept⟩
  intro i bone hbone
  have hi : i < meshData.bones.length := by
    rcases Nat.lt_or_ge i meshData.bones.length with h | h
    · exact h
    · rw [List.getElem?_eq_none h] at hbone; cases hbone
  have hget : meshData.bones.getD i BoneData.new = bone := by
    rw [List.getD_eq_getElem?_getD, hbone]; rfl
  obtain ⟨node, cluster, hmap, hcl, hlink⟩ := hall i hi
  rw [hget] at hmap
  refine ⟨node, cluster, hmap, hcl, hlink, ?_⟩
  cases h0 : st.m_BoneNodeMap bone.name with
  | some node0 =>
    left
    have := hinv.tableKept bone.name node0 h0
    simp only at this hmap
    rw [this] at hmap
    exact hmap.symm ▸ rfl
  | none =>
    right
    exact ⟨rfl, hinv.placeholders bone.name node h0 hmap⟩

/-- Witness for C18: a scene with only its root, an empty table and a skinned
mesh with the one bone `Spine`. One cluster is produced and `Spine` is
registered for a placeholder joint under the root. -/
theorem C18_witness :
    ∃ skin : FbxSkin ℚ Ref.Matrix4,
      (ExportSkinWeights Ref.d3dx Ref.sdk Ref.sceneOps Ref.rootState Ref.oneBoneMesh 0).2 =
        some skin ∧
      skin.clusters.length = 1 ∧
      ∃ node,
        (ExportSkinWeights Ref.d3dx Ref.sdk Ref.sceneOps Ref.rootState
          Ref.oneBoneMesh 0).1.m_BoneNodeMap "Spine" = some node ∧
        IsPlaceholderJoint
          (ExportSkinWeights Ref.d3dx Ref.sdk Ref.sceneOps Ref.rootState
            Ref.oneBoneMesh 0).1.m_pScene "Spine" node := by
  obtain ⟨skin, h1, h2, h3, _⟩ := C18_placeholder_joint_for_unresolved_bone Ref.d3dx Ref.sdk
    Ref.sceneOps Ref.rootState Ref.oneBoneMesh 0 rfl (by simp [Ref.oneBoneMesh])
    (by simp [Ref.rootState])
  obtain ⟨node, cluster, hm, _, _, hor⟩ := h3 0 _ rfl
  rcases hor with h | ⟨_, hp, _⟩
  · exact absurd h (by simp [Ref.rootState])
  · exact ⟨skin, h1, h2, node, hm, hp⟩

/-- The curves of a node after the track loop. -/
theorem trackLoop_curves (sqrt : K → K) (ops : FbxSceneOps K M) (st : ExportState K)
    (tracks : List (AnimationTrack K)) (animLayer : FbxAnimLayer K) (node : Nat) :
    (tracks.foldl (ExportAnimationClip.trackStep sqrt ops st) animLayer).curves node =
      (tracks.filter (fun track => decide (st.m_BoneNodeMap track.boneName = some node))).foldl
        (fun existing track => some (ExportAnimationClip.addTrack sqrt ops existing track))
        (animLayer.curves node) := by
  induction tracks generalizing animLayer with
  | nil => rfl
  | cons track rest ih =>
    rw [List.foldl_cons, ih]
    cases hm : st.m_BoneNodeMap track.boneName with
    | none =>
      simp [List.filter_cons, hm, ExportAnimationClip.trackStep]
    | some boneNode =>
      by_cases hn : node = boneNode
      · subst hn
        simp [List.filter_cons, hm, ExportAnimationClip.trackStep]
      · have hn' : ¬ boneNode = node := fun h => hn h.symm
        simp [List.filter_cons, hm, ExportAnimationClip.trackStep, hn, hn']

/-- The key loop appends the values of its keys to the nine curves. -/
theorem keyLoop_curvesOfKeys (sqrt : K → K) (ops : FbxSceneOps K M)
    (keys written : List (AnimationKey K)) :
    keys.foldl (ExportAnimationClip.keyStep sqrt ops) (curvesOfKeys sqrt ops written) =
      curvesOfKeys sqrt ops (written ++ keys) := by
  induction keys generalizing written with
  | nil => simp
  | cons key rest ih =>
    have hstep : ExportAnimationClip.keyStep sqrt ops (curvesOfKeys sqrt ops written) key =
        curvesOfKeys sqrt ops (written ++ [key]) := by
      simp [ExportAnimationClip.keyStep, curvesOfKeys, ConvertPosition_LH_to_RH, ConvertScale]
    rw [List.foldl_cons, hstep, ih]
    simp

/-- The curves of a node after the tracks resolved to it were exported one
after the other. -/
theorem addTrackLoop_curvesOfKeys (sqrt : K → K) (ops : FbxSceneOps K M)
    (tracks : List (AnimationTrack K)) (written : List (AnimationKey K)) :
    tracks.foldl
        (fun existing track => some (ExportAnimationClip.addTrack sqrt ops existing track))
        (some (curvesOfKeys sqrt ops written)) =
      some (curvesOfKeys sqrt ops (written ++ tracks.flatMap (fun track => track.keys))) := by
  induction tracks generalizing written with
  | nil => simp
  | cons track rest ih =>
    rw [List.foldl_cons]
    have hadd : ExportAnimationClip.addTrack sqrt ops (some (curvesOfKeys sqrt ops written)) track =
        curvesOfKeys sqrt ops (written ++ track.keys) := by
      unfold ExportAnimationClip.addTrack
      exact keyLoop_curvesOfKeys sqrt ops track.keys written
    rw [hadd, ih]
    simp [List.flatMap_cons]

/-- C19: `ExportAnimationClip` always completes: it leaves the table and the
nodes alone and adds one stack with the one layer `BaseLayer`. In that layer
a node to which no track of the clip resolves has no curves, and a node to
which tracks resolve has nine curves that hold, for every key of these
tracks in clip order, the key time with the components of the converted
translation `(x, y, -z)`, of the Euler angles in degrees of the converted
rotation, and of the scale. A track whose bone name is not in the table is
among the tracks of no node, so none of its keys is written; a track whose
name resolves is among the tracks of exactly the node it resolves to. -/
theorem C19_unresolved_tracks_skipped (sqrt : K → K) (ops : FbxSceneOps K M)
    (st : ExportState K) (clip : AnimationClip K) :
    (ExportAnimationClip sqrt ops st clip).m_BoneNodeMap = st.m_BoneNodeMap ∧
    (ExportAnimationClip sqrt ops st clip).m_pScene.nodes = st.m_pScene.nodes ∧
    (∃ animLayer : FbxAnimLayer K,
      (ExportAnimationClip sqrt ops st clip).m_pScene.animStacks =
        st.m_pScene.animStacks ++
          [{ name := clip.name, layers := [animLayer], localTimeSpan := (0, clip.duration) }] ∧
      animLayer.name = "BaseLayer" ∧
      ∀ node, animLayer.curves node =
        if tracksOfNode st clip node = [] then none
        else
          let keys := (tracksOfNode st clip node).flatMap (fun track => track.keys)
          let euler := fun (key : AnimationKey K) =>
            ops.DecomposeSphericalXYZ (ConvertQuaternion_LH_to_RH sqrt key.rotation)
          some
            { TX := keys.map (fun key => (key.time, key.translation.x))
              TY := keys.map (fun key => (key.time, key.translation.y))
              TZ := keys.map (fun key => (key.time, -key.translation.z))
              RX := keys.map (fun key => (key.time, (euler key).x * RAD_TO_DEG))
              RY := keys.map (fun key => (key.time, (euler key).y * RAD_TO_DEG))
              RZ := keys.map (fun key => (key.time, (euler key).z * RAD_TO_DEG))
              SX := keys.map (fun key => (key.time, key.scale.x))
              SY := keys.map (fun key => (key.time, key.scale.y))
              SZ := keys.map (fun key => (key.time, key.scale.z)) }) ∧
    (∀ track ∈ clip.tracks, st.m_BoneNodeMap track.boneName = none →
      ∀ node, track ∉ tracksOfNode st clip node) ∧
    (∀ track ∈ clip.tracks, ∀ node, st.m_BoneNodeMap track.boneName = some node →
      track ∈ tracksOfNode st clip node ∧
      ∀ other, other ≠ node → track ∉ tracksOfNode st clip other) := by
  refine ⟨rfl, rfl, ⟨ExportAnimationClip.layer sqrt ops st clip, rfl, ?_, ?_⟩, ?_, ?_⟩
  · unfold ExportAnimationClip.layer
    generalize hL : ({ name := "BaseLayer", curves := fun _ => none } : FbxAnimLayer K) = L
    have hname : L.name = "BaseLayer" := by rw [← hL]
    clear hL
    induction clip.tracks generalizing L with
    | nil => exact hname
    | cons track rest ih =>
      rw [List.foldl_cons]
      apply ih
      unfold ExportAnimationClip.trackStep
      split <;> exact hname
  · intro node
    have hloop := trackLoop_curves sqrt ops st clip.tracks
      { name := "BaseLayer", curves := fun _ => none } node
    have hlayer : (ExportAnimationClip.layer sqrt ops st clip).curves node =
        (tracksOfNode st clip node).foldl
          (fun existing track => some (ExportAnimationClip.addTrack sqrt ops existing track))
          none := hloop
    rw [hlayer]
    cases htracks : tracksOfNode st clip node with
    | nil => simp
    | cons track rest =>
      rw [if_neg (List.cons_ne_nil _ _), List.foldl_cons]
      have hfirst : ExportAnimationClip.addTrack sqrt ops none track =
          curvesOfKeys sqrt ops ([] ++ track.keys) := by
        unfold ExportAnimationClip.addTrack
        exact keyLoop_curvesOfKeys sqrt ops track.keys []
      rw [hfirst, addTrackLoop_curvesOfKeys]
      simp [curvesOfKeys, List.flatMap_cons]
  · intro track _ hnone node hmem
    simp [tracksOfNode, hnone] at hmem
  · intro track htrack node hsome
    refine ⟨by simp [tracksOfNode, htrack, hsome], ?_⟩
    intro other hother hmem
    simp only [tracksOfNode, List.mem_filter, decide_eq_true_eq, hsome, Option.some.injEq] at hmem
    exact hother hmem.2.symm

/-- Witness for C19: the clip with the track of the unknown bone `Ghost` and
the track of `Bone`, exported into a scene whose table resolves `Bone` to
node 1. Node 1 gets nine curves with the one key of the `Bone` track, at
time 1/2, and no other node gets a curve: the key of `Ghost` is written
nowhere. -/
theorem C19_witness :
    ∃ animLayer : FbxAnimLayer ℚ,
      (ExportAnimationClip Rat.sqrt Ref.sceneOps Ref.boneState
          Ref.ghostAndBoneClip).m_pScene.animStacks =
        [{ name := "Take001", layers := [animLayer], localTimeSpan := (0, 0) }] ∧
      animLayer.curves 1 =
        some
          { TX := [(1 / 2, 1)], TY := [(1 / 2, 2)], TZ := [(1 / 2, -3)]
            RX := [(1 / 2, 0)], RY := [(1 / 2, 0)], RZ := [(1 / 2, 0)]
            SX := [(1 / 2, 4)], SY := [(1 / 2, 5)], SZ := [(1 / 2, 6)] } ∧
      ∀ node, node ≠ 1 → animLayer.curves node = none := by
  obtain ⟨_, _, ⟨animLayer, hstack, _, hcurves⟩, _, _⟩ :=
    C19_unresolved_tracks_skipped Rat.sqrt Ref.sceneOps Ref.boneState Ref.ghostAndBoneClip
  refine ⟨animLayer, hstack, ?_, ?_⟩
  · rw [hcurves 1]
    simp [tracksOfNode, Ref.ghostAndBoneClip, Ref.boneState, Ref.sceneOps, AnimationKey.new,
      List.filter_cons]
  · intro node hnode
    rw [hcurves node]
    have hne : ¬ (1 = node) := fun h => hnode h.symm
    simp [tracksOfNode, Ref.ghostAndBoneClip, Ref.boneState, List.filter_cons, hne]

end FBXExporter

/-! ### Command line driver -/

/-- After a load that gave a root frame, `sceneData` and its copy
`modelData` hold the same pointer, and the second of the two destructors
deletes a frame that is already deleted: every `return` statement after
line 209 ends in a state to which the language gives no meaning. -/
theorem main_undefined_of_rootFrame (env : MainEnv K) (argv : List String)
    (options : ConversionOptions K) (sceneData : SceneData K) (frame : Nat)
    (hp : ParseArguments env.atof argv = some options)
    (hf : env.FileExists options.inputFile = true)
    (hl : env.LoadFile options.inputFile options = some sceneData)
    (hr : sceneData.rootFrame = some frame) :
    main env argv = ProcessOutcome.undefinedBehaviour := by
  cases he : env.ExportScene options.outputFile options with
  | false =>
    simp [main, main.run, hp, hf, hl, hr, he, FBXExporter.ExportScene, main.destroyAll,
      SceneData.destroy]
  | true =>
    cases ha : sceneData.animations with
    | nil =>
      simp [main, main.run, hp, hf, hl, hr, he, ha, FBXExporter.ExportScene, main.destroyAll,
        SceneData.destroy]
    | cons a rest =>
      cases hc : env.CreateDirectory (Utils.GetDirectory options.outputFile ++
        Utils.GetFilenameWithoutExtension options.inputFile) with
      | false =>
        simp [main, main.run, hp, hf, hl, hr, he, ha, hc, FBXExporter.ExportScene,
          main.destroyAll, SceneData.destroy]
      | true =>
        simp [main, main.run, hp, hf, hl, hr, he, ha, hc, FBXExporter.ExportScene,
          main.destroyAll, SceneData.destroy]

/-- C20 (amended): the value that `main` returns is 0 or 1. It is 0 exactly
when the arguments parse, the input file exists, the load succeeds, the
model export succeeds (the scene has a root frame and the SDK calls succeed)
and, if there are animation clips, the animations directory can be created;
the results of the exports of the individual clips do not enter it. When the
arguments do not parse, the input file is missing, the load fails or the
loaded scene has no root frame, the process exit code is 1; and whenever the
process has an exit code, it is the returned value. -/
theorem C20_exit_code (env : MainEnv K) (argv : List String) :
    ((main.run env argv).value = 0 ∨ (main.run env argv).value = 1) ∧
    ((main.run env argv).value = 0 ↔
      ∃ options sceneData,
        ParseArguments env.atof argv = some options ∧
        env.FileExists options.inputFile = true ∧
        env.LoadFile options.inputFile options = some sceneData ∧
        sceneData.rootFrame ≠ none ∧
        env.ExportScene options.outputFile options = true ∧
        (sceneData.animations ≠ [] →
          env.CreateDirectory (Utils.GetDirectory options.outputFile ++
            Utils.GetFilenameWithoutExtension options.inputFile) = true)) ∧
    (∀ exportSingleAnimation,
      (main.run { env with ExportSingleAnimation := exportSingleAnimation } argv).value =
        (main.run env argv).value) ∧
    ((ParseArguments env.atof argv = none ∨
        ∃ options, ParseArguments env.atof argv = some options ∧
          (env.FileExists options.inputFile = false ∨
            env.LoadFile options.inputFile options = none ∨
            ∃ sceneData, env.LoadFile options.inputFile options = some sceneData ∧
              sceneData.rootFrame = none)) →
      main env argv = ProcessOutcome.exit 1) ∧
    (∀ code, main env argv = ProcessOutcome.exit code → code = (main.run env argv).value) := by
  cases hp : ParseArguments env.atof argv with
  | none => simp [main, main.run, hp, main.destroyAll]
  | some options =>
    cases hf : env.FileExists options.inputFile with
    | false => simp [main, main.run, hp, hf, main.destroyAll]
    | true =>
      cases hl : env.LoadFile options.inputFile options with
      | none =>
        simp [main, main.run, hp, hf, hl, main.destroyAll, SceneData.destroy, SceneData.new]
      | some sceneData =>
        cases hr : sceneData.rootFrame with
        | none =>
          simp [main, main.run, hp, hf, hl, hr, FBXExporter.ExportScene, main.destroyAll,
            SceneData.destroy]
        | some frame =>
          cases he : env.ExportScene options.outputFile options with
          | false =>
            simp [main, main.run, hp, hf, hl, hr, he, FBXExporter.ExportScene, main.destroyAll,
              SceneData.destroy]
          | true =>
            cases ha : sceneData.animations with
            | nil =>
              simp [main, main.run, hp, hf, hl, hr, he, ha, FBXExporter.ExportScene,
                main.destroyAll, SceneData.destroy]
            | cons a rest =>
              cases hc : env.CreateDirectory (Utils.GetDirectory options.outputFile ++
                Utils.GetFilenameWithoutExtension options.inputFile) with
              | false =>
                simp [main, main.run, hp, hf, hl, hr, he, ha, hc, FBXExporter.ExportScene,
                  main.destroyAll, SceneData.destroy]
              | true =>
                simp [main, main.run, hp, hf, hl, hr, he, ha, hc, FBXExporter.ExportScene,
                  main.destroyAll, SceneData.destroy]

/-- Counterexample to C20 as stated: the arguments parse, the file exists,
the load gives a root frame and one clip, the model export and the
directory creation succeed, and the export of the one clip fails (no clip is
exported). An export has failed, and the statement that `main` reaches is
`return 0`; the process does not end with exit code 1. -/
theorem C20_counterexample :
    (main.run Ref.failingAnimationEnv ["XtoFBXConverter.exe", "model.x", "model.fbx"]).value =
      0 ∧
    (main.run Ref.failingAnimationEnv
      ["XtoFBXConverter.exe", "model.x", "model.fbx"]).exportedCount = some 0 ∧
    (∀ options animPath,
      FBXExporter.ExportSingleAnimation Ref.failingAnimationEnv
        { rootFrame := some 0, animations := [] } 0 AnimationClip.new animPath options =
        false) ∧
    main Ref.failingAnimationEnv ["XtoFBXConverter.exe", "model.x", "model.fbx"] ≠
      ProcessOutcome.exit 1 := by
  have hv : (main.run Ref.failingAnimationEnv
      ["XtoFBXConverter.exe", "model.x", "model.fbx"]).value = 0 := by
    simp [main.run, ParseArguments, ParseArguments.options, Ref.failingAnimationEnv,
      FBXExporter.ExportScene]
  refine ⟨hv, ?_, fun _ _ => rfl, ?_⟩
  · simp [main.run, ParseArguments, ParseArguments.options, Ref.failingAnimationEnv,
      main.exportedCount, FBXExporter.ExportScene, FBXExporter.ExportSingleAnimation]
  · intro h
    have hcode : (1 : Int) = (main.run Ref.failingAnimationEnv
        ["XtoFBXConverter.exe", "model.x", "model.fbx"]).value := by
      unfold main at h
      simp only at h
      split at h
      · exact (ProcessOutcome.exit.inj h).symm
      · cases h
    rw [hv] at hcode
    exact absurd hcode (by decide)

/-- Witness for C20: when the input file does not exist the process exit
code is 1. -/
theorem C20_witness :
    main { Ref.failingAnimationEnv with FileExists := fun _ => false }
      ["XtoFBXConverter.exe", "model.x", "model.fbx"] = ProcessOutcome.exit 1 :=
  (C20_exit_code { Ref.failingAnimationEnv with FileExists := fun _ => false }
    ["XtoFBXConverter.exe", "model.x", "model.fbx"]).2.2.2.1
    (Or.inr ⟨{ inputFile := "model.x", outputFile := "model.fbx" },
      by simp [ParseArguments, ParseArguments.options], Or.inl rfl⟩)

/-! ### Decomposition without division by zero, and recomposition -/

/-- C23: `DecomposeMatrix` passes to the quaternion conversion the copy of
the matrix in which the translation entries are cleared and, for each axis,
the basis vector is divided by the scale factor of that axis when the
factor is not zero and is left as it is when the factor is zero; all other
entries are those of the matrix. No quotient with divisor zero is computed:
the matrix passed on is the same for every division operation that agrees
with the division of the field on non-zero divisors. -/
theorem C23_no_division_by_zero (d3dx : D3DX K) (matrix : D3DXMATRIX K) :
    (DecomposeMatrix d3dx matrix).2.1 =
      NormalizeQuaternion d3dx
        (d3dx.QuaternionRotationMatrix
          (DecomposeMatrix.rotationMatrix matrix (ExtractScale d3dx.sqrt matrix))) ∧
    (∀ scale : D3DXVECTOR3 K,
      (scale.x ≠ 0 →
        (DecomposeMatrix.rotationMatrix matrix scale)._11 = matrix._11 / scale.x ∧
        (DecomposeMatrix.rotationMatrix matrix scale)._12 = matrix._12 / scale.x ∧
        (DecomposeMatrix.rotationMatrix matrix scale)._13 = matrix._13 / scale.x) ∧
      (scale.x = 0 →
        (DecomposeMatrix.rotationMatrix matrix scale)._11 = matrix._11 ∧
        (DecomposeMatrix.rotationMatrix matrix scale)._12 = matrix._12 ∧
        (DecomposeMatrix.rotationMatrix matrix scale)._13 = matrix._13) ∧
      (scale.y ≠ 0 →
        (DecomposeMatrix.rotationMatrix matrix scale)._21 = matrix._21 / scale.y ∧
        (DecomposeMatrix.rotationMatrix matrix scale)._22 = matrix._22 / scale.y ∧
        (DecomposeMatrix.rotationMatrix matrix scale)._23 = matrix._23 / scale.y) ∧
      (scale.y = 0 →
        (DecomposeMatrix.rotationMatrix matrix scale)._21 = matrix._21 ∧
        (DecomposeMatrix.rotationMatrix matrix scale)._22 = matrix._22 ∧
        (DecomposeMatrix.rotationMatrix matrix scale)._23 = matrix._23) ∧
      (scale.z ≠ 0 →
        (DecomposeMatrix.rotationMatrix matrix scale)._31 = matrix._31 / scale.z ∧
        (DecomposeMatrix.rotationMatrix matrix scale)._32 = matrix._32 / scale.z ∧
        (DecomposeMatrix.rotationMatrix matrix scale)._33 = matrix._33 / scale.z) ∧
      (scale.z = 0 →
        (DecomposeMatrix.rotationMatrix matrix scale)._31 = matrix._31 ∧
        (DecomposeMatrix.rotationMatrix matrix scale)._32 = matrix._32 ∧
        (DecomposeMatrix.rotationMatrix matrix scale)._33 = matrix._33) ∧
      ((DecomposeMatrix.rotationMatrix matrix scale)._14 = matrix._14 ∧
        (DecomposeMatrix.rotationMatrix matrix scale)._24 = matrix._24 ∧
        (DecomposeMatrix.rotationMatrix matrix scale)._34 = matrix._34 ∧
        (DecomposeMatrix.rotationMatrix matrix scale)._44 = matrix._44 ∧
        (DecomposeMatrix.rotationMatrix matrix scale)._41 = 0 ∧
        (DecomposeMatrix.rotationMatrix matrix scale)._42 = 0 ∧
        (DecomposeMatrix.rotationMatrix matrix scale)._43 = 0) ∧
      (∀ div : K → K → K, (∀ a b : K, b ≠ 0 → div a b = a / b) →
        DecomposeMatrix.rotationMatrixWith div matrix scale =
          DecomposeMatrix.rotationMatrix matrix scale)) := by
  refine ⟨rfl, ?_⟩
  intro scale
  refine ⟨?_, ?_, ?_, ?_, ?_, ?_, ?_, ?_⟩
  · intro h
    by_cases hy : scale.y = 0 <;> by_cases hz : scale.z = 0 <;>
      simp [DecomposeMatrix.rotationMatrix, h, hy, hz]
  · intro h
    by_cases hy : scale.y = 0 <;> by_cases hz : scale.z = 0 <;>
      simp [DecomposeMatrix.rotationMatrix, h, hy, hz]
  · intro h
    by_cases hx : scale.x = 0 <;> by_cases hz : scale.z = 0 <;>
      simp [DecomposeMatrix.rotationMatrix, h, hx, hz]
  · intro h
    by_cases hx : scale.x = 0 <;> by_cases hz : scale.z = 0 <;>
      simp [DecomposeMatrix.rotationMatrix, h, hx, hz]
  · intro h
    by_cases hx : scale.x = 0 <;> by_cases hy : scale.y = 0 <;>
      simp [DecomposeMatrix.rotationMatrix, h, hx, hy]
  · intro h
    by_cases hx : scale.x = 0 <;> by_cases hy : scale.y = 0 <;>
      simp [DecomposeMatrix.rotationMatrix, h, hx, hy]
  · by_cases hx : scale.x = 0 <;> by_cases hy : scale.y = 0 <;> by_cases hz : scale.z = 0 <;>
      simp [DecomposeMatrix.rotationMatrix, hx, hy, hz]
  · intro div hdiv
    by_cases hx : scale.x = 0 <;> by_cases hy : scale.y = 0 <;> by_cases hz : scale.z = 0 <;>
      simp [DecomposeMatrix.rotationMatrix, DecomposeMatrix.rotationMatrixWith, hx, hy, hz,
        hdiv]

/-- Witness for C23: a matrix whose second basis vector is zero and whose
first basis vector has length 5; the second row is passed on as it is. -/
theorem C23_witness :
    (DecomposeMatrix.rotationMatrix
        (⟨3, 4, 0, 0, 0, 0, 0, 0, 0, 0, 1, 0, 7, 8, 9, 1⟩ : D3DXMATRIX ℚ) ⟨5, 0, 1⟩)._21 = 0 ∧
    (DecomposeMatrix.rotationMatrix
        (⟨3, 4, 0, 0, 0, 0, 0, 0, 0, 0, 1, 0, 7, 8, 9, 1⟩ : D3DXMATRIX ℚ) ⟨5, 0, 1⟩)._22 = 0 ∧
    (DecomposeMatrix.rotationMatrix
        (⟨3, 4, 0, 0, 0, 0, 0, 0, 0, 0, 1, 0, 7, 8, 9, 1⟩ : D3DXMATRIX ℚ) ⟨5, 0, 1⟩)._23 = 0 :=
  ((C23_no_division_by_zero Ref.d3dx
    (⟨3, 4, 0, 0, 0, 0, 0, 0, 0, 0, 1, 0, 7, 8, 9, 1⟩ : D3DXMATRIX ℚ)).2
      ⟨5, 0, 1⟩).2.2.2.1 rfl

/-- C25: for every matrix, the transform returned by
`ConvertMatrix_LH_to_RH` is the default transform on which `SetT`, `SetQ`
and `SetS` were called, in this order, with the translation
`(_41, _42, -_43, 1)`, the rotation `ConvertQuaternion_LH_to_RH` of the
rotation of `DecomposeMatrix`, and the scale of `DecomposeMatrix` with
`w = 1`, the three scale components being unchanged (`ConvertScale` copies
them). When `SetQ` and `SetS` leave the translation of a transform alone,
the translation read from the result is `(_41, _42, -_43)`. -/
theorem C25_composed_from_trs (d3dx : D3DX K) (sdk : FbxAMatrixOps K M)
    (dxMatrix : D3DXMATRIX K) :
    ConvertMatrix_LH_to_RH d3dx sdk dxMatrix =
      sdk.SetS
        (sdk.SetQ (sdk.SetT sdk.identity ⟨dxMatrix._41, dxMatrix._42, -dxMatrix._43, 1⟩)
          (ConvertQuaternion_LH_to_RH d3dx.sqrt (DecomposeMatrix d3dx dxMatrix).2.1))
        ⟨(DecomposeMatrix d3dx dxMatrix).2.2.x, (DecomposeMatrix d3dx dxMatrix).2.2.y,
          (DecomposeMatrix d3dx dxMatrix).2.2.z, 1⟩ ∧
    (∀ dxScale : D3DXVECTOR3 K,
      (ConvertScale dxScale).x = dxScale.x ∧ (ConvertScale dxScale).y = dxScale.y ∧
        (ConvertScale dxScale).z = dxScale.z) ∧
    (sdk.SetTLaws → (∀ m q, sdk.GetT (sdk.SetQ m q) = sdk.GetT m) →
      (∀ m s, sdk.GetT (sdk.SetS m s) = sdk.GetT m) →
      (sdk.GetT (ConvertMatrix_LH_to_RH d3dx sdk dxMatrix)).x = dxMatrix._41 ∧
      (sdk.GetT (ConvertMatrix_LH_to_RH d3dx sdk dxMatrix)).y = dxMatrix._42 ∧
      (sdk.GetT (ConvertMatrix_LH_to_RH d3dx sdk dxMatrix)).z = -dxMatrix._43) := by
  refine ⟨rfl, fun _ => ⟨rfl, rfl, rfl⟩, ?_⟩
  intro laws hq hs
  simp only [ConvertMatrix_LH_to_RH, hs, hq, laws.getT_x, laws.getT_y, laws.getT_z,
    ConvertPosition_LH_to_RH, DecomposeMatrix, ExtractTranslation, and_self]

/-- Witness for C25: for the rational instance, the translation read from
the conversion of a matrix with translation `(5, 6, 7)` is `(5, 6, -7)`. -/
theorem C25_witness :
    (Ref.sdk.GetT (ConvertMatrix_LH_to_RH Ref.d3dx Ref.sdk
        ⟨1, 0, 0, 0, 0, 1, 0, 0, 0, 0, 1, 0, 5, 6, 7, 1⟩)).x = 5 ∧
    (Ref.sdk.GetT (ConvertMatrix_LH_to_RH Ref.d3dx Ref.sdk
        ⟨1, 0, 0, 0, 0, 1, 0, 0, 0, 0, 1, 0, 5, 6, 7, 1⟩)).y = 6 ∧
    (Ref.sdk.GetT (ConvertMatrix_LH_to_RH Ref.d3dx Ref.sdk
        ⟨1, 0, 0, 0, 0, 1, 0, 0, 0, 0, 1, 0, 5, 6, 7, 1⟩)).z = -7 :=
  (C25_composed_from_trs Ref.d3dx Ref.sdk
    ⟨1, 0, 0, 0, 0, 1, 0, 0, 0, 0, 1, 0, 5, 6, 7, 1⟩).2.2 Ref.sdk_setTLaws
    (fun _ _ => rfl) (fun _ _ => rfl)

namespace FBXExporter

/-! ### Geometry export: control points, normals and the winding swap -/

theorem polygonLoop_controlPoints (self : FBXExporter K) (meshData : MeshData K)
    (l : List Nat) (fbxMesh : FbxMesh K) :
    (l.foldl (ExportGeometry.polygonStep self meshData) fbxMesh).controlPoints =
      fbxMesh.controlPoints := by
  induction l generalizing fbxMesh with
  | nil => rfl
  | cons i rest ih =>
    rw [List.foldl_cons, ih]
    unfold ExportGeometry.polygonStep
    by_cases h : self.m_Options.targetCoordSystem = CoordinateSystem.RIGHT_HANDED
    · simp [h, FbxMesh.BeginPolygon, FbxMesh.AddPolygon, FbxMesh.EndPolygon]
    · simp [h, FbxMesh.BeginPolygon, FbxMesh.AddPolygon, FbxMesh.EndPolygon]

/-- The control point that the first loop of `ExportGeometry` stores for a
vertex. -/
theorem vertexStep_controlPoints (self : FBXExporter K) (meshData : MeshData K)
    (fbxMesh : FbxMesh K) (i : Nat) :
    (ExportGeometry.vertexStep self meshData fbxMesh i).controlPoints =
      fbxMesh.controlPoints.set i
        ⟨self.m_Options.scale * (meshData.vertices.getD i Vertex.new).position.x,
          self.m_Options.scale * (meshData.vertices.getD i Vertex.new).position.y,
          -(self.m_Options.scale * (meshData.vertices.getD i Vertex.new).position.z), 1⟩ := by
  unfold ExportGeometry.vertexStep FbxMesh.setControlPoint
  by_cases h : self.m_Options.scale = 1
  · simp [h, ConvertPosition_LH_to_RH]
  · simp only [ne_eq, h, not_false_eq_true, if_true, ConvertPosition_LH_to_RH, ApplyGlobalScale]
    congr 2
    · ring
    · ring
    · ring

theorem vertexLoop_controlPoints (self : FBXExporter K) (meshData : MeshData K)
    (fbxMesh : FbxMesh K) (n : Nat) (hn : n ≤ fbxMesh.controlPoints.length) :
    ((List.range n).foldl (ExportGeometry.vertexStep self meshData) fbxMesh).controlPoints =
      (List.range n).map (fun i =>
        (⟨self.m_Options.scale * (meshData.vertices.getD i Vertex.new).position.x,
          self.m_Options.scale * (meshData.vertices.getD i Vertex.new).position.y,
          -(self.m_Options.scale * (meshData.vertices.getD i Vertex.new).position.z), 1⟩ :
          FbxVector4 K)) ++ fbxMesh.controlPoints.drop n := by
  induction n with
  | zero => simp
  | succ n ih =>
    rw [List.range_succ, List.foldl_append, List.foldl_cons, List.foldl_nil,
      vertexStep_controlPoints, ih (Nat.le_of_succ_le hn)]
    have hlen : ((List.range n).map (fun i =>
        (⟨self.m_Options.scale * (meshData.vertices.getD i Vertex.new).position.x,
          self.m_Options.scale * (meshData.vertices.getD i Vertex.new).position.y,
          -(self.m_Options.scale * (meshData.vertices.getD i Vertex.new).position.z), 1⟩ :
          FbxVector4 K))).length = n := by simp
    rw [List.set_append_right _ _ (by rw [hlen]), hlen, Nat.sub_self, List.map_append,
      List.append_assoc]
    congr 1
    have hlt : n < fbxMesh.controlPoints.length := hn
    rw [List.drop_eq_getElem_cons hlt, List.set_cons_zero]
    rfl

theorem map_range_getD {α β : Type} (g : α → β) (l : List α) (d : α) :
    (List.range l.length).map (fun i => g (l.getD i d)) = l.map g := by
  apply List.ext_getElem
  · simp
  · intro i h1 h2
    have hi : i < l.length := by simpa using h1
    simp [List.getD_eq_getElem?_getD, List.getElem?_eq_getElem hi]

theorem normalLoop_directArray (l : List (Vertex K)) (e : FbxGeometryElementNormal K) :
    l.foldl
      (fun (normalElement : FbxGeometryElementNormal K) (vertex : Vertex K) =>
        ({ normalElement with
            directArray := normalElement.directArray ++
              [ConvertNormal_LH_to_RH vertex.normal] } : FbxGeometryElementNormal K))
      e =
    { e with directArray := e.directArray ++
        l.map (fun vertex => ConvertNormal_LH_to_RH vertex.normal) } := by
  induction l generalizing e with
  | nil => simp
  | cons v rest ih =>
    rw [List.foldl_cons, ih]
    simp

/-- C24: for every mesh and whatever the exporter options are,
`ExportGeometry` leaves one control point per vertex, in vertex order, equal
to `(s*x, s*y, -(s*z), 1)` for the vertex position `(x, y, z)` and
`s = m_Options.scale`; `ExportNormals` adds one normal element whose direct
array holds one normal per vertex, in vertex order, equal to
`(nx, ny, -nz, 0)` for the vertex normal `(nx, ny, nz)`, in which the scale
does not occur. -/
theorem C24_control_points_and_normals (self : FBXExporter K) (meshData : MeshData K)
    (fbxMesh : FbxMesh K) :
    (ExportGeometry self meshData fbxMesh).controlPoints =
      meshData.vertices.map (fun vertex =>
        (⟨self.m_Options.scale * vertex.position.x, self.m_Options.scale * vertex.position.y,
          -(self.m_Options.scale * vertex.position.z), 1⟩ : FbxVector4 K)) ∧
    (ExportNormals self meshData fbxMesh).elementNormals =
      fbxMesh.elementNormals ++
        [{ directArray := meshData.vertices.map (fun vertex =>
            (⟨vertex.normal.x, vertex.normal.y, -vertex.normal.z, 0⟩ : FbxVector4 K)) }] := by
  constructor
  · unfold ExportGeometry
    simp only [polygonLoop_controlPoints]
    rw [vertexLoop_controlPoints self meshData _ _ (by simp [FbxMesh.InitControlPoints])]
    simp only [FbxMesh.InitControlPoints, List.drop_replicate, Nat.sub_self,
      List.replicate_zero, List.append_nil]
    exact map_range_getD
      (fun vertex : Vertex K =>
        (⟨self.m_Options.scale * vertex.position.x, self.m_Options.scale * vertex.position.y,
          -(self.m_Options.scale * vertex.position.z), 1⟩ : FbxVector4 K))
      meshData.vertices Vertex.new
  · unfold ExportNormals
    simp only [normalLoop_directArray]
    simp [ConvertNormal_LH_to_RH]

/-- Witness for C24: one vertex at `(1, 2, 3)` exported with global scale 2
gives the control point `(2, 4, -6, 1)`. -/
theorem C24_witness :
    (ExportGeometry ({ m_Options := { scale := 2 } } : FBXExporter ℚ)
      { name := "Mesh", vertices := [{ (Vertex.new : Vertex ℚ) with position := ⟨1, 2, 3⟩ }],
        indices := [], materialIndices := [], hasSkinning := false, bones := [] }
      FbxMesh.Create).controlPoints = [⟨2, 4, -6, 1⟩] := by
  rw [(C24_control_points_and_normals ({ m_Options := { scale := 2 } } : FBXExporter ℚ)
    { name := "Mesh", vertices := [{ (Vertex.new : Vertex ℚ) with position := ⟨1, 2, 3⟩ }],
      indices := [], materialIndices := [], hasSkinning := false, bones := [] }
    FbxMesh.Create).1]
  norm_num

theorem length_flatten_triples (F : Nat → List Nat) (hF : ∀ i, (F i).length = 3) (n : Nat) :
    ((List.range n).map F).flatten.length = 3 * n := by
  induction n with
  | zero => rfl
  | succ n ih =>
    rw [List.range_succ, List.map_append, List.flatten_append, List.length_append, ih]
    simp [hF]
    omega

theorem getD_flatten_triples (F : Nat → List Nat) (hF : ∀ i, (F i).length = 3) (n i r : Nat)
    (hi : i < n) (hr : r < 3) :
    ((List.range n).map F).flatten.getD (i * 3 + r) 0 = (F i).getD r 0 := by
  induction n with
  | zero => exact absurd hi (Nat.not_lt_zero i)
  | succ n ih =>
    rw [List.range_succ, List.map_append, List.flatten_append]
    have hlen := length_flatten_triples F hF n
    rcases Nat.lt_succ_iff_lt_or_eq.mp hi with hlt | heq
    · rw [List.getD_append _ _ _ _ (by rw [hlen]; omega)]
      exact ih hlt
    · subst heq
      rw [List.getD_append_right _ _ _ _ (by rw [hlen]; omega), hlen]
      simp only [List.map_cons, List.map_nil, List.flatten_cons, List.flatten_nil,
        List.append_nil]
      congr 1
      omega

/-- C22: for a right-handed target, `ExportGeometry` turns the index triple
`(a, b, c)` into the polygon `(a, c, b)`, and exporting the indices of that
polygon once more gives `(a, b, c)` again: swapping the second and third
index twice restores the triple. For a whole mesh whose index count is a
multiple of 3, the polygons of the second export, read in order, are the
original index list. -/
theorem C22_winding_swap_self_inverse (self : FBXExporter K)
    (hRH : self.m_Options.targetCoordSystem = CoordinateSystem.RIGHT_HANDED)
    (meshData : MeshData K) (a b c : Nat) :
    (ExportGeometry self { meshData with indices := [a, b, c] } FbxMesh.Create).polygons =
      [[a, c, b]] ∧
    (ExportGeometry self
      { meshData with
        indices := (ExportGeometry self { meshData with indices := [a, b, c] }
          FbxMesh.Create).polygons.flatten }
      FbxMesh.Create).polygons = [[a, b, c]] ∧
    (meshData.indices.length % 3 = 0 →
      (ExportGeometry self
        { meshData with
          indices := (ExportGeometry self meshData FbxMesh.Create).polygons.flatten }
        FbxMesh.Create).polygons.flatten = meshData.indices) := by
  have h1 : (ExportGeometry self { meshData with indices := [a, b, c] }
      FbxMesh.Create).polygons = [[a, c, b]] := by
    rw [exportGeometry_polygons]
    simp [FbxMesh.Create, emittedTriangle, hRH, List.range_succ]
  refine ⟨h1, ?_, ?_⟩
  · rw [h1, exportGeometry_polygons]
    simp [FbxMesh.Create, emittedTriangle, hRH, List.range_succ]
  · intro hmod
    have hF : ∀ i, (emittedTriangle self meshData i).length = 3 := by
      intro i
      simp [emittedTriangle, hRH]
    have hn : meshData.indices.length = 3 * (meshData.indices.length / 3) := by omega
    rw [exportGeometry_polygons, exportGeometry_polygons]
    simp only [FbxMesh.Create, List.nil_append]
    rw [length_flatten_triples _ hF, Nat.mul_div_cancel_left _ (by decide : 0 < 3)]
    have hF2 : ∀ i, (emittedTriangle self
        { meshData with
          indices := ((List.range (meshData.indices.length / 3)).map
            (emittedTriangle self meshData)).flatten } i).length = 3 := by
      intro i
      simp [emittedTriangle, hRH]
    apply List.ext_getElem
    · rw [length_flatten_triples _ hF2]
      exact hn.symm
    · intro j h1 h2
      rw [← List.getD_eq_getElem _ 0 h1, ← List.getD_eq_getElem _ 0 h2]
      have hj : j = j / 3 * 3 + j % 3 := by omega
      have hi : j / 3 < meshData.indices.length / 3 := by omega
      have hr : j % 3 < 3 := Nat.mod_lt _ (by decide)
      rw [hj, getD_flatten_triples _ hF2 _ _ _ hi hr]
      simp only [emittedTriangle, hRH, if_true]
      rw [getD_flatten_triples _ hF _ _ 0 hi (by decide),
        getD_flatten_triples _ hF _ _ 1 hi (by decide),
        getD_flatten_triples _ hF _ _ 2 hi (by decide)]
      simp only [emittedTriangle, hRH, if_true]
      have h3 : j % 3 = 0 ∨ j % 3 = 1 ∨ j % 3 = 2 := by omega
      rcases h3 with h | h | h <;> rw [h] <;> rfl

/-- Witness for C22: under the default options (right-handed target) the
triple `(0, 1, 2)` is exported as `(0, 2, 1)`. -/
theorem C22_witness :
    (ExportGeometry ({ m_Options := {} } : FBXExporter ℚ)
      { name := "Mesh", vertices := [], indices := [0, 1, 2], materialIndices := [],
        hasSkinning := false, bones := [] } FbxMesh.Create).polygons = [[0, 2, 1]] :=
  (C22_winding_swap_self_inverse ({ m_Options := {} } : FBXExporter ℚ) rfl
    { name := "Mesh", vertices := [], indices := [], materialIndices := [],
      hasSkinning := false, bones := [] } 0 1 2).1

end FBXExporter

namespace XFileParser

/-! ### Tracks of a clip -/

open LoadAnimations

theorem trackKeys_eq_nil_iff (rot : List (D3DXKEY_QUATERNION K))
    (pos sc : List (D3DXKEY_VECTOR3 K)) :
    trackKeys rot pos sc = [] ↔ rot = [] ∧ pos = [] ∧ sc = [] := by
  constructor
  · intro h
    have ht : keyTimes (trackKeys rot pos sc) = [] := by rw [h]; rfl
    rw [keyTimes_trackKeys] at ht
    simp only [List.append_eq_nil, List.map_eq_nil_iff] at ht
    obtain ⟨⟨hr, hp⟩, hs⟩ := ht
    subst hr
    rw [rotationStep_eq] at hp
    simp only [List.map_nil, List.append_nil] at hp
    rw [newTimes_nil, List.map_eq_nil_iff] at hp
    subst hp
    rw [rotationStep_eq] at hs
    simp only [List.map_nil, List.append_nil] at hs
    rw [translationStep_nil] at hs
    simp only [List.map_nil] at hs
    rw [newTimes_nil, List.map_eq_nil_iff] at hs
    exact ⟨rfl, rfl, hs⟩
  · rintro ⟨rfl, rfl, rfl⟩
    simp [trackKeys, rotationStep, translationStep, scaleStep]

theorem animationLoop_tracks (animations : List (KeyframedAnimation K))
    (clip : AnimationClip K) :
    (animations.foldl LoadAnimations.animationStep clip).tracks =
      clip.tracks ++ animations.filterMap (fun anim =>
        match anim.boneName with
        | some boneName =>
          if boneName ≠ "" ∧
              (anim.rotationKeys ≠ [] ∨ anim.translationKeys ≠ [] ∨ anim.scaleKeys ≠ []) then
            some ⟨boneName, trackKeys anim.rotationKeys anim.translationKeys anim.scaleKeys⟩
          else none
        | none => none) := by
  induction animations generalizing clip with
  | nil => simp
  | cons anim rest ih =>
    rw [List.foldl_cons, ih]
    cases hname : anim.boneName with
    | none => simp [LoadAnimations.animationStep, hname, List.filterMap_cons]
    | some boneName =>
      by_cases hlen : boneName = ""
      · subst hlen
        simp [LoadAnimations.animationStep, hname, List.filterMap_cons]
      · have hlen' : ¬ boneName.length = 0 := by
          intro h
          exact hlen (String.ext (List.eq_nil_of_length_eq_zero h))
        by_cases hkeys : trackKeys anim.rotationKeys anim.translationKeys anim.scaleKeys = []
        · have hall := (trackKeys_eq_nil_iff _ _ _).mp hkeys
          have hnot : ¬ (anim.rotationKeys ≠ [] ∨ anim.translationKeys ≠ [] ∨
              anim.scaleKeys ≠ []) := by
            simp [hall.1, hall.2.1, hall.2.2]
          simp only [LoadAnimations.animationStep, hname, List.filterMap_cons, hlen', hkeys,
            hnot, and_false, if_false, List.isEmpty_nil, Bool.not_true, Bool.false_eq_true]
        · have hsome : anim.rotationKeys ≠ [] ∨ anim.translationKeys ≠ [] ∨
              anim.scaleKeys ≠ [] := by
            by_contra hcon
            push_neg at hcon
            exact hkeys ((trackKeys_eq_nil_iff _ _ _).mpr hcon)
          have hempty : (trackKeys anim.rotationKeys anim.translationKeys
              anim.scaleKeys).isEmpty = false := isEmpty_false_of_ne_nil _ hkeys
          simp [LoadAnimations.animationStep, hname, List.filterMap_cons, hlen', hempty, hlen,
            hsome]

/-- C21: the body of the animation loop of `LoadAnimations` appends a track
to the clip when the entry has a non-empty bone name and at least one of its
rotation, translation and scale channels is non-empty, and returns the clip
unchanged otherwise (no name, empty name, or three empty channels). The
tracks of the clip of an animation set are therefore the tracks of exactly
those of its entries, in entry order: an unnamed entry is skipped and the
entries after it are still processed. One clip is pushed per animation set. -/
theorem C21_track_iff_named_with_keys (clip : AnimationClip K) (anim : KeyframedAnimation K) :
    (∀ boneName, anim.boneName = some boneName → boneName ≠ "" →
      (anim.rotationKeys ≠ [] ∨ anim.translationKeys ≠ [] ∨ anim.scaleKeys ≠ []) →
      LoadAnimations.animationStep clip anim =
        { clip with
          tracks := clip.tracks ++
            [⟨boneName, trackKeys anim.rotationKeys anim.translationKeys anim.scaleKeys⟩] }) ∧
    ((anim.boneName = none ∨ anim.boneName = some "" ∨
        (anim.rotationKeys = [] ∧ anim.translationKeys = [] ∧ anim.scaleKeys = [])) →
      LoadAnimations.animationStep clip anim = clip) ∧
    (∀ (pAnimSet : AnimationSet K) (animations : List (KeyframedAnimation K)),
      pAnimSet.keyframed = some animations →
      (LoadAnimations.clipOf pAnimSet).tracks =
        animations.filterMap (fun anim =>
          match anim.boneName with
          | some boneName =>
            if boneName ≠ "" ∧
                (anim.rotationKeys ≠ [] ∨ anim.translationKeys ≠ [] ∨ anim.scaleKeys ≠ []) then
              some ⟨boneName, trackKeys anim.rotationKeys anim.translationKeys anim.scaleKeys⟩
            else none
          | none => none)) ∧
    (∀ (animController : AnimationController K) (loaded : List (AnimationClip K)),
      LoadAnimations animController loaded =
        loaded ++ animController.animationSets.map LoadAnimations.clipOf) := by
  refine ⟨?_, ?_, ?_, ?_⟩
  · intro boneName hname hne hsome
    have hlen' : ¬ boneName.length = 0 := by
      intro h
      exact hne (String.ext (List.eq_nil_of_length_eq_zero h))
    have hkeys : trackKeys anim.rotationKeys anim.translationKeys anim.scaleKeys ≠ [] := by
      intro hk
      obtain ⟨h1, h2, h3⟩ := (trackKeys_eq_nil_iff _ _ _).mp hk
      rcases hsome with h | h | h
      · exact h h1
      · exact h h2
      · exact h h3
    simp [LoadAnimations.animationStep, hname, hlen', isEmpty_false_of_ne_nil _ hkeys]
  · intro h
    rcases h with h | h | h
    · simp [LoadAnimations.animationStep, h]
    · simp [LoadAnimations.animationStep, h]
    · have hk := (trackKeys_eq_nil_iff _ _ _).mpr h
      cases hname : anim.boneName with
      | none => simp [LoadAnimations.animationStep, hname]
      | some boneName => simp [LoadAnimations.animationStep, hname, hk]
  · intro pAnimSet animations hkf
    simp only [LoadAnimations.clipOf, hkf]
    rw [animationLoop_tracks]
    simp [AnimationClip.new]
  · intro animController loaded
    unfold LoadAnimations
    exact foldl_push_eq _ LoadAnimations.clipOf (fun _ _ => rfl) loaded _

/-- Witness for C21: an animation set with an unnamed entry, an entry `Arm`
with one rotation key and an entry `Leg` without keys gives the one track
`Arm`, which comes after the skipped unnamed entry. -/
theorem C21_witness :
    (LoadAnimations.clipOf
      ({ name := "Walk", period := 1, periodicPosition := 30,
         keyframed := some
          [⟨none, [⟨0, ⟨0, 0, 0, 1⟩⟩], [], []⟩,
           ⟨some "Arm", [⟨0, ⟨0, 0, 0, 1⟩⟩], [], []⟩,
           ⟨some "Leg", [], [], []⟩] } : AnimationSet ℚ)).tracks =
      [⟨"Arm", trackKeys [⟨0, ⟨0, 0, 0, 1⟩⟩] [] []⟩] := by
  have h := (C21_track_iff_named_with_keys (AnimationClip.new : AnimationClip ℚ)
    ⟨none, [], [], []⟩).2.2.1
    { name := "Walk", period := 1, periodicPosition := 30,
      keyframed := some
        [⟨none, [⟨0, ⟨0, 0, 0, 1⟩⟩], [], []⟩,
         ⟨some "Arm", [⟨0, ⟨0, 0, 0, 1⟩⟩], [], []⟩,
         ⟨some "Leg", [], [], []⟩] } _ rfl
  rw [h]
  simp [List.filterMap_cons]

/-! ### Keyframe merge: distinct times and channel values -/

theorem map_set_getD {β : Type} (g : AnimationKey K → β) (keys : List (AnimationKey K))
    (index : Nat) (f : AnimationKey K → AnimationKey K) (hf : ∀ key, g (f key) = g key) :
    (keys.set index (f (keys.getD index AnimationKey.new))).map g = keys.map g := by
  induction keys generalizing index with
  | nil => rfl
  | cons k ks ih =>
    cases index with
    | zero => simp [hf]
    | succ n =>
      have := ih n
      simp only [List.set_cons_succ, List.map_cons, List.getD_cons_succ] at this ⊢
      rw [this]

/-- What a merge loop leaves of a function `g` of the keys that writing the
channel component does not change. -/
theorem map_mergeChannel {β : Type} (g : AnimationKey K → β) (m : K → Option Nat)
    (setValue : AnimationKey K → D3DXVECTOR3 K → AnimationKey K)
    (newKey : D3DXKEY_VECTOR3 K → AnimationKey K)
    (hset : ∀ key v, g (setValue key v) = g key)
    (keys : List (AnimationKey K)) (ch : List (D3DXKEY_VECTOR3 K)) :
    (mergeChannel m setValue newKey keys ch).map g =
      keys.map g ++
        (ch.filter (fun c => decide (m c.Time = none))).map (fun c => g (newKey c)) := by
  induction ch using List.reverseRecOn with
  | nil => simp [mergeChannel]
  | append_singleton pre c ih =>
    rw [mergeChannel_append]
    cases hm : m c.Time with
    | some index =>
      simp only
      rw [map_set_getD g _ _ (fun key => setValue key c.Value) (fun key => hset key c.Value), ih]
      simp [List.filter_append, hm]
    | none =>
      simp only
      rw [List.map_append, ih]
      simp [List.filter_append, hm]

theorem mergeChannel_none (setValue : AnimationKey K → D3DXVECTOR3 K → AnimationKey K)
    (newKey : D3DXKEY_VECTOR3 K → AnimationKey K)
    (keys : List (AnimationKey K)) (ch : List (D3DXKEY_VECTOR3 K)) :
    mergeChannel (fun _ => none) setValue newKey keys ch = keys ++ ch.map newKey := by
  unfold mergeChannel
  exact foldl_push_eq _ newKey (fun _ _ => rfl) keys ch

theorem buildTimeToIndex_nil : buildTimeToIndex ([] : List (AnimationKey K)) = fun _ => none :=
  rfl

/-- The translation block is the merge loop with the lookup of the keys it
starts from, also when it starts from no keys. -/
theorem translationStep_eq_merge (keys : List (AnimationKey K))
    (ch : List (D3DXKEY_VECTOR3 K)) :
    translationStep keys ch =
      mergeChannel (buildTimeToIndex keys) (fun key v => { key with translation := v })
        newTranslationKey keys ch := by
  by_cases hk : keys = []
  · subst hk
    rw [translationStep_nil, buildTimeToIndex_nil, mergeChannel_none, List.nil_append]
  · exact translationStep_of_ne_nil keys hk ch

/-- The scale block is the merge loop with the lookup of the keys it starts
from, also when it starts from no keys. -/
theorem scaleStep_eq_merge (keys : List (AnimationKey K)) (ch : List (D3DXKEY_VECTOR3 K)) :
    scaleStep keys ch =
      mergeChannel (buildTimeToIndex keys) (fun key v => { key with scale := v })
        newScaleKey keys ch := by
  by_cases hk : keys = []
  · subst hk
    rw [scaleStep_nil, buildTimeToIndex_nil, mergeChannel_none, List.nil_append]
  · exact scaleStep_of_ne_nil keys hk ch

/-- Every key of a channel with pairwise distinct times is found in the
merged keys, at its time and with its value in the channel component. -/
theorem mergeChannel_value (setValue : AnimationKey K → D3DXVECTOR3 K → AnimationKey K)
    (newKey : D3DXKEY_VECTOR3 K → AnimationKey K) (proj : AnimationKey K → D3DXVECTOR3 K)
    (hset : ∀ key v, (setValue key v).time = key.time)
    (hnew : ∀ c, (newKey c).time = c.Time)
    (hproj : ∀ key v, proj (setValue key v) = v)
    (hprojNew : ∀ c, proj (newKey c) = c.Value)
    (keys0 : List (AnimationKey K)) (ch : List (D3DXKEY_VECTOR3 K))
    (hch : (ch.map (fun c => c.Time)).Nodup) (c : D3DXKEY_VECTOR3 K) (hc : c ∈ ch) :
    ∃ key ∈ mergeChannel (buildTimeToIndex keys0) setValue newKey keys0 ch,
      key.time = c.Time ∧ proj key = c.Value := by
  induction ch using List.reverseRecOn with
  | nil => cases hc
  | append_singleton pre c' ih =>
    rw [List.map_append, List.nodup_append] at hch
    obtain ⟨hpre, -, hdisj⟩ := hch
    have hne : ∀ d ∈ pre, d.Time ≠ c'.Time := by
      intro d hd heq
      exact hdisj (List.mem_map_of_mem (fun c => c.Time) hd) (by simp [heq])
    by_cases hex : c'.Time ∈ keyTimes keys0
    · obtain ⟨index, key, hkey, hkt, heq⟩ :=
        mergeChannel_overwrite setValue newKey hset hnew keys0 pre c' hex
      rw [heq]
      have hlt : index < (mergeChannel (buildTimeToIndex keys0) setValue newKey keys0
          pre).length := by
        rcases Nat.lt_or_ge index (mergeChannel (buildTimeToIndex keys0) setValue newKey keys0
          pre).length with h | h
        · exact h
        · rw [List.getElem?_eq_none h] at hkey; cases hkey
      rcases List.mem_append.mp hc with hin | hin
      · obtain ⟨key0, hk0, ht0, hv0⟩ := ih hpre hin
        obtain ⟨j, hj, hjk⟩ := List.getElem_of_mem hk0
        have hji : index ≠ j := by
          intro h
          subst h
          rw [List.getElem?_eq_getElem hj, hjk] at hkey
          have : key0 = key := Option.some.inj hkey
          subst this
          exact hne c hin (ht0.symm.trans hkt)
        refine ⟨key0, ?_, ht0, hv0⟩
        rw [List.mem_iff_getElem?]
        refine ⟨j, ?_⟩
        rw [List.getElem?_set_ne hji, List.getElem?_eq_getElem hj, hjk]
      · simp only [List.mem_singleton] at hin
        subst hin
        refine ⟨setValue key c.Value, ?_, ?_, hproj _ _⟩
        · rw [List.mem_iff_getElem?]
          refine ⟨index, ?_⟩
          rw [List.getElem?_set_self hlt]
        · rw [hset, hkt]
    · rw [mergeChannel_append, (buildTimeToIndex_eq_none keys0 c'.Time).mpr hex]
      simp only
      rcases List.mem_append.mp hc with hin | hin
      · obtain ⟨key0, hk0, ht0, hv0⟩ := ih hpre hin
        exact ⟨key0, List.mem_append_left _ hk0, ht0, hv0⟩
      · simp only [List.mem_singleton] at hin
        subst hin
        exact ⟨newKey c, by simp, hnew c, hprojNew c⟩

/-- A merge loop keeps, for every key it starts from, a key with the same
value of a function `g` that writing the channel component does not change. -/
theorem mergeChannel_keeps {β : Type} (g : AnimationKey K → β) (m : K → Option Nat)
    (setValue : AnimationKey K → D3DXVECTOR3 K → AnimationKey K)
    (newKey : D3DXKEY_VECTOR3 K → AnimationKey K)
    (hset : ∀ key v, g (setValue key v) = g key)
    (keys : List (AnimationKey K)) (ch : List (D3DXKEY_VECTOR3 K))
    (key0 : AnimationKey K) (h0 : key0 ∈ keys) :
    ∃ key ∈ mergeChannel m setValue newKey keys ch, g key = g key0 := by
  have hmem : g key0 ∈ (mergeChannel m setValue newKey keys ch).map g := by
    rw [map_mergeChannel g m setValue newKey hset]
    exact List.mem_append_left _ (List.mem_map_of_mem g h0)
  obtain ⟨key, hk, hg⟩ := List.mem_map.mp hmem
  exact ⟨key, hk, hg⟩

theorem nodup_keyTimes_trackKeys (rot : List (D3DXKEY_QUATERNION K))
    (pos sc : List (D3DXKEY_VECTOR3 K))
    (hr : (rot.map (fun r => r.Time)).Nodup)
    (hp : (pos.map (fun c => c.Time)).Nodup)
    (hs : (sc.map (fun c => c.Time)).Nodup) :
    (keyTimes (trackKeys rot pos sc)).Nodup := by
  unfold trackKeys
  simp only
  rw [keyTimes_scaleStep]
  apply nodup_append_newTimes _ _ _ hs
  rw [keyTimes_translationStep]
  apply nodup_append_newTimes _ _ _ hp
  rw [keyTimes_rotationStep_nil]
  exact hr

theorem mem_keyTimes_trackKeys (rot : List (D3DXKEY_QUATERNION K))
    (pos sc : List (D3DXKEY_VECTOR3 K)) (t : K) :
    t ∈ keyTimes (trackKeys rot pos sc) ↔
      t ∈ rot.map (fun r => r.Time) ∨ t ∈ pos.map (fun c => c.Time) ∨
        t ∈ sc.map (fun c => c.Time) := by
  unfold trackKeys
  simp only
  rw [keyTimes_scaleStep, List.mem_append, mem_newTimes, keyTimes_translationStep,
    List.mem_append, mem_newTimes, keyTimes_rotationStep_nil]
  tauto

/-- C26: for every track in which the keys of each single channel have
pairwise distinct times, the merged keys have pairwise distinct times: two
positions of the merged key list holding the same time are the same
position. The lookup built for the translation channel finds every time of
the rotation keys, and the lookup built for the scale channel finds every
time merged before it, so no channel key creates a second key at a time
merged by an earlier channel. -/
theorem C26_no_duplicate_times (rot : List (D3DXKEY_QUATERNION K))
    (pos sc : List (D3DXKEY_VECTOR3 K))
    (hr : (rot.map (fun r => r.Time)).Nodup)
    (hp : (pos.map (fun c => c.Time)).Nodup)
    (hs : (sc.map (fun c => c.Time)).Nodup) :
    (keyTimes (trackKeys rot pos sc)).Nodup ∧
    (∀ (i j : Nat) (key1 key2 : AnimationKey K),
      (trackKeys rot pos sc)[i]? = some key1 → (trackKeys rot pos sc)[j]? = some key2 →
      key1.time = key2.time → i = j) ∧
    (∀ t, t ∈ keyTimes (rotationStep [] rot) →
      ∃ index, buildTimeToIndex (rotationStep [] rot) t = some index) ∧
    (∀ t, t ∈ keyTimes (translationStep (rotationStep [] rot) pos) →
      ∃ index, buildTimeToIndex (translationStep (rotationStep [] rot) pos) t = some index) := by
  have hnd := nodup_keyTimes_trackKeys rot pos sc hr hp hs
  have hlookup : ∀ (keys : List (AnimationKey K)) (t : K), t ∈ keyTimes keys →
      ∃ index, buildTimeToIndex keys t = some index := by
    intro keys t ht
    cases h : buildTimeToIndex keys t with
    | none => exact absurd ht ((buildTimeToIndex_eq_none keys t).mp h)
    | some index => exact ⟨index, rfl⟩
  refine ⟨hnd, ?_, hlookup _, hlookup _⟩
  intro i j key1 key2 h1 h2 ht
  have hi : i < (keyTimes (trackKeys rot pos sc)).length := by
    rcases Nat.lt_or_ge i (trackKeys rot pos sc).length with h | h
    · simpa [keyTimes] using h
    · rw [List.getElem?_eq_none h] at h1; cases h1
  have hj : j < (keyTimes (trackKeys rot pos sc)).length := by
    rcases Nat.lt_or_ge j (trackKeys rot pos sc).length with h | h
    · simpa [keyTimes] using h
    · rw [List.getElem?_eq_none h] at h2; cases h2
  have e1 : (keyTimes (trackKeys rot pos sc))[i]? = some key1.time := by
    simp [keyTimes, h1]
  have e2 : (keyTimes (trackKeys rot pos sc))[j]? = some key2.time := by
    simp [keyTimes, h2]
  rw [List.getElem?_eq_getElem hi] at e1
  rw [List.getElem?_eq_getElem hj] at e2
  have e : (keyTimes (trackKeys rot pos sc))[i] = (keyTimes (trackKeys rot pos sc))[j] := by
    rw [Option.some.inj e1, Option.some.inj e2, ht]
  exact (List.Nodup.getElem_inj_iff hnd).mp e

/-- Witness for C26: rotation keys at times 0 and 1, translation keys at
times 1 and 2 and a scale key at time 2 merge into keys with pairwise
distinct times. -/
theorem C26_witness :
    (keyTimes (trackKeys [(⟨0, ⟨0, 0, 0, 1⟩⟩ : D3DXKEY_QUATERNION ℚ), ⟨1, ⟨0, 0, 0, 1⟩⟩]
      [⟨1, ⟨1, 0, 0⟩⟩, ⟨2, ⟨2, 0, 0⟩⟩] [⟨2, ⟨3, 3, 3⟩⟩])).Nodup :=
  (C26_no_duplicate_times [(⟨0, ⟨0, 0, 0, 1⟩⟩ : D3DXKEY_QUATERNION ℚ), ⟨1, ⟨0, 0, 0, 1⟩⟩]
    [⟨1, ⟨1, 0, 0⟩⟩, ⟨2, ⟨2, 0, 0⟩⟩] [⟨2, ⟨3, 3, 3⟩⟩] (by simp) (by simp) (by simp)).1

/-- C27: for every track in which the keys of each single channel have
pairwise distinct times, the times of the merged keys are exactly the times
of the rotation, translation and scale keys, and for every key `(t, value)`
of a channel there is a merged key at time `t`, every merged key at time `t`
carrying exactly that value in the channel's component: the rotation of a
rotation key, the translation of a translation key, the scale of a scale
key. -/
theorem C27_merged_keys_carry_channel_values (rot : List (D3DXKEY_QUATERNION K))
    (pos sc : List (D3DXKEY_VECTOR3 K))
    (hr : (rot.map (fun r => r.Time)).Nodup)
    (hp : (pos.map (fun c => c.Time)).Nodup)
    (hs : (sc.map (fun c => c.Time)).Nodup) :
    (∀ t, t ∈ keyTimes (trackKeys rot pos sc) ↔
      t ∈ rot.map (fun r => r.Time) ∨ t ∈ pos.map (fun c => c.Time) ∨
        t ∈ sc.map (fun c => c.Time)) ∧
    (∀ r ∈ rot,
      (∃ key ∈ trackKeys rot pos sc, key.time = r.Time) ∧
      ∀ key ∈ trackKeys rot pos sc, key.time = r.Time → key.rotation = r.Value) ∧
    (∀ c ∈ pos,
      (∃ key ∈ trackKeys rot pos sc, key.time = c.Time) ∧
      ∀ key ∈ trackKeys rot pos sc, key.time = c.Time → key.translation = c.Value) ∧
    (∀ c ∈ sc,
      (∃ key ∈ trackKeys rot pos sc, key.time = c.Time) ∧
      ∀ key ∈ trackKeys rot pos sc, key.time = c.Time → key.scale = c.Value) := by
  have hnd := nodup_keyTimes_trackKeys rot pos sc hr hp hs
  have huniq : ∀ (t : K) (key0 : AnimationKey K), key0 ∈ trackKeys rot pos sc →
      key0.time = t → ∀ key ∈ trackKeys rot pos sc, key.time = t → key = key0 := by
    intro t key0 h0 ht0 key hk ht
    exact List.inj_on_of_nodup_map hnd hk h0 (ht.trans ht0.symm)
  have htrack : trackKeys rot pos sc =
      mergeChannel (buildTimeToIndex (translationStep (rotationStep [] rot) pos))
        (fun key v => { key with scale := v }) newScaleKey
        (translationStep (rotationStep [] rot) pos) sc := by
    unfold trackKeys
    simp only
    rw [scaleStep_eq_merge]
  have htrans : translationStep (rotationStep [] rot) pos =
      mergeChannel (buildTimeToIndex (rotationStep [] rot))
        (fun key v => { key with translation := v }) newTranslationKey
        (rotationStep [] rot) pos := translationStep_eq_merge _ _
  refine ⟨mem_keyTimes_trackKeys rot pos sc, ?_, ?_, ?_⟩
  · intro r hrmem
    have h1 : newRotationKey r ∈ rotationStep ([] : List (AnimationKey K)) rot := by
      rw [rotationStep_eq]
      simp only [List.nil_append]
      exact List.mem_map_of_mem newRotationKey hrmem
    obtain ⟨key1, hk1, hg1⟩ := mergeChannel_keeps
      (fun key : AnimationKey K => (key.time, key.rotation))
      (buildTimeToIndex (rotationStep [] rot))
      (fun key v => { key with translation := v }) newTranslationKey (fun _ _ => rfl)
      (rotationStep [] rot) pos _ h1
    rw [← htrans] at hk1
    obtain ⟨key2, hk2, hg2⟩ := mergeChannel_keeps
      (fun key : AnimationKey K => (key.time, key.rotation))
      (buildTimeToIndex (translationStep (rotationStep [] rot) pos))
      (fun key v => { key with scale := v }) newScaleKey (fun _ _ => rfl)
      (translationStep (rotationStep [] rot) pos) sc _ hk1
    rw [← htrack] at hk2
    have hg : (key2.time, key2.rotation) = (r.Time, r.Value) := hg2.trans hg1
    simp only [Prod.mk.injEq] at hg
    refine ⟨⟨key2, hk2, hg.1⟩, ?_⟩
    intro key hk ht
    rw [huniq r.Time key2 hk2 hg.1 key hk ht]
    exact hg.2
  · intro c hcmem
    obtain ⟨key1, hk1, ht1, hv1⟩ := mergeChannel_value
      (fun key v => { key with translation := v }) newTranslationKey
      (fun key => key.translation) (fun _ _ => rfl) (fun _ => rfl) (fun _ _ => rfl)
      (fun _ => rfl) (rotationStep [] rot) pos hp c hcmem
    rw [← htrans] at hk1
    obtain ⟨key2, hk2, hg2⟩ := mergeChannel_keeps
      (fun key : AnimationKey K => (key.time, key.translation))
      (buildTimeToIndex (translationStep (rotationStep [] rot) pos))
      (fun key v => { key with scale := v }) newScaleKey (fun _ _ => rfl)
      (translationStep (rotationStep [] rot) pos) sc _ hk1
    rw [← htrack] at hk2
    simp only [Prod.mk.injEq] at hg2
    refine ⟨⟨key2, hk2, hg2.1.trans ht1⟩, ?_⟩
    intro key hk ht
    rw [huniq c.Time key2 hk2 (hg2.1.trans ht1) key hk ht]
    exact hg2.2.trans hv1
  · intro c hcmem
    obtain ⟨key2, hk2, ht2, hv2⟩ := mergeChannel_value
      (fun key v => { key with scale := v }) newScaleKey
      (fun key => key.scale) (fun _ _ => rfl) (fun _ => rfl) (fun _ _ => rfl)
      (fun _ => rfl) (translationStep (rotationStep [] rot) pos) sc hs c hcmem
    rw [← htrack] at hk2
    refine ⟨⟨key2, hk2, ht2⟩, ?_⟩
    intro key hk ht
    rw [huniq c.Time key2 hk2 ht2 key hk ht]
    exact hv2

/-- Witness for C27: with a rotation key at time 1, a translation key
`(1, (5, 6, 7))` and a scale key at time 1, there is a merged key at time 1
and it has the translation `(5, 6, 7)`. -/
theorem C27_witness :
    ∃ key ∈ trackKeys [(⟨1, ⟨0, 0, 0, 1⟩⟩ : D3DXKEY_QUATERNION ℚ)] [⟨1, ⟨5, 6, 7⟩⟩]
        [⟨1, ⟨2, 2, 2⟩⟩],
      key.time = 1 ∧ key.translation = ⟨5, 6, 7⟩ := by
  obtain ⟨⟨key, hk, ht⟩, hall⟩ :=
    (C27_merged_keys_carry_channel_values [(⟨1, ⟨0, 0, 0, 1⟩⟩ : D3DXKEY_QUATERNION ℚ)]
      [⟨1, ⟨5, 6, 7⟩⟩] [⟨1, ⟨2, 2, 2⟩⟩] (by simp) (by simp) (by simp)).2.2.1
      ⟨1, ⟨5, 6, 7⟩⟩ (by simp)
  exact ⟨key, hk, ht, hall key hk ht⟩

/-! ### Frame hierarchy -/

variable {C Mat : Type}

theorem length_modifyFrame (st : ConvertState K Mat) (p : Nat)
    (f : FrameData K → FrameData K) :
    (st.modifyFrame p f).frames.length = st.frames.length := by
  simp [ConvertState.modifyFrame]

theorem getElem?_modifyFrame_ne (st : ConvertState K Mat) (p i : Nat)
    (f : FrameData K → FrameData K) (h : p ≠ i) :
    (st.modifyFrame p f).frames[i]? = st.frames[i]? := by
  unfold ConvertState.modifyFrame
  simp only
  rw [List.getElem?_set_ne h]

theorem getElem?_modifyFrame_self (st : ConvertState K Mat) (p : Nat)
    (f : FrameData K → FrameData K) (d : FrameData K) (h : st.frames[p]? = some d) :
    (st.modifyFrame p f).frames[p]? = some (f d) := by
  have hlt : p < st.frames.length := by
    rcases Nat.lt_or_ge p st.frames.length with h' | h'
    · exact h'
    · rw [List.getElem?_eq_none h'] at h; cases h
  unfold ConvertState.modifyFrame
  simp only
  rw [List.getElem?_set_self hlt, List.getD_eq_getElem?_getD, h]
  rfl

/-- Lines 174-194 of `ConvertFrame` allocate one record, at the end, filled
with the name, the matrix and the parent, without children. -/
theorem create_spec (ConvertMeshContainer : C → Mat → Option (MeshData K) × Mat)
    (Name : Option String) (TransformationMatrix : D3DXMATRIX K) (pMeshContainer : List C)
    (parent : Option Nat) (st : ConvertState K Mat) :
    (ConvertFrame.create ConvertMeshContainer Name TransformationMatrix pMeshContainer parent
      st).frames.length = st.frames.length + 1 ∧
    (∀ i, i < st.frames.length →
      (ConvertFrame.create ConvertMeshContainer Name TransformationMatrix pMeshContainer parent
        st).frames[i]? = st.frames[i]?) ∧
    ∃ d, (ConvertFrame.create ConvertMeshContainer Name TransformationMatrix pMeshContainer
        parent st).frames[st.frames.length]? = some d ∧
      d.name = Name.getD "" ∧ d.transformMatrix = TransformationMatrix ∧ d.parent = parent ∧
      d.children = [] := by
  have key : ∀ (l : List C) (s : ConvertState K Mat),
      (s.frames.length = st.frames.length + 1 ∧
        (∀ i, i < st.frames.length → s.frames[i]? = st.frames[i]?) ∧
        ∃ d, s.frames[st.frames.length]? = some d ∧
          d.name = Name.getD "" ∧ d.transformMatrix = TransformationMatrix ∧
          d.parent = parent ∧ d.children = []) →
      ((l.foldl (ConvertFrame.meshStep ConvertMeshContainer st.frames.length) s).frames.length =
          st.frames.length + 1 ∧
        (∀ i, i < st.frames.length →
          (l.foldl (ConvertFrame.meshStep ConvertMeshContainer st.frames.length)
            s).frames[i]? = st.frames[i]?) ∧
        ∃ d, (l.foldl (ConvertFrame.meshStep ConvertMeshContainer st.frames.length)
            s).frames[st.frames.length]? = some d ∧
          d.name = Name.getD "" ∧ d.transformMatrix = TransformationMatrix ∧
          d.parent = parent ∧ d.children = []) := by
    intro l
    induction l with
    | nil => intro s hs; exact hs
    | cons c rest ih =>
      intro s hs
      rw [List.foldl_cons]
      apply ih
      obtain ⟨h1, h2, d, h3, h4, h5, h6, h7⟩ := hs
      simp only [ConvertFrame.meshStep]
      split
      · next mesh _ =>
        refine ⟨?_, ?_, { d with meshes := d.meshes ++ [mesh] }, ?_, h4, h5, h6, h7⟩
        · rw [length_modifyFrame]
          exact h1
        · intro i hi
          rw [getElem?_modifyFrame_ne _ _ _ _ (Nat.ne_of_gt hi)]
          exact h2 i hi
        · exact getElem?_modifyFrame_self
            ({ s with materials := (ConvertMeshContainer c s.materials).2 } :
              ConvertState K Mat) _ _ d h3
      · exact ⟨h1, h2, d, h3, h4, h5, h6, h7⟩
  unfold ConvertFrame.create
  apply key
  have hbase : (st.frames ++ [(FrameData.new : FrameData K)])[st.frames.length]? =
      some FrameData.new := by
    rw [List.getElem?_append_right (le_refl _)]
    simp
  refine ⟨?_, ?_, ?_⟩
  · rw [length_modifyFrame, length_modifyFrame]
    cases Name with
    | none => simp
    | some n => simp only [length_modifyFrame]; simp
  · intro i hi
    rw [getElem?_modifyFrame_ne _ _ _ _ (Nat.ne_of_gt hi),
      getElem?_modifyFrame_ne _ _ _ _ (Nat.ne_of_gt hi)]
    cases Name with
    | none => simp only; rw [List.getElem?_append_left hi]
    | some n =>
      simp only
      rw [getElem?_modifyFrame_ne _ _ _ _ (Nat.ne_of_gt hi), List.getElem?_append_left hi]
  · cases Name with
    | none =>
      simp only
      refine ⟨_, getElem?_modifyFrame_self _ _ _ _
        (getElem?_modifyFrame_self _ _ _ _ hbase), rfl, rfl, rfl, rfl⟩
    | some n =>
      simp only
      refine ⟨_, getElem?_modifyFrame_self _ _ _ _
        (getElem?_modifyFrame_self _ _ _ _
          (getElem?_modifyFrame_self
            ({ st with frames := st.frames ++ [FrameData.new] } : ConvertState K Mat)
            _ _ _ hbase)), rfl, rfl, rfl, rfl⟩

/-- The sibling step of `ConvertFrame` (lines 197-202), from the facts about
the recursive call: the records of the whole sibling chain, in reverse
order, are pushed to the children of the parent. -/
theorem linkSibling_spec (ConvertMeshContainer : C → Mat → Option (MeshData K) × Mat)
    (sib : LPD3DXFRAME K C) (parent : Option Nat) (st0 st1 : ConvertState K Mat)
    (ks : List Nat) (hspec : ConvertFrame.Spec ConvertMeshContainer sib parent st0 ks)
    (hparent : ∀ p, parent = some p → p < st0.frames.length)
    (hst1 : st1 = if sib.isNull then st0
      else ConvertFrame.linkSibling parent (ConvertFrame ConvertMeshContainer sib parent st0)) :
    st0.frames.length ≤ st1.frames.length ∧
    (∀ i, i < st0.frames.length → parent ≠ some i → st1.frames[i]? = st0.frames[i]?) ∧
    (∀ p old, parent = some p → st0.frames[p]? = some old →
      st1.frames[p]? = some { old with children := old.children ++ ks.reverse.map some }) ∧
    (∀ (j k : Nat) (c : LPD3DXFRAME K C), ks[j]? = some k → sib.siblingChain[j]? = some c →
      ConvertFrame.ConvertedAt st1 k c parent) := by
  cases sib with
  | null =>
    have hks : ks = [] := List.eq_nil_of_length_eq_zero hspec.length
    subst hks
    have h1 : st1 = st0 := by rw [hst1]; rfl
    subst h1
    refine ⟨le_refl _, fun _ _ _ => rfl, ?_, ?_⟩
    · intro p old _ hold
      rw [hold]
      simp
    · intro j k c hk
      simp at hk
  | frame Name TransformationMatrix pMeshContainer pFrameSibling pFrameFirstChild =>
    have h1 : st1 = ConvertFrame.linkSibling parent
        (ConvertFrame ConvertMeshContainer
          (.frame Name TransformationMatrix pMeshContainer pFrameSibling pFrameFirstChild)
          parent st0) := by
      rw [hst1]; rfl
    obtain ⟨k1, rest, hks⟩ : ∃ k1 rest, ks = k1 :: rest := by
      cases ks with
      | nil => have := hspec.length; simp [LPD3DXFRAME.siblingChain] at this
      | cons a l => exact ⟨a, l, rfl⟩
    subst hks
    have hret := hspec.result
    simp only [List.head?_cons] at hret
    cases parent with
    | none =>
      have h2 : st1 = (ConvertFrame ConvertMeshContainer
          (.frame Name TransformationMatrix pMeshContainer pFrameSibling pFrameFirstChild)
          none st0).1 := by
        rw [h1]; rfl
      rw [h2]
      refine ⟨hspec.grows, hspec.others, ?_, hspec.converted⟩
      intro p old hp
      cases hp
    | some p =>
      have h2 : st1 = (ConvertFrame ConvertMeshContainer
          (.frame Name TransformationMatrix pMeshContainer pFrameSibling pFrameFirstChild)
          (some p) st0).1.modifyFrame p
            (fun d => { d with children := d.children ++ [some k1] }) := by
        rw [h1]
        unfold ConvertFrame.linkSibling
        simp only [hret]
      have hp : p < st0.frames.length := hparent p rfl
      rw [h2]
      refine ⟨?_, ?_, ?_, ?_⟩
      · rw [length_modifyFrame]
        exact hspec.grows
      · intro i hi hne
        have hpi : p ≠ i := fun h => hne (by rw [h])
        rw [getElem?_modifyFrame_ne _ _ _ _ hpi]
        exact hspec.others i hi hne
      · intro p' old hp' hold
        have hpp : p' = p := (Option.some.inj hp').symm
        subst hpp
        rw [getElem?_modifyFrame_self _ _ _ _ (hspec.pushed p' old rfl hold)]
        simp [List.append_assoc]
      · intro j k c hk hc
        have hfresh := hspec.fresh k (List.mem_iff_getElem?.mpr ⟨j, hk⟩)
        have hpk : p ≠ k := by omega
        obtain ⟨node, hnode, hrest⟩ := hspec.converted j k c hk hc
        exact ⟨node, by rw [getElem?_modifyFrame_ne _ _ _ _ hpk]; exact hnode, hrest⟩

/-- What a call of `ConvertFrame` does: the facts of `ConvertFrame.Spec` for
the records `ks` of the sibling chain, and for the returned record its
children, which are the records `nodes` of the sibling chain of the first
child in reverse order, each filled from its frame with the returned record
as parent. -/
theorem convertFrame_spec (ConvertMeshContainer : C → Mat → Option (MeshData K) × Mat)
    (d3dFrame : LPD3DXFRAME K C) :
    ∀ (parent : Option Nat) (st : ConvertState K Mat),
      (∀ p, parent = some p → p < st.frames.length) →
      ∃ ks : List Nat, ConvertFrame.Spec ConvertMeshContainer d3dFrame parent st ks ∧
        ∀ frame, (ConvertFrame ConvertMeshContainer d3dFrame parent st).2 = some frame →
          ∃ (node : FrameData K) (nodes : List Nat),
            (ConvertFrame ConvertMeshContainer d3dFrame parent st).1.frames[frame]? =
              some node ∧
            node.children = nodes.reverse.map some ∧
            nodes.length = d3dFrame.pFrameFirstChild.siblingChain.length ∧
            nodes.Pairwise (fun a b => a < b) ∧
            ∀ (j k : Nat) (c : LPD3DXFRAME K C), nodes[j]? = some k →
              d3dFrame.pFrameFirstChild.siblingChain[j]? = some c →
              ConvertFrame.ConvertedAt
                (ConvertFrame ConvertMeshContainer d3dFrame parent st).1 k c (some frame) := by
  induction d3dFrame with
  | null =>
    intro parent st _
    refine ⟨[], ?_, ?_⟩
    · exact
        { result := rfl
          length := rfl
          increasing := List.Pairwise.nil
          fresh := fun _ h => by cases h
          grows := le_refl _
          others := fun _ _ _ => rfl
          pushed := fun p old _ hold => by
            show st.frames[p]? = _
            rw [hold]
            simp
          converted := fun j k c hk => by simp at hk }
    · intro frame h
      cases h
  | frame Name TransformationMatrix pMeshContainer pFrameSibling pFrameFirstChild ihs ihc =>
    intro parent st hparent
    obtain ⟨hlen0, hlow0, d0, hd0, hname0, hmat0, hpar0, hch0⟩ :=
      create_spec ConvertMeshContainer Name TransformationMatrix pMeshContainer parent st
    generalize hst0 : ConvertFrame.create ConvertMeshContainer Name TransformationMatrix
      pMeshContainer parent st = st0 at hlen0 hlow0 hd0
    have hparent0 : ∀ p, parent = some p → p < st0.frames.length := by
      intro p hp
      have := hparent p hp
      omega
    obtain ⟨kss, hs, -⟩ := ihs parent st0 hparent0
    obtain ⟨a1, a2, a3, a4⟩ := linkSibling_spec ConvertMeshContainer pFrameSibling parent st0
      _ kss hs hparent0 rfl
    generalize hst1 : (if pFrameSibling.isNull then st0
      else ConvertFrame.linkSibling parent
        (ConvertFrame ConvertMeshContainer pFrameSibling parent st0)) = st1 at a1 a2 a3 a4
    have hn1 : st.frames.length < st1.frames.length := by omega
    have hparent1 : ∀ p, some st.frames.length = some p → p < st1.frames.length := by
      intro p hp
      rw [← Option.some.inj hp]
      exact hn1
    obtain ⟨ksc, hc, -⟩ := ihc (some st.frames.length) st1 hparent1
    obtain ⟨b1, b2, b3, b4⟩ := linkSibling_spec ConvertMeshContainer pFrameFirstChild
      (some st.frames.length) st1 _ ksc hc hparent1 rfl
    have hres : ConvertFrame ConvertMeshContainer
        (.frame Name TransformationMatrix pMeshContainer pFrameSibling pFrameFirstChild)
        parent st =
        (if pFrameFirstChild.isNull then st1
          else ConvertFrame.linkSibling (some st.frames.length)
            (ConvertFrame ConvertMeshContainer pFrameFirstChild (some st.frames.length) st1),
          some st.frames.length) := by
      rw [← hst1, ← hst0]
      rfl
    generalize hst2 : (if pFrameFirstChild.isNull then st1
      else ConvertFrame.linkSibling (some st.frames.length)
        (ConvertFrame ConvertMeshContainer pFrameFirstChild (some st.frames.length) st1)) =
      st2 at b1 b2 b3 b4 hres
    have e1 : (ConvertFrame ConvertMeshContainer
        (.frame Name TransformationMatrix pMeshContainer pFrameSibling pFrameFirstChild)
        parent st).1 = st2 := by rw [hres]
    have e2 : (ConvertFrame ConvertMeshContainer
        (.frame Name TransformationMatrix pMeshContainer pFrameSibling pFrameFirstChild)
        parent st).2 = some st.frames.length := by rw [hres]
    have hparentn : parent ≠ some st.frames.length := by
      intro h
      exact absurd (hparent _ h) (lt_irrefl _)
    have hself1 : st1.frames[st.frames.length]? = some d0 := by
      rw [a2 _ (by omega) hparentn]
      exact hd0
    have hself2 := b3 _ d0 rfl hself1
    rw [hch0, List.nil_append] at hself2
    refine ⟨st.frames.length :: kss, ?_, ?_⟩
    · refine
        { result := e2
          length := by
            simp only [List.length_cons, LPD3DXFRAME.siblingChain]
            rw [hs.length]
          increasing := ?_
          fresh := ?_
          grows := by rw [e1]; omega
          others := ?_
          pushed := ?_
          converted := ?_ }
      · rw [List.pairwise_cons]
        refine ⟨?_, hs.increasing⟩
        intro k hk
        have := hs.fresh k hk
        omega
      · intro k hk
        rcases List.mem_cons.mp hk with h | h
        · rw [h]
        · have := hs.fresh k h
          omega
      · intro i hi hne
        rw [e1, b2 i (by omega) (by
          intro h
          have : st.frames.length = i := Option.some.inj h
          omega), a2 i (by omega) hne]
        exact hlow0 i hi
      · intro p old hp hold
        have hplt : p < st.frames.length := hparent p hp
        rw [e1, b2 p (by omega) (by
          intro h
          have : st.frames.length = p := Option.some.inj h
          omega)]
        have hold0 : st0.frames[p]? = some old := by
          rw [hlow0 p hplt]
          exact hold
        rw [a3 p old hp hold0]
        rfl
      · intro j k c hk hcc
        rw [e1]
        cases j with
        | zero =>
          simp only [List.getElem?_cons_zero, Option.some.injEq] at hk
          simp only [LPD3DXFRAME.siblingChain, List.getElem?_cons_zero,
            Option.some.injEq] at hcc
          subst hk
          subst hcc
          exact ⟨_, hself2, hname0, hmat0, hpar0⟩
        | succ j =>
          simp only [List.getElem?_cons_succ] at hk
          simp only [LPD3DXFRAME.siblingChain, List.getElem?_cons_succ] at hcc
          obtain ⟨node, hnode, hrest⟩ := a4 j k c hk hcc
          have hfresh := hs.fresh k (List.mem_iff_getElem?.mpr ⟨j, hk⟩)
          have hklt : k < st1.frames.length := by
            rcases Nat.lt_or_ge k st1.frames.length with h | h
            · exact h
            · rw [List.getElem?_eq_none h] at hnode; cases hnode
          refine ⟨node, ?_, hrest⟩
          rw [b2 k hklt (by
            intro h
            have : st.frames.length = k := Option.some.inj h
            omega)]
          exact hnode
    · intro frame hframe
      rw [e2] at hframe
      have hf : st.frames.length = frame := Option.some.inj hframe
      subst hf
      rw [e1]
      refine ⟨_, ksc, hself2, rfl, ?_, hc.increasing, ?_⟩
      · rw [hc.length]
        rfl
      · intro j k c hk hcc
        exact b4 j k c hk hcc

/-- C30: for every source frame, called with a null parent or with a parent
that was allocated before, `ConvertFrame` returns a record that has the name
of the frame and the given parent and whose children are exactly the records
allocated for the frames `c1, ..., cn` of the sibling chain of its first
child, one per frame (`nodes`, in chain order, pairwise distinct), listed in
the reverse order `cn, ..., c1`; each of them has the name and the matrix of
its frame and the returned record as parent. -/
theorem C30_children_in_reverse_sibling_order
    (ConvertMeshContainer : C → Mat → Option (MeshData K) × Mat)
    (d3dFrame : LPD3DXFRAME K C) (parent : Option Nat) (st : ConvertState K Mat)
    (hframe : d3dFrame.isNull = false)
    (hparent : ∀ p, parent = some p → p < st.frames.length) :
    ∃ (frame : Nat) (node : FrameData K) (nodes : List Nat),
      (ConvertFrame ConvertMeshContainer d3dFrame parent st).2 = some frame ∧
      (ConvertFrame ConvertMeshContainer d3dFrame parent st).1.frames[frame]? = some node ∧
      node.name = d3dFrame.Name.getD "" ∧ node.parent = parent ∧
      node.children = nodes.reverse.map some ∧
      nodes.length = d3dFrame.pFrameFirstChild.siblingChain.length ∧
      nodes.Pairwise (fun a b => a < b) ∧
      ∀ (j k : Nat) (c : LPD3DXFRAME K C), nodes[j]? = some k →
        d3dFrame.pFrameFirstChild.siblingChain[j]? = some c →
        ∃ child, (ConvertFrame ConvertMeshContainer d3dFrame parent st).1.frames[k]? =
            some child ∧
          child.name = c.Name.getD "" ∧
          child.transformMatrix = c.TransformationMatrix ∧
          child.parent = some frame := by
  obtain ⟨ks, hs, htop⟩ := convertFrame_spec ConvertMeshContainer d3dFrame parent st hparent
  cases d3dFrame with
  | null => cases hframe
  | frame Name TransformationMatrix pMeshContainer pFrameSibling pFrameFirstChild =>
    obtain ⟨k1, rest, hks⟩ : ∃ k1 rest, ks = k1 :: rest := by
      cases ks with
      | nil => have := hs.length; simp [LPD3DXFRAME.siblingChain] at this
      | cons a l => exact ⟨a, l, rfl⟩
    subst hks
    have hret := hs.result
    simp only [List.head?_cons] at hret
    obtain ⟨node, nodes, hnode, hchildren, hlen, hinc, hconv⟩ := htop k1 hret
    obtain ⟨node', hnode', hname, -, hpar⟩ := hs.converted 0 k1
      (.frame Name TransformationMatrix pMeshContainer pFrameSibling pFrameFirstChild)
      (by simp) (by simp [LPD3DXFRAME.siblingChain])
    rw [hnode] at hnode'
    have hnn : node = node' := Option.some.inj hnode'
    subst hnn
    exact ⟨k1, node, nodes, hret, hnode, hname, hpar, hchildren, hlen, hinc, hconv⟩

/-- The records of the frame `Root` with the children `A` and `B`: the
children of the record of `Root` are the record of `B`, then that of `A`. -/
theorem convertFrame_frameTree :
    (ConvertFrame Ref.noMesh Ref.frameTree none ⟨[], ()⟩).2 = some 0 ∧
    (ConvertFrame Ref.noMesh Ref.frameTree none ⟨[], ()⟩).1.frames.map
        (fun d => (d.name, d.parent, d.children)) =
      [("Root", none, [some 2, some 1]), ("A", some 0, []), ("B", some 0, [])] := by
  constructor
  · rfl
  · rfl

/-- Witness for C30: the frame `Root` with the children `A` and `B`,
converted with a null parent into an empty state. -/
theorem C30_witness :
    ∃ (frame : Nat) (node : FrameData ℚ) (nodes : List Nat),
      (ConvertFrame Ref.noMesh Ref.frameTree none ⟨[], ()⟩).2 = some frame ∧
      (ConvertFrame Ref.noMesh Ref.frameTree none ⟨[], ()⟩).1.frames[frame]? = some node ∧
      node.name = Ref.frameTree.Name.getD "" ∧ node.parent = none ∧
      node.children = nodes.reverse.map some ∧
      nodes.length = Ref.frameTree.pFrameFirstChild.siblingChain.length ∧
      nodes.Pairwise (fun a b => a < b) ∧
      ∀ (j k : Nat) (c : LPD3DXFRAME ℚ Unit), nodes[j]? = some k →
        Ref.frameTree.pFrameFirstChild.siblingChain[j]? = some c →
        ∃ child, (ConvertFrame Ref.noMesh Ref.frameTree none ⟨[], ()⟩).1.frames[k]? =
            some child ∧
          child.name = c.Name.getD "" ∧
          child.transformMatrix = c.TransformationMatrix ∧
          child.parent = some frame :=
  C30_children_in_reverse_sibling_order Ref.noMesh Ref.frameTree none ⟨[], ()⟩ rfl
    (fun _ h => by cases h)

end XFileParser

end DXFbx
